import Mathlib

/-!
# Verification of the RCCL topology channel-search engine (`src/graph/search.cc`)

This file gives a shallow embedding, in Lean 4, of the channel-search engine of
the RCCL topology planner: the bandwidth ledger (`followPath`), the path
follower (`ncclTopoFollowPath`), the peer-ordering sort, the NET selector, the
recursive backtracking search (`ncclTopoSearchRecGpu` / `ncclTopoSearchRecNet`
/ `ncclTopoSearchRec`), the solution comparator, and the outer optimization
loop (`ncclTopoCompute`), together with theorems about them.

Modelling conventions:
* C `float` bandwidths are modelled as exact rationals `ℚ`; the `SUB_ROUND`
  macro (`roundf((a-b)*1000)/1000`) is modelled with an exact
  round-half-away-from-zero on `ℚ`, which is the behaviour of `roundf` on
  exactly-represented arguments.
* Mutable in-place state (link bandwidths, GPU `used` bitmasks, NET `bw` and
  `maxChannels` counters) is collected in a state record `St` threaded through
  the functions.
* C functions returning `ncclResult_t` and out-parameters become Lean
  functions returning `Option` of their results; `none` corresponds to an
  error return propagated by `NCCLCHECK` (or, for the fueled recursion, to
  fuel exhaustion, which does not occur in the terminating C code).
* The recursion of the search is made structural with an explicit fuel
  parameter; every recursive call consumes one unit.
-/

namespace RcclSearch

/-! ## Constants

Node-type, link-type and path-type constants.  The numeric values come from
the repository's `topo.h` / `graph.h` headers, which are not part of the
sources under verification; only their distinctness and the documented
total order of path types (`LOC < NVL < NVB < PIX < PXB < PXN < PHB < SYS`,
the order of `kvDictLinkType` in `search.cc`) matter below. -/

def GPU : ℕ := 0
def PCI : ℕ := 1
def NVS : ℕ := 2
def CPU : ℕ := 3
def NIC : ℕ := 4
def NET : ℕ := 5

def LINK_LOC : ℕ := 0
def LINK_NVL : ℕ := 1
def LINK_PCI : ℕ := 2
def LINK_SYS : ℕ := 3
def LINK_NET : ℕ := 4

def PATH_LOC : ℕ := 0
def PATH_NVL : ℕ := 1
def PATH_NVB : ℕ := 2
def PATH_PIX : ℕ := 3
def PATH_PXB : ℕ := 4
def PATH_PXN : ℕ := 5
def PATH_PHB : ℕ := 6
def PATH_SYS : ℕ := 7

/-- `NCCL_TOPO_PATTERN_*` constants (from `graph.h`). -/
def PATTERN_BALANCED_TREE : ℕ := 1
def PATTERN_SPLIT_TREE : ℕ := 2
def PATTERN_TREE : ℕ := 3
def PATTERN_RING : ℕ := 4

def ARCH_X86 : ℕ := 1
def VENDOR_INTEL : ℕ := 1

def FORCED_ORDER_PCI : ℕ := 1
def FORCED_ORDER_REPLAY : ℕ := 2

/-! ## Rounding

`SUB_ROUND(a, b)` is `a = roundf((a-b)*1000)/1000`.  `roundf` rounds half away
from zero. -/

/-- Round half away from zero on `ℚ` (the behaviour of C `roundf` on exact
arguments). -/
def rq (x : ℚ) : ℤ := if 0 ≤ x then ⌊x + 1/2⌋ else ⌈x - 1/2⌉

/-- The `SUB_ROUND` macro of `search.cc`: subtract and round to the nearest
1/1000. -/
def subRound (a b : ℚ) : ℚ := (rq ((a - b) * 1000) : ℚ) / 1000

/-- A rational lies on the 1/1000 rounding grid. -/
def onGrid (q : ℚ) : Prop := (q * 1000).den = 1

instance (q : ℚ) : Decidable (onGrid q) := by unfold onGrid; infer_instance

/-! ## Static topology data -/

/-- Reference to a link: (owner node type, owner node index, link index). -/
abbrev LinkRef : Type := ℕ × ℕ × ℕ

/-- Reference to a node: (node type, node index). -/
abbrev NodeRef : Type := ℕ × ℕ

/-- Static data of a GPU node (`node->gpu`); the `used` bitmask is mutable and
lives in `St`. -/
structure GpuS where
  dev : ℕ
  cudaCompCap : ℕ
  rank : List ℤ
  deriving DecidableEq, Repr

/-- Static data of a CPU node (`node->cpu`). -/
structure CpuS where
  arch : ℕ
  vendor : ℕ
  deriving DecidableEq, Repr

/-- Static data of a NET node (`node->net`); the `bw` and `maxChannels`
fields are mutable and live in `St`. -/
structure NetS where
  asic : ℤ
  port : ℤ
  latency : ℚ
  collSupport : ℕ
  deriving DecidableEq, Repr

/-- Static data of a link (`ncclTopoLink`); the `bw` field is mutable and
lives in `St`. -/
structure LinkS where
  ltype : ℕ
  remType : ℕ
  remIdx : ℕ
  deriving DecidableEq, Repr

/-- A precomputed path (`ncclTopoLinkList`): list of link references, path
type, and nominal bandwidth.  `count` is the length of `plist`. -/
structure PathS where
  plist : List LinkRef
  ptype : ℕ
  pbw : ℚ
  deriving DecidableEq, Repr

/-- A topology node (`ncclTopoNode`).  `paths` is indexed by destination node
type, then destination node index. -/
structure NodeS where
  ntype : ℕ
  id : ℤ
  gpu : GpuS
  cpu : CpuS
  net : NetS
  links : List LinkS
  paths : List (List PathS)
  deriving Repr

def dfltGpu : GpuS := ⟨0, 0, [], ⟩
def dfltCpu : CpuS := ⟨0, 0⟩
def dfltNet : NetS := ⟨0, 0, 0, 0⟩
def dfltNode : NodeS := ⟨0, 0, dfltGpu, dfltCpu, dfltNet, [], []⟩
def dfltPath : PathS := ⟨[], 0, 0⟩

/-- The static topology system (`ncclTopoSystem`), plus the
implementation-supplied parameters that live outside `search.cc`:

* `intelMul`: modelled from the spec: `INTEL_P2P_OVERHEAD` (defined in the
  repository's `topo.h`, not among the sources) is "an implementation-supplied
  multiplier on `bw`" (spec §4.1); we model it as multiplication by `intelMul`.
* `gdr`: modelled from the spec: `ncclTopoCheckGdr` (defined elsewhere in the
  repository) only influences which first GPU the search tries; we model it as
  an abstract boolean predicate on (gpu id, net id). -/
structure Sys where
  nodes : List (List NodeS)
  nRanks : ℕ
  romeType : Bool
  maxBw : ℚ
  totalBw : ℚ
  intelMul : ℚ
  gdr : ℤ → ℤ → Bool

/-- `system->nodes[t].nodes[i]`. -/
def Sys.node (s : Sys) (t i : ℕ) : NodeS := (s.nodes.getD t []).getD i dfltNode

/-- `system->nodes[t].count`. -/
def Sys.count (s : Sys) (t : ℕ) : ℕ := (s.nodes.getD t []).length

/-- The static data of the link referred to by `ref`. -/
def Sys.linkAt (s : Sys) (ref : LinkRef) : LinkS :=
  (s.node ref.1 ref.2.1).links.getD ref.2.2 ⟨0, 0, 0⟩

/-- `node1->paths[t2]+i2`. -/
def Sys.pathAt (s : Sys) (t1 i1 t2 i2 : ℕ) : PathS :=
  ((s.node t1 i1).paths.getD t2 []).getD i2 dfltPath

/-! ## Mutable state -/

/-- The mutable state of the search: link bandwidths, GPU `used` bitmasks, and
NET `bw` / `maxChannels`. -/
@[ext]
structure St where
  linkBw : LinkRef → ℚ
  used : ℕ → ℕ
  netBw : ℕ → ℚ
  netMaxCh : ℕ → ℤ

def St.setLinkBw (st : St) (ref : LinkRef) (q : ℚ) : St :=
  { st with linkBw := fun r => if r = ref then q else st.linkBw r }

def St.setUsed (st : St) (g : ℕ) (m : ℕ) : St :=
  { st with used := fun r => if r = g then m else st.used r }

def St.setNetBw (st : St) (n : ℕ) (q : ℚ) : St :=
  { st with netBw := fun r => if r = n then q else st.netBw r }

def St.setNetMaxCh (st : St) (n : ℕ) (m : ℤ) : St :=
  { st with netMaxCh := fun r => if r = n then m else st.netMaxCh r }

/-! ## The graph under construction (`ncclTopoGraph`) -/

/-- `ncclTopoGraph`.  `intra` and `inter` are modelled as total maps from flat
array index to rank / net id (the C arrays have fixed capacity). -/
structure Graph where
  id : ℕ
  pattern : ℕ
  crossNic : ℤ
  collNet : ℕ
  bwIntra : ℚ
  bwInter : ℚ
  typeIntra : ℕ
  typeInter : ℕ
  nChannels : ℕ
  minChannels : ℕ
  maxChannels : ℕ
  sameChannels : ℕ
  nHops : ℤ
  latencyInter : ℚ
  intra : ℕ → ℤ
  inter : ℕ → ℤ

def Graph.setIntra (g : Graph) (i : ℕ) (v : ℤ) : Graph :=
  { g with intra := fun j => if j = i then v else g.intra j }

def Graph.setInter (g : Graph) (i : ℕ) (v : ℤ) : Graph :=
  { g with inter := fun j => if j = i then v else g.inter j }

/-- The fields of a `Graph` that every search call leaves unchanged (all
fields except `intra`, `inter`, `latencyInter`). -/
def Graph.core (g : Graph) :
    ℕ × ℕ × ℤ × ℕ × ℚ × ℚ × ℕ × ℕ × ℕ × ℕ × ℕ × ℕ × ℤ :=
  (g.id, g.pattern, g.crossNic, g.collNet, g.bwIntra, g.bwInter, g.typeIntra,
   g.typeInter, g.nChannels, g.minChannels, g.maxChannels, g.sameChannels,
   g.nHops)

/-! ## BandwidthLedger: `findRevLink` and `followPath` -/

/-- `findRevLink(node1, node2)`: index of the first link of `node2` whose
remote node is `node1`; `none` is the `ncclInternalError` path. -/
def findRevLink (sys : Sys) (node1 node2 : NodeRef) : Option LinkRef :=
  match ((sys.node node2.1 node2.2).links).findIdx?
      (fun l => l.remType = node1.1 ∧ l.remIdx = node1.2) with
  | some l => some (node2.1, node2.2, l)
  | none => none

/-- `float fwBw = link->type == LINK_PCI ? pciBw : bw`. -/
def fwOf (sys : Sys) (pciBw bw : ℚ) (ref : LinkRef) : ℚ :=
  if (sys.linkAt ref).ltype = LINK_PCI then pciBw else bw

/-- The condition for the `fwBw/8` reverse charge: remote node is a GPU with
compute capability below 80 and the traversal did not start at a GPU. -/
def needRev1 (sys : Sys) (startType : ℕ) (ref : LinkRef) : Bool :=
  let rem := sys.node (sys.linkAt ref).remType (sys.linkAt ref).remIdx
  rem.ntype = GPU && rem.gpu.cudaCompCap < 80 && startType ≠ GPU

/-- The condition for the full reverse charge: remote node is a CPU and the
link is an NVL link. -/
def needRev2 (sys : Sys) (ref : LinkRef) : Bool :=
  let rem := sys.node (sys.linkAt ref).remType (sys.linkAt ref).remIdx
  rem.ntype = CPU && (sys.linkAt ref).ltype = LINK_NVL

/-- The accumulated reverse bandwidth `revBw` of one step. -/
def revAmt (sys : Sys) (startType : ℕ) (ref : LinkRef) (fwBw : ℚ) : ℚ :=
  (if needRev1 sys startType ref then fwBw / 8 else 0) +
  (if needRev2 sys ref then fwBw else 0)

/-- One step of the main loop of `followPath`: the forward bandwidth, the
reverse-charge bandwidth and the reverse link, as determined by the static
topology.  Returns `none` when a needed reverse link is missing
(`ncclInternalError`). -/
def stepCharges (sys : Sys) (startType : ℕ) (pciBw bw : ℚ) (ref : LinkRef)
    (node : NodeRef) : Option (ℚ × Option (LinkRef × ℚ)) :=
  let link := sys.linkAt ref
  let fwBw := fwOf sys pciBw bw ref
  if needRev1 sys startType ref || needRev2 sys ref then
    match findRevLink sys node (link.remType, link.remIdx) with
    | none => none
    | some revRef => some (fwBw, some (revRef, revAmt sys startType ref fwBw))
  else
    some (fwBw, none)

/-- The capacity test of `followPath`:
`link->bw < fwBw || (revBw && revLink->bw < revBw)`. -/
def stepStops (st : St) (ref : LinkRef) (fwBw : ℚ)
    (rev : Option (LinkRef × ℚ)) : Bool :=
  st.linkBw ref < fwBw ||
    (match rev with
     | some (r, a) => a ≠ 0 && st.linkBw r < a
     | none => false)

/-- Apply the `SUB_ROUND` charges of one step to the state. -/
def stepApply (st : St) (ref : LinkRef) (fwBw : ℚ)
    (rev : Option (LinkRef × ℚ)) : St :=
  let st1 := st.setLinkBw ref (subRound (st.linkBw ref) fwBw)
  match rev with
  | some (r, a) => if a ≠ 0 then st1.setLinkBw r (subRound (st1.linkBw r) a)
                   else st1
  | none => st1

/-- The main loop of `followPath` (`search.cc` lines 82-101): walk the link
list, charging forward (and, where applicable, reverse) bandwidth with
`SUB_ROUND`, stopping at the first link without enough capacity.  Returns the
updated state and the step counter (`*steps`). -/
def followSteps (sys : Sys) (startType : ℕ) (pciBw bw : ℚ) :
    List LinkRef → NodeRef → ℕ → St → Option (St × ℕ)
  | [], _, acc, st => some (st, acc)
  | ref :: rest, node, acc, st =>
    match stepCharges sys startType pciBw bw ref node with
    | none => none
    | some (fwBw, rev) =>
      if stepStops st ref fwBw rev then some (st, acc)
      else
        followSteps sys startType pciBw bw rest
          ((sys.linkAt ref).remType, (sys.linkAt ref).remIdx)
          (acc + 1) (stepApply st ref fwBw rev)

/-- The Intel P2P condition of the first loop of `followPath`: the path type
is `PHB`, the traversal starts at a GPU, and some node on the path is an Intel
x86 CPU. -/
def intelCond (sys : Sys) (path : PathS) (startType : ℕ) : Bool :=
  path.ptype = PATH_PHB && startType = GPU &&
    path.plist.any (fun ref =>
      let rem := sys.node (sys.linkAt ref).remType (sys.linkAt ref).remIdx
      rem.ntype = CPU && rem.cpu.arch = ARCH_X86 &&
        rem.cpu.vendor = VENDOR_INTEL)

/-- `followPath(path, start, maxSteps, bw, &steps)`. -/
def followPath (sys : Sys) (path : PathS) (start : NodeRef) (maxSteps : ℕ)
    (bw : ℚ) (st : St) : Option (St × ℕ) :=
  followSteps sys (sys.node start.1 start.2).ntype
    (if intelCond sys path (sys.node start.1 start.2).ntype then
      sys.intelMul * bw else bw)
    bw (path.plist.take maxSteps) start 0 st

/-- Truncation of a rational toward zero (the C `float`-to-`int`
conversion). -/
def truncQ (q : ℚ) : ℤ := if 0 ≤ q then ⌊q⌋ else -⌊-q⌋

/-- `ncclTopoFollowPath(system, graph, type1, index1, type2, index2, mult,
&node)`.  Returns the updated state and graph and the destination node
(`none` meaning the `NULL` out-parameter). -/
def ncclTopoFollowPath (sys : Sys) (st : St) (graph : Graph) (t1 : ℤ)
    (i1 : ℕ) (t2 i2 : ℕ) (mult : ℤ) :
    Option (St × Graph × Option NodeRef) :=
  if t1 = -1 then some (st, graph, some (t2, i2))
  else if (sys.pathAt t1.toNat i1 t2 i2).plist.length = 0 then
    some (st, graph, some (t2, i2))
  else if mult = 1 ∧ (sys.pathAt t1.toNat i1 t2 i2).ptype >
      (if t1 = (GPU : ℕ) ∧ t2 = GPU then graph.typeIntra else graph.typeInter)
    then some (st, graph, none)
  else
    match followPath sys (sys.pathAt t1.toNat i1 t2 i2) (t1.toNat, i1)
        (sys.pathAt t1.toNat i1 t2 i2).plist.length
        ((if t1 = (GPU : ℕ) ∧ t2 = GPU then graph.bwIntra else graph.bwInter)
          * mult) st with
    | none => none
    | some (st1, step) =>
      if step < (sys.pathAt t1.toNat i1 t2 i2).plist.length then
        -- rewind
        match followPath sys (sys.pathAt t1.toNat i1 t2 i2) (t1.toNat, i1) step
            (-((if t1 = (GPU : ℕ) ∧ t2 = GPU then graph.bwIntra
                else graph.bwInter) * mult)) st1 with
        | none => none
        | some (st2, _) => some (st2, graph, none)
      else
        some (st1, { graph with nHops := graph.nHops +
            mult * (sys.pathAt t1.toNat i1 t2 i2).plist.length },
          some (t2, i2))

/-! ## Rounding lemmas -/

theorem rq_intCast (n : ℤ) : rq (n : ℚ) = n := by
  unfold rq
  split
  · rw [show ((n : ℚ) + 1/2) = (1/2 : ℚ) + n by ring, Int.floor_add_int]
    norm_num
  · rw [show ((n : ℚ) - 1/2) = (-(1/2) : ℚ) + n by ring, Int.ceil_add_int]
    norm_num

theorem onGrid_iff {q : ℚ} : onGrid q ↔ ∃ n : ℤ, q * 1000 = (n : ℚ) := by
  constructor
  · intro h
    exact ⟨(q * 1000).num, ((Rat.den_eq_one_iff _).mp h).symm⟩
  · rintro ⟨n, hn⟩
    unfold onGrid
    rw [hn]
    exact Rat.den_intCast n

theorem onGrid_intDiv1000 (k : ℤ) : onGrid ((k : ℚ) / 1000) := by
  rw [onGrid_iff]
  exact ⟨k, by field_simp⟩

theorem onGrid_subRound (a b : ℚ) : onGrid (subRound a b) :=
  onGrid_intDiv1000 _

theorem subRound_exact {a b : ℚ} (ha : onGrid a) (hb : onGrid b) :
    subRound a b = a - b := by
  rw [onGrid_iff] at ha hb
  obtain ⟨n, hn⟩ := ha
  obtain ⟨m, hm⟩ := hb
  unfold subRound
  have h : (a - b) * 1000 = ((n - m : ℤ) : ℚ) := by push_cast; linarith
  rw [h, rq_intCast]
  have h1000 : (1000 : ℚ) ≠ 0 := by norm_num
  field_simp
  push_cast
  linarith

theorem onGrid_neg {a : ℚ} (ha : onGrid a) : onGrid (-a) := by
  rw [onGrid_iff] at ha ⊢
  obtain ⟨n, hn⟩ := ha
  exact ⟨-n, by push_cast; linarith⟩

theorem onGrid_add {a b : ℚ} (ha : onGrid a) (hb : onGrid b) :
    onGrid (a + b) := by
  rw [onGrid_iff] at ha hb ⊢
  obtain ⟨n, hn⟩ := ha
  obtain ⟨m, hm⟩ := hb
  exact ⟨n + m, by push_cast; linarith⟩

theorem onGrid_sub {a b : ℚ} (ha : onGrid a) (hb : onGrid b) :
    onGrid (a - b) := by
  rw [sub_eq_add_neg]; exact onGrid_add ha (onGrid_neg hb)

/-! ## Charge-list normal form for the ledger -/

/-- Add `a` to the bandwidth of link `r` (exact, no rounding). -/
def bump (st : St) (r : LinkRef) (a : ℚ) : St :=
  st.setLinkBw r (st.linkBw r + a)

/-- Apply a list of (link, amount) additions in order. -/
def applyBumps (l : List (LinkRef × ℚ)) (st : St) : St :=
  l.foldl (fun s p => bump s p.1 p.2) st

/-- Negate all amounts of a charge list. -/
def negAmts (l : List (LinkRef × ℚ)) : List (LinkRef × ℚ) :=
  l.map (fun p => (p.1, -p.2))

/-- Search-state invariant: all link bandwidths are nonnegative and lie on
the 1/1000 grid. -/
def StInv (st : St) : Prop :=
  ∀ ref : LinkRef, 0 ≤ st.linkBw ref ∧ onGrid (st.linkBw ref)

/-- Well-formedness of the topology: no link connects a node to itself
(so a reverse link found by `findRevLink` is never the forward link it
reverses). -/
def noSelfLink (sys : Sys) : Prop :=
  ∀ t, t < sys.nodes.length → ∀ i, i < (sys.nodes.getD t []).length →
    ∀ l, l < (sys.node t i).links.length →
      ((sys.node t i).links.getD l ⟨0, 0, 0⟩).remType ≠ t ∨
      ((sys.node t i).links.getD l ⟨0, 0, 0⟩).remIdx ≠ i

instance (sys : Sys) : Decidable (noSelfLink sys) := by
  unfold noSelfLink; infer_instance

/-- The charge list of one step, as `stepApply` performs it. -/
def stepList (ref : LinkRef) (fwBw : ℚ) (rev : Option (LinkRef × ℚ)) :
    List (LinkRef × ℚ) :=
  (ref, fwBw) :: (match rev with
    | some (r, a) => if a ≠ 0 then [(r, a)] else []
    | none => [])

/-- The full charge list of a walk along `refs` from `node` (static data
only); `none` when a needed reverse link is missing. -/
def chargesOf (sys : Sys) (startType : ℕ) (pciBw bw : ℚ) :
    List LinkRef → NodeRef → Option (List (LinkRef × ℚ))
  | [], _ => some []
  | ref :: rest, node =>
    match stepCharges sys startType pciBw bw ref node with
    | none => none
    | some (fwBw, rev) =>
      match chargesOf sys startType pciBw bw rest
          ((sys.linkAt ref).remType, (sys.linkAt ref).remIdx) with
      | none => none
      | some l => some (stepList ref fwBw rev ++ l)

theorem bump_linkBw (st : St) (r : LinkRef) (a : ℚ) (x : LinkRef) :
    (bump st r a).linkBw x = if x = r then st.linkBw x + a else st.linkBw x := by
  unfold bump St.setLinkBw
  by_cases h : x = r <;> simp [h]

theorem bump_used (st : St) (r : LinkRef) (a : ℚ) :
    (bump st r a).used = st.used := rfl

theorem bump_comm (st : St) (r1 r2 : LinkRef) (a1 a2 : ℚ) :
    bump (bump st r1 a1) r2 a2 = bump (bump st r2 a2) r1 a1 := by
  ext x
  · simp only [bump_linkBw]
    by_cases h1 : x = r1 <;> by_cases h2 : x = r2 <;>
      by_cases h12 : r1 = r2 <;> simp_all <;> ring
  · rfl
  · rfl
  · rfl

theorem bump_cancel (st : St) (r : LinkRef) (a : ℚ) :
    bump (bump st r (-a)) r a = st := by
  ext x
  · simp only [bump_linkBw]
    by_cases hx : x = r <;> simp [hx]
  · rfl
  · rfl
  · rfl

theorem applyBumps_bump (l : List (LinkRef × ℚ)) (st : St) (r : LinkRef)
    (a : ℚ) : applyBumps l (bump st r a) = bump (applyBumps l st) r a := by
  induction l generalizing st with
  | nil => rfl
  | cons p rest ih =>
    unfold applyBumps
    simp only [List.foldl_cons]
    rw [bump_comm]
    exact ih (bump st p.1 p.2)

theorem applyBumps_cons (q : LinkRef × ℚ) (m : List (LinkRef × ℚ)) (s : St) :
    applyBumps (q :: m) s = applyBumps m (bump s q.1 q.2) := rfl

theorem applyBumps_cancel (l : List (LinkRef × ℚ)) (st : St) :
    applyBumps l (applyBumps (negAmts l) st) = st := by
  induction l generalizing st with
  | nil => rfl
  | cons p rest ih =>
    have e1 : negAmts (p :: rest) = (p.1, -p.2) :: negAmts rest := rfl
    rw [e1, applyBumps_cons, applyBumps_cons, ← applyBumps_bump, bump_cancel]
    exact ih st

theorem applyBumps_append (l1 l2 : List (LinkRef × ℚ)) (st : St) :
    applyBumps (l1 ++ l2) st = applyBumps l2 (applyBumps l1 st) := by
  unfold applyBumps
  rw [List.foldl_append]

theorem StInv_bump {st : St} (h : StInv st) {r : LinkRef} {a : ℚ}
    (ha : 0 ≤ a) (hg : onGrid a) : StInv (bump st r a) := by
  intro x
  rw [bump_linkBw]
  by_cases hx : x = r
  · simp only [hx, if_pos rfl]
    exact ⟨add_nonneg (h r).1 ha, onGrid_add (h r).2 hg⟩
  · simp only [if_neg hx]
    exact h x

theorem StInv_applyBumps {l : List (LinkRef × ℚ)} {st : St} (h : StInv st)
    (hl : ∀ p ∈ l, 0 ≤ p.2 ∧ onGrid p.2) : StInv (applyBumps l st) := by
  induction l generalizing st with
  | nil => exact h
  | cons p rest ih =>
    unfold applyBumps
    simp only [List.foldl_cons]
    have hp := hl p (List.mem_cons_self p rest)
    exact ih (StInv_bump h hp.1 hp.2) (fun q hq => hl q (List.mem_cons_of_mem p hq))

/-! ## Reserve/release symmetry of the ledger -/

theorem fwOf_neg (sys : Sys) (pciBw bw : ℚ) (ref : LinkRef) :
    fwOf sys (-pciBw) (-bw) ref = -fwOf sys pciBw bw ref := by
  unfold fwOf; split <;> rfl

theorem revAmt_neg (sys : Sys) (startType : ℕ) (ref : LinkRef) (fwBw : ℚ) :
    revAmt sys startType ref (-fwBw) = -revAmt sys startType ref fwBw := by
  unfold revAmt
  by_cases h1 : needRev1 sys startType ref <;>
    by_cases h2 : needRev2 sys ref <;> simp [h1, h2] <;> ring

/-- Negating both bandwidth parameters negates every charge and keeps the
structure of a step. -/
theorem stepCharges_neg (sys : Sys) (startType : ℕ) (pciBw bw : ℚ)
    (ref : LinkRef) (node : NodeRef) :
    stepCharges sys startType (-pciBw) (-bw) ref node =
      (stepCharges sys startType pciBw bw ref node).map
        (fun x => (-x.1, x.2.map (fun ra => (ra.1, -ra.2)))) := by
  unfold stepCharges
  simp only [fwOf_neg]
  by_cases h : (needRev1 sys startType ref || needRev2 sys ref) = true
  · simp only [h, if_true]
    cases hf : findRevLink sys node
        ((sys.linkAt ref).remType, (sys.linkAt ref).remIdx) with
    | none => rfl
    | some revRef => simp [revAmt_neg]
  · simp only [Bool.not_eq_true] at h
    simp [h]

/-- Positivity and grid membership of the charges of a step, under the
corresponding hypotheses on `pciBw` and `bw`. -/
theorem stepCharges_spec {sys : Sys} {startType : ℕ} {pciBw bw : ℚ}
    (hp : 0 < pciBw) (hb : 0 < bw) (hgp : onGrid pciBw) (hgb : onGrid bw)
    (hgp8 : onGrid (pciBw / 8)) (hgb8 : onGrid (bw / 8))
    {ref : LinkRef} {node : NodeRef} {fwBw : ℚ} {rev : Option (LinkRef × ℚ)}
    (h : stepCharges sys startType pciBw bw ref node = some (fwBw, rev)) :
    (0 < fwBw ∧ onGrid fwBw) ∧
      ∀ r a, rev = some (r, a) → 0 < a ∧ onGrid a := by
  have hfw : fwOf sys pciBw bw ref = pciBw ∨ fwOf sys pciBw bw ref = bw := by
    unfold fwOf; split <;> simp
  have hfwP : 0 < fwOf sys pciBw bw ref ∧ onGrid (fwOf sys pciBw bw ref) ∧
      onGrid (fwOf sys pciBw bw ref / 8) := by
    rcases hfw with h' | h' <;> rw [h'] <;> exact ⟨by assumption, by assumption, by assumption⟩
  unfold stepCharges at h
  by_cases hc : (needRev1 sys startType ref || needRev2 sys ref) = true
  · simp only [hc, if_true] at h
    cases hf : findRevLink sys node
        ((sys.linkAt ref).remType, (sys.linkAt ref).remIdx) with
    | none => rw [hf] at h; exact absurd h (by simp)
    | some revRef =>
      rw [hf] at h
      simp only [Option.some.injEq, Prod.mk.injEq] at h
      obtain ⟨hfw', hrev'⟩ := h
      subst hfw'
      refine ⟨⟨hfwP.1, hfwP.2.1⟩, ?_⟩
      intro r a ha
      rw [← hrev'] at ha
      simp only [Option.some.injEq, Prod.mk.injEq] at ha
      obtain ⟨_, ha2⟩ := ha
      subst ha2
      -- the two reverse-charge conditions are mutually exclusive
      by_cases h1 : needRev1 sys startType ref
      · have h2 : needRev2 sys ref = false := by
          unfold needRev1 at h1
          unfold needRev2
          simp only [Bool.and_eq_true, decide_eq_true_eq] at h1 ⊢
          simp only [Bool.and_eq_false_iff, decide_eq_false_iff_not]
          left
          intro hcpu
          have := h1.1.1
          rw [hcpu] at this
          exact absurd this (by norm_num [CPU, GPU])
        unfold revAmt
        rw [h1, h2]
        simp only [if_true, if_false, Bool.false_eq_true, add_zero]
        exact ⟨div_pos hfwP.1 (by norm_num), hfwP.2.2⟩
      · have h2 : needRev2 sys ref = true := by
          rcases Bool.or_eq_true_iff.mp hc with h' | h'
          · exact absurd h' h1
          · exact h'
        unfold revAmt
        rw [h2]
        simp only [h1, if_false, Bool.false_eq_true, if_true, zero_add]
        exact ⟨hfwP.1, hfwP.2.1⟩
  · simp only [Bool.not_eq_true] at hc
    rw [hc] at h
    simp only [Bool.false_eq_true, if_false, Option.some.injEq,
      Prod.mk.injEq] at h
    obtain ⟨hfw', hrev'⟩ := h
    subst hfw'
    refine ⟨⟨hfwP.1, hfwP.2.1⟩, ?_⟩
    intro r a ha
    rw [← hrev'] at ha
    exact absurd ha (by simp)

/-- A successful `findRevLink` returns a valid link index of `node2`. -/
theorem findRevLink_some {sys : Sys} {node1 node2 : NodeRef} {r : LinkRef}
    (h : findRevLink sys node1 node2 = some r) :
    r.1 = node2.1 ∧ r.2.1 = node2.2 ∧
      r.2.2 < ((sys.node node2.1 node2.2).links).length := by
  unfold findRevLink at h
  cases hidx : ((sys.node node2.1 node2.2).links).findIdx?
      (fun l => l.remType = node1.1 ∧ l.remIdx = node1.2) with
  | none => rw [hidx] at h; exact absurd h (by simp)
  | some l =>
    rw [hidx] at h
    simp only [Option.some.injEq] at h
    subst h
    exact ⟨rfl, rfl, List.findIdx?_eq_some_iff_findIdx_eq.mp hidx |>.1⟩

/-- With no self-link in the topology, the reverse link of a step is never
the forward link itself. -/
theorem stepCharges_rev_ne {sys : Sys} (hSelf : noSelfLink sys)
    {startType : ℕ} {pciBw bw : ℚ} {ref : LinkRef} {node : NodeRef}
    {fwBw : ℚ} {r : LinkRef} {a : ℚ}
    (h : stepCharges sys startType pciBw bw ref node = some (fwBw, some (r, a))) :
    r ≠ ref := by
  unfold stepCharges at h
  by_cases hc : (needRev1 sys startType ref || needRev2 sys ref) = true
  · simp only [hc, if_true] at h
    cases hf : findRevLink sys node
        ((sys.linkAt ref).remType, (sys.linkAt ref).remIdx) with
    | none => rw [hf] at h; exact absurd h (by simp)
    | some revRef =>
      rw [hf] at h
      simp only [Option.some.injEq, Prod.mk.injEq] at h
      have hr : r = revRef := h.2.1.symm
      subst hr
      obtain ⟨e1, e2, hl⟩ := findRevLink_some hf
      intro hcontra
      subst hcontra
      -- `ref`'s link belongs to node (ref.1, ref.2.1) whose remote node is
      -- (ref.1, ref.2.1) itself: a self-link, contradiction
      have hrt : (sys.linkAt r).remType = r.1 := e1.symm
      have hri : (sys.linkAt r).remIdx = r.2.1 := e2.symm
      rw [hrt, hri] at hl
      -- in-range check: out-of-range nodes have no links
      have hrange : r.1 < sys.nodes.length ∧
          r.2.1 < (sys.nodes.getD r.1 []).length := by
        by_contra hnr
        have hdflt : sys.node r.1 r.2.1 = dfltNode := by
          unfold Sys.node
          rcases not_and_or.mp hnr with h' | h'
          · have hin : sys.nodes.getD r.1 [] = [] :=
              List.getD_eq_default _ _ (Nat.le_of_not_lt h')
            rw [hin]
            simp
          · exact List.getD_eq_default _ _ (Nat.le_of_not_lt h')
        rw [hdflt] at hl
        simp [dfltNode] at hl
      have hns := hSelf r.1 hrange.1 r.2.1 hrange.2 r.2.2 hl
      have heq : sys.linkAt r = ((sys.node r.1 r.2.1).links).getD r.2.2 ⟨0, 0, 0⟩ :=
        rfl
      rcases hns with h' | h'
      · exact h' (by rw [← heq, hrt])
      · exact h' (by rw [← heq, hri])
  · simp only [Bool.not_eq_true] at hc
    rw [hc] at h
    simp at h

theorem setLinkBw_linkBw (st : St) (ref : LinkRef) (q : ℚ) (x : LinkRef) :
    (st.setLinkBw ref q).linkBw x = if x = ref then q else st.linkBw x := by
  unfold St.setLinkBw
  by_cases h : x = ref <;> simp [h]

theorem setLinkBw_subRound (st : St) (ref : LinkRef) (fw : ℚ)
    (h1 : onGrid (st.linkBw ref)) (h2 : onGrid fw) :
    st.setLinkBw ref (subRound (st.linkBw ref) fw) = bump st ref (-fw) := by
  unfold bump
  rw [subRound_exact h1 h2, sub_eq_add_neg]

theorem bump_grid {st : St} (h : ∀ x, onGrid (st.linkBw x)) {r : LinkRef}
    {a : ℚ} (ha : onGrid a) : ∀ x, onGrid ((bump st r a).linkBw x) := by
  intro x
  rw [bump_linkBw]
  by_cases hx : x = r
  · simp only [hx, if_pos rfl]; exact onGrid_add (h r) ha
  · simp only [if_neg hx]; exact h x

/-- `stepApply` is exactly the subtraction of the step's charge list, when
all quantities are on the grid. -/
theorem stepApply_eq_bumps {st : St} (hGrid : ∀ x, onGrid (st.linkBw x))
    {ref : LinkRef} {fw : ℚ} {rev : Option (LinkRef × ℚ)}
    (hfw : onGrid fw) (hrev : ∀ r a, rev = some (r, a) → onGrid a) :
    stepApply st ref fw rev = applyBumps (negAmts (stepList ref fw rev)) st := by
  cases rev with
  | none =>
    unfold stepApply
    rw [setLinkBw_subRound st ref fw (hGrid ref) hfw]
    rfl
  | some ra =>
    obtain ⟨r, a⟩ := ra
    have hga : onGrid a := hrev r a rfl
    unfold stepApply
    simp only
    rw [setLinkBw_subRound st ref fw (hGrid ref) hfw]
    by_cases ha : a = 0
    · subst ha
      simp only [ne_eq, not_true_eq_false, if_false]
      show bump st ref (-fw) = applyBumps (negAmts (stepList ref fw (some (r, 0)))) st
      unfold stepList negAmts applyBumps
      simp
    · simp only [ne_eq, ha, not_false_eq_true, if_true]
      rw [setLinkBw_subRound (bump st ref (-fw)) r a
        (bump_grid hGrid (onGrid_neg hfw) r) hga]
      show bump (bump st ref (-fw)) r (-a) =
        applyBumps (negAmts (stepList ref fw (some (r, a)))) st
      unfold stepList negAmts applyBumps
      simp only [ne_eq, ha, not_false_eq_true, if_true, List.map_cons,
        List.map_nil, List.foldl_cons, List.foldl_nil]

theorem stepStops_eq_false {st : St} {ref : LinkRef} {fw : ℚ}
    {rev : Option (LinkRef × ℚ)} :
    stepStops st ref fw rev = false ↔
      fw ≤ st.linkBw ref ∧
        ∀ r a, rev = some (r, a) → a ≠ 0 → a ≤ st.linkBw r := by
  unfold stepStops
  cases rev with
  | none => simp [not_lt]
  | some ra =>
    obtain ⟨r, a⟩ := ra
    simp only [Bool.or_eq_false_iff, decide_eq_false_iff_not, not_lt,
      Bool.and_eq_false_iff]
    constructor
    · rintro ⟨h1, h2⟩
      refine ⟨h1, ?_⟩
      intro r' a' hra hne
      rw [Option.some.injEq, Prod.mk.injEq] at hra
      obtain ⟨hr, ha⟩ := hra
      subst hr; subst ha
      rcases h2 with h' | h'
      · exact absurd (not_not.mp h') hne
      · exact h'
    · rintro ⟨h1, h2⟩
      refine ⟨h1, ?_⟩
      by_cases hne : a = 0
      · left; simp [hne]
      · right
        exact h2 r a rfl hne

/-- Preservation of the search-state invariant by one non-stopping step. -/
theorem StInv_stepApply {sys : Sys} (hSelf : noSelfLink sys)
    {startType : ℕ} {pciBw bw : ℚ}
    (hp : 0 < pciBw) (hb : 0 < bw) (hgp : onGrid pciBw) (hgb : onGrid bw)
    (hgp8 : onGrid (pciBw / 8)) (hgb8 : onGrid (bw / 8))
    {ref : LinkRef} {node : NodeRef} {fw : ℚ} {rev : Option (LinkRef × ℚ)}
    {st : St} (hinv : StInv st)
    (hsc : stepCharges sys startType pciBw bw ref node = some (fw, rev))
    (hstop : stepStops st ref fw rev = false) :
    StInv (stepApply st ref fw rev) := by
  obtain ⟨⟨hfwP, hfwG⟩, hrevPG⟩ := stepCharges_spec hp hb hgp hgb hgp8 hgb8 hsc
  obtain ⟨hs1, hs2⟩ := stepStops_eq_false.mp hstop
  cases rev with
  | none =>
    unfold stepApply
    intro x
    rw [setLinkBw_linkBw]
    by_cases hx : x = ref
    · rw [if_pos hx, subRound_exact (hinv ref).2 hfwG]
      exact ⟨by linarith, onGrid_sub (hinv ref).2 hfwG⟩
    · rw [if_neg hx]
      exact hinv x
  | some ra =>
    obtain ⟨r, a⟩ := ra
    have hane : a ≠ 0 := ne_of_gt (hrevPG r a rfl).1
    have hrne : r ≠ ref := stepCharges_rev_ne hSelf hsc
    have hra : a ≤ st.linkBw r := hs2 r a rfl hane
    unfold stepApply
    simp only [ne_eq, hane, not_false_eq_true, if_true]
    intro x
    rw [setLinkBw_linkBw]
    by_cases hxr : x = r
    · rw [if_pos hxr, setLinkBw_linkBw, if_neg hrne,
        subRound_exact (hinv r).2 (hrevPG r a rfl).2]
      exact ⟨by linarith, onGrid_sub (hinv r).2 (hrevPG r a rfl).2⟩
    · rw [if_neg hxr, setLinkBw_linkBw]
      by_cases hxrf : x = ref
      · rw [if_pos hxrf, subRound_exact (hinv ref).2 hfwG]
        exact ⟨by linarith, onGrid_sub (hinv ref).2 hfwG⟩
      · rw [if_neg hxrf]
        exact hinv x

/-- Reserve normal form: a successful `followSteps` advance of `k` steps
subtracts exactly the static charge list of the first `k` steps. -/
theorem followSteps_pos_spec {sys : Sys} {startType : ℕ} {pciBw bw : ℚ}
    (hSelf : noSelfLink sys)
    (hp : 0 < pciBw) (hb : 0 < bw) (hgp : onGrid pciBw) (hgb : onGrid bw)
    (hgp8 : onGrid (pciBw / 8)) (hgb8 : onGrid (bw / 8)) :
    ∀ (refs : List LinkRef) (node : NodeRef) (acc : ℕ) (st : St), StInv st →
      ∀ st' k',
        followSteps sys startType pciBw bw refs node acc st = some (st', k') →
        ∃ k, k ≤ refs.length ∧ k' = acc + k ∧
          ∃ ch, chargesOf sys startType pciBw bw (refs.take k) node = some ch ∧
            st' = applyBumps (negAmts ch) st ∧ StInv st' := by
  intro refs
  induction refs with
  | nil =>
    intro node acc st hinv st' k' h
    unfold followSteps at h
    simp only [Option.some.injEq, Prod.mk.injEq] at h
    exact ⟨0, by simp, by omega, [], rfl, h.1.symm ▸ rfl, h.1 ▸ hinv⟩
  | cons ref rest ih =>
    intro node acc st hinv st' k' h
    unfold followSteps at h
    cases hsc : stepCharges sys startType pciBw bw ref node with
    | none => rw [hsc] at h; exact absurd h (by simp)
    | some p =>
      obtain ⟨fw, rev⟩ := p
      rw [hsc] at h
      simp only at h
      by_cases hstop : stepStops st ref fw rev = true
      · rw [if_pos hstop] at h
        simp only [Option.some.injEq, Prod.mk.injEq] at h
        exact ⟨0, by simp, by omega, [], rfl, h.1.symm ▸ rfl, h.1 ▸ hinv⟩
      · rw [Bool.not_eq_true] at hstop
        rw [if_neg (by simp [hstop])] at h
        have hinv2 : StInv (stepApply st ref fw rev) :=
          StInv_stepApply hSelf hp hb hgp hgb hgp8 hgb8 hinv hsc hstop
        obtain ⟨k, hk, hk', ch, hch, hst', hinv'⟩ :=
          ih _ (acc + 1) _ hinv2 st' k' h
        obtain ⟨⟨hfwP, hfwG⟩, hrevPG⟩ :=
          stepCharges_spec hp hb hgp hgb hgp8 hgb8 hsc
        refine ⟨k + 1, by simpa using Nat.succ_le_succ hk, by omega,
          stepList ref fw rev ++ ch, ?_, ?_, hinv'⟩
        · show chargesOf sys startType pciBw bw (ref :: rest.take k) node =
            some (stepList ref fw rev ++ ch)
          unfold chargesOf
          rw [hsc, hch]
        · rw [hst']
          have : negAmts (stepList ref fw rev ++ ch) =
              negAmts (stepList ref fw rev) ++ negAmts ch := by
            unfold negAmts; rw [List.map_append]
          rw [this, applyBumps_append,
            stepApply_eq_bumps (fun x => (hinv x).2) hfwG
              (fun r a hra => (hrevPG r a hra).2)]

/-- Release totality: from any state satisfying the invariant, the negated
walk never stops early and adds back exactly the charge list. -/
theorem followSteps_neg_total {sys : Sys} {startType : ℕ} {pciBw bw : ℚ}
    (hp : 0 < pciBw) (hb : 0 < bw) (hgp : onGrid pciBw) (hgb : onGrid bw)
    (hgp8 : onGrid (pciBw / 8)) (hgb8 : onGrid (bw / 8)) :
    ∀ (refs : List LinkRef) (node : NodeRef) (acc : ℕ) (st : St)
      (ch : List (LinkRef × ℚ)), StInv st →
      chargesOf sys startType pciBw bw refs node = some ch →
      followSteps sys startType (-pciBw) (-bw) refs node acc st =
        some (applyBumps ch st, acc + refs.length) := by
  intro refs
  induction refs with
  | nil =>
    intro node acc st ch _ hch
    unfold chargesOf at hch
    simp only [Option.some.injEq] at hch
    subst hch
    unfold followSteps
    simp [applyBumps]
  | cons ref rest ih =>
    intro node acc st ch hinv hch
    unfold chargesOf at hch
    cases hsc : stepCharges sys startType pciBw bw ref node with
    | none => rw [hsc] at hch; exact absurd hch (by simp)
    | some p =>
      obtain ⟨fw, rev⟩ := p
      rw [hsc] at hch
      cases hrest : chargesOf sys startType pciBw bw rest
          ((sys.linkAt ref).remType, (sys.linkAt ref).remIdx) with
      | none => rw [hrest] at hch; exact absurd hch (by simp)
      | some l =>
        rw [hrest] at hch
        simp only [Option.some.injEq] at hch
        subst hch
        obtain ⟨⟨hfwP, hfwG⟩, hrevPG⟩ :=
          stepCharges_spec hp hb hgp hgb hgp8 hgb8 hsc
        unfold followSteps
        rw [stepCharges_neg, hsc]
        simp only [Option.map_some']
        have hstop : stepStops st ref (-fw)
            (rev.map (fun ra => (ra.1, -ra.2))) = false := by
          rw [stepStops_eq_false]
          constructor
          · linarith [(hinv ref).1]
          · intro r a hra hne
            cases rev with
            | none => exact absurd hra (by simp)
            | some ra0 =>
              obtain ⟨r0, a0⟩ := ra0
              simp only [Option.map_some', Option.some.injEq,
                Prod.mk.injEq] at hra
              obtain ⟨hr0, ha0⟩ := hra
              have hpos := (hrevPG r0 a0 rfl).1
              have hnn := (hinv r).1
              rw [← ha0]
              linarith
        rw [if_neg (by simp [hstop])]
        have happ : stepApply st ref (-fw) (rev.map (fun ra => (ra.1, -ra.2))) =
            applyBumps (stepList ref fw rev) st := by
          rw [stepApply_eq_bumps (fun x => (hinv x).2) (onGrid_neg hfwG)
            (by
              intro r a hra
              cases rev with
              | none => exact absurd hra (by simp)
              | some ra0 =>
                obtain ⟨r0, a0⟩ := ra0
                simp only [Option.map_some', Option.some.injEq,
                  Prod.mk.injEq] at hra
                exact hra.2 ▸ onGrid_neg (hrevPG r0 a0 rfl).2)]
          congr 1
          cases rev with
          | none => simp [negAmts, stepList]
          | some ra0 =>
            obtain ⟨r0, a0⟩ := ra0
            simp only [Option.map_some']
            unfold negAmts stepList
            by_cases ha0 : a0 = 0 <;> simp [ha0]
        rw [happ]
        have hinv2 : StInv (applyBumps (stepList ref fw rev) st) := by
          apply StInv_applyBumps hinv
          intro p hp'
          unfold stepList at hp'
          simp only [List.mem_cons] at hp'
          rcases hp' with h' | h'
          · subst h'; exact ⟨le_of_lt hfwP, hfwG⟩
          · cases rev with
            | none => simp at h'
            | some ra0 =>
              obtain ⟨r0, a0⟩ := ra0
              by_cases ha0 : a0 = 0
              · simp [ha0] at h'
              · simp only [ne_eq, ha0, not_false_eq_true, if_true,
                  List.mem_singleton] at h'
                subst h'
                exact ⟨le_of_lt (hrevPG r0 a0 rfl).1, (hrevPG r0 a0 rfl).2⟩
        have := ih ((sys.linkAt ref).remType, (sys.linkAt ref).remIdx)
          (acc + 1) _ l hinv2 hrest
        rw [this, ← applyBumps_append]
        simp only [List.length_cons]
        congr 2
        omega

/-- All charges along a successful walk are positive and on the grid. -/
theorem chargesOf_spec {sys : Sys} {startType : ℕ} {pciBw bw : ℚ}
    (hp : 0 < pciBw) (hb : 0 < bw) (hgp : onGrid pciBw) (hgb : onGrid bw)
    (hgp8 : onGrid (pciBw / 8)) (hgb8 : onGrid (bw / 8)) :
    ∀ (refs : List LinkRef) (node : NodeRef) (ch : List (LinkRef × ℚ)),
      chargesOf sys startType pciBw bw refs node = some ch →
      ∀ p ∈ ch, 0 < p.2 ∧ onGrid p.2 := by
  intro refs
  induction refs with
  | nil =>
    intro node ch hch
    unfold chargesOf at hch
    simp only [Option.some.injEq] at hch
    subst hch
    simp
  | cons ref rest ih =>
    intro node ch hch
    unfold chargesOf at hch
    cases hsc : stepCharges sys startType pciBw bw ref node with
    | none => rw [hsc] at hch; exact absurd hch (by simp)
    | some p =>
      obtain ⟨fw, rev⟩ := p
      rw [hsc] at hch
      simp only at hch
      cases hrest : chargesOf sys startType pciBw bw rest
          ((sys.linkAt ref).remType, (sys.linkAt ref).remIdx) with
      | none => rw [hrest] at hch; exact absurd hch (by simp)
      | some l =>
        rw [hrest] at hch
        simp only [Option.some.injEq] at hch
        subst hch
        obtain ⟨⟨hfwP, hfwG⟩, hrevPG⟩ :=
          stepCharges_spec hp hb hgp hgb hgp8 hgb8 hsc
        intro q hq
        rw [List.mem_append] at hq
        rcases hq with h' | h'
        · unfold stepList at h'
          simp only [List.mem_cons] at h'
          rcases h' with h'' | h''
          · subst h''; exact ⟨hfwP, hfwG⟩
          · cases rev with
            | none => simp at h''
            | some ra0 =>
              obtain ⟨r0, a0⟩ := ra0
              by_cases ha0 : a0 = 0
              · simp [ha0] at h''
              · simp only [ne_eq, ha0, not_false_eq_true, if_true,
                  List.mem_singleton] at h''
                subst h''
                exact ⟨(hrevPG r0 a0 rfl).1, (hrevPG r0 a0 rfl).2⟩
        · exact ih _ l hrest q h'

/-- The hypotheses on a bandwidth step `b` under which every ledger charge
derived from it (`b`, `intelMul*b`, and their eighths) is positive and on the
1/1000 grid. -/
def chargeOKq (sys : Sys) (b : ℚ) : Prop :=
  0 < b ∧ onGrid b ∧ onGrid (b / 8) ∧
    0 < sys.intelMul * b ∧ onGrid (sys.intelMul * b) ∧
    onGrid (sys.intelMul * b / 8)

instance (sys : Sys) (b : ℚ) : Decidable (chargeOKq sys b) := by
  unfold chargeOKq; infer_instance

/-- Reserve/release round trip at the `followPath` level: a reserving call
that advanced `k` steps is exactly undone by the paired call with negated
bandwidth and `maxSteps = k`. -/
theorem followPath_roundtrip {sys : Sys} {path : PathS} {start : NodeRef}
    {bw : ℚ} {st st₁ : St} {k : ℕ}
    (hSelf : noSelfLink sys) (hinv : StInv st) (hok : chargeOKq sys bw)
    (h : followPath sys path start path.plist.length bw st = some (st₁, k)) :
    k ≤ path.plist.length ∧ StInv st₁ ∧
      followPath sys path start k (-bw) st₁ = some (st, k) := by
  obtain ⟨hb, hgb, hgb8, hmb, hgmb, hgmb8⟩ := hok
  unfold followPath at h ⊢
  rw [List.take_length] at h
  have hpci : (if intelCond sys path (sys.node start.1 start.2).ntype then
      sys.intelMul * (-bw) else (-bw)) =
      -(if intelCond sys path (sys.node start.1 start.2).ntype then
        sys.intelMul * bw else bw) := by
    split <;> ring
  rw [hpci]
  by_cases hic : intelCond sys path (sys.node start.1 start.2).ntype
  · rw [if_pos hic] at h ⊢
    obtain ⟨k0, hk0, hkk, ch, hch, hst, hinv1⟩ :=
      followSteps_pos_spec hSelf hmb hb hgmb hgb hgmb8 hgb8 _ _ _ _ hinv _ _ h
    have hkeq : k = k0 := by omega
    subst hkeq
    refine ⟨hk0, hinv1, ?_⟩
    have := followSteps_neg_total hmb hb hgmb hgb hgmb8 hgb8
      (path.plist.take k) start 0 st₁ ch hinv1 hch
    rw [this, hst, applyBumps_cancel]
    have : (path.plist.take k).length = k := by
      rw [List.length_take]; omega
    rw [this]
    norm_num
  · rw [if_neg hic] at h ⊢
    obtain ⟨k0, hk0, hkk, ch, hch, hst, hinv1⟩ :=
      followSteps_pos_spec hSelf hb hb hgb hgb hgb8 hgb8 _ _ _ _ hinv _ _ h
    have hkeq : k = k0 := by omega
    subst hkeq
    refine ⟨hk0, hinv1, ?_⟩
    have := followSteps_neg_total hb hb hgb hgb hgb8 hgb8
      (path.plist.take k) start 0 st₁ ch hinv1 hch
    rw [this, hst, applyBumps_cancel]
    have : (path.plist.take k).length = k := by
      rw [List.length_take]; omega
    rw [this]
    norm_num

/-- Structure-update identity for `Graph`. -/
theorem Graph.nHops_self (g : Graph) : { g with nHops := g.nHops } = g := rfl

/-- `ncclTopoFollowPath` with `mult = 1` that returns a `NULL` node changes
nothing: neither the state nor the graph. -/
theorem ncclTopoFollowPath_plus_none {sys : Sys} {st : St} {graph : Graph}
    {t1 : ℤ} {i1 t2 i2 : ℕ} {st' : St} {g' : Graph}
    (hSelf : noSelfLink sys) (hinv : StInv st)
    (hokIntra : chargeOKq sys graph.bwIntra)
    (hokInter : chargeOKq sys graph.bwInter)
    (h : ncclTopoFollowPath sys st graph t1 i1 t2 i2 1 = some (st', g', none)) :
    st' = st ∧ g' = graph := by
  unfold ncclTopoFollowPath at h
  by_cases h1 : t1 = -1
  · rw [if_pos h1] at h; simp at h
  · rw [if_neg h1] at h
    by_cases h2 : (sys.pathAt t1.toNat i1 t2 i2).plist.length = 0
    · rw [if_pos h2] at h; simp at h
    · rw [if_neg h2] at h
      set path := sys.pathAt t1.toNat i1 t2 i2 with hpath
      set intra := (t1 = ((GPU : ℕ) : ℤ) ∧ t2 = GPU) with hintra
      set bw0 := if intra then graph.bwIntra else graph.bwInter with hbw0
      have hok : chargeOKq sys bw0 := by
        rw [hbw0]; split <;> assumption
      by_cases h3 : (1 : ℤ) = 1 ∧ path.ptype > (if intra then graph.typeIntra
          else graph.typeInter)
      · rw [if_pos h3] at h
        simp only [Option.some.injEq, Prod.mk.injEq] at h
        exact ⟨h.1.symm, h.2.1.symm⟩
      · rw [if_neg h3] at h
        have hbwcast : bw0 * ((1 : ℤ) : ℚ) = bw0 := by push_cast; ring
        rw [hbwcast] at h
        cases hfp : followPath sys path (t1.toNat, i1) path.plist.length bw0 st with
        | none => rw [hfp] at h; exact absurd h (by simp)
        | some p =>
          obtain ⟨stA, step⟩ := p
          rw [hfp] at h
          simp only at h
          by_cases h4 : step < path.plist.length
          · rw [if_pos h4] at h
            obtain ⟨hle, hinvA, hrel⟩ :=
              followPath_roundtrip hSelf hinv hok hfp
            rw [hrel] at h
            simp only [Option.some.injEq, Prod.mk.injEq] at h
            exact ⟨h.1.symm, h.2.1.symm⟩
          · rw [if_neg h4] at h
            simp at h

/-- `ncclTopoFollowPath` with `mult = 1` that returns a node reserved the
path exactly; the paired `mult = -1` call (from the restored state, with any
graph agreeing on the bandwidth steps) releases it exactly. -/
theorem ncclTopoFollowPath_pair {sys : Sys} {st : St} {graph : Graph}
    {t1 : ℤ} {i1 t2 i2 : ℕ} {st₁ : St} {g₁ : Graph} {nd : NodeRef}
    (hSelf : noSelfLink sys) (hinv : StInv st)
    (hokIntra : chargeOKq sys graph.bwIntra)
    (hokInter : chargeOKq sys graph.bwInter)
    (h : ncclTopoFollowPath sys st graph t1 i1 t2 i2 1 = some (st₁, g₁, some nd)) :
    nd = (t2, i2) ∧ StInv st₁ ∧ ∃ cnt : ℕ,
      g₁ = { graph with nHops := graph.nHops + cnt } ∧
      ∀ g₂ : Graph, g₂.bwIntra = graph.bwIntra → g₂.bwInter = graph.bwInter →
        ncclTopoFollowPath sys st₁ g₂ t1 i1 t2 i2 (-1) =
          some (st, { g₂ with nHops := g₂.nHops - cnt }, some (t2, i2)) := by
  unfold ncclTopoFollowPath at h
  by_cases h1 : t1 = -1
  · rw [if_pos h1] at h
    simp only [Option.some.injEq, Prod.mk.injEq] at h
    obtain ⟨hst, hg, hnd⟩ := h
    refine ⟨hnd.symm, hst ▸ hinv, 0, ?_, ?_⟩
    · rw [← hg]; cases graph; simp
    · intro g₂ _ _
      unfold ncclTopoFollowPath
      rw [if_pos h1, hst]
      have : { g₂ with nHops := g₂.nHops - ((0 : ℕ) : ℤ) } = g₂ := by
        cases g₂; simp
      rw [this]
  · rw [if_neg h1] at h
    by_cases h2 : (sys.pathAt t1.toNat i1 t2 i2).plist.length = 0
    · rw [if_pos h2] at h
      simp only [Option.some.injEq, Prod.mk.injEq] at h
      obtain ⟨hst, hg, hnd⟩ := h
      refine ⟨hnd.symm, hst ▸ hinv, 0, ?_, ?_⟩
      · rw [← hg]; cases graph; simp
      · intro g₂ _ _
        unfold ncclTopoFollowPath
        rw [if_neg h1, if_pos h2, hst]
        have : { g₂ with nHops := g₂.nHops - ((0 : ℕ) : ℤ) } = g₂ := by
          cases g₂; simp
        rw [this]
    · rw [if_neg h2] at h
      have hok : chargeOKq sys (if t1 = ((GPU : ℕ) : ℤ) ∧ t2 = GPU then
          graph.bwIntra else graph.bwInter) := by
        split <;> assumption
      by_cases h3 : (1 : ℤ) = 1 ∧ (sys.pathAt t1.toNat i1 t2 i2).ptype >
          (if t1 = ((GPU : ℕ) : ℤ) ∧ t2 = GPU then graph.typeIntra
            else graph.typeInter)
      · rw [if_pos h3] at h
        simp at h
      · rw [if_neg h3] at h
        have hbwcast : (if t1 = ((GPU : ℕ) : ℤ) ∧ t2 = GPU then graph.bwIntra
            else graph.bwInter) * ((1 : ℤ) : ℚ) =
            (if t1 = ((GPU : ℕ) : ℤ) ∧ t2 = GPU then graph.bwIntra
              else graph.bwInter) := by push_cast; ring
        rw [hbwcast] at h
        cases hfp : followPath sys (sys.pathAt t1.toNat i1 t2 i2) (t1.toNat, i1)
            (sys.pathAt t1.toNat i1 t2 i2).plist.length
            (if t1 = ((GPU : ℕ) : ℤ) ∧ t2 = GPU then graph.bwIntra
              else graph.bwInter) st with
        | none => rw [hfp] at h; exact absurd h (by simp)
        | some p =>
          obtain ⟨stA, step⟩ := p
          rw [hfp] at h
          simp only at h
          by_cases h4 : step < (sys.pathAt t1.toNat i1 t2 i2).plist.length
          · rw [if_pos h4] at h
            obtain ⟨hle, hinvA, hrel⟩ :=
              followPath_roundtrip hSelf hinv hok hfp
            rw [hrel] at h
            simp at h
          · rw [if_neg h4] at h
            simp only [Option.some.injEq, Prod.mk.injEq] at h
            obtain ⟨hst, hg, hnd⟩ := h
            obtain ⟨hle, hinvA, hrel⟩ :=
              followPath_roundtrip hSelf hinv hok hfp
            have hstep : step = (sys.pathAt t1.toNat i1 t2 i2).plist.length := by
              omega
            refine ⟨hnd.symm, hst ▸ hinvA,
              (sys.pathAt t1.toNat i1 t2 i2).plist.length, ?_, ?_⟩
            · rw [← hg]
              have he : graph.nHops + (1 : ℤ) *
                  ((sys.pathAt t1.toNat i1 t2 i2).plist.length : ℤ) =
                  graph.nHops +
                  ((sys.pathAt t1.toNat i1 t2 i2).plist.length : ℤ) := by ring
              rw [he]
            · intro g₂ hg2a hg2b
              unfold ncclTopoFollowPath
              rw [if_neg h1, if_neg h2]
              have hm3 : ¬((-1 : ℤ) = 1 ∧ (sys.pathAt t1.toNat i1 t2 i2).ptype >
                  (if t1 = ((GPU : ℕ) : ℤ) ∧ t2 = GPU then g₂.typeIntra
                    else g₂.typeInter)) := by
                rintro ⟨hc, _⟩; norm_num at hc
              rw [if_neg hm3]
              have hbwcast2 : (if t1 = ((GPU : ℕ) : ℤ) ∧ t2 = GPU then g₂.bwIntra
                  else g₂.bwInter) * ((-1 : ℤ) : ℚ) =
                  -(if t1 = ((GPU : ℕ) : ℤ) ∧ t2 = GPU then graph.bwIntra
                    else graph.bwInter) := by
                rw [hg2a, hg2b]; push_cast; ring
              rw [hbwcast2, ← hst]
              rw [hstep] at hrel
              rw [hrel]
              have hlt : ¬((sys.pathAt t1.toNat i1 t2 i2).plist.length <
                  (sys.pathAt t1.toNat i1 t2 i2).plist.length) := by omega
              simp only [hlt, if_false]
              have he2 : g₂.nHops + (-1 : ℤ) *
                  ((sys.pathAt t1.toNat i1 t2 i2).plist.length : ℤ) =
                  g₂.nHops -
                  ((sys.pathAt t1.toNat i1 t2 i2).plist.length : ℤ) := by ring
              rw [he2]

/-! ## Claims C2 and C5 -/

/-- **C2** (amended): ledger round trip.  If a reserving `followPath(+b)`
call advances `k` steps, the paired `followPath(-b)` call with `maxSteps = k`
restores every Link's bandwidth to exactly its prior value — the whole ledger
state returned is bit-identical to the initial one, so repeated
`reserve(+b)/reserve(-b)` pairs leave it bit-identical — provided the link
bandwidths lie on the 1/1000 rounding grid and every charge derived from `b`
(`b`, `intelMul·b` and their eighths) is positive and on the grid.  Without
the grid hypothesis the claim fails (see the counterexample): a charge with
fractional part exactly half a thousandth makes the round-half-away-from-zero
rounding asymmetric between the subtraction and the addition. -/
theorem claim_C2_ledger_roundtrip {sys : Sys} {path : PathS} {start : NodeRef}
    {bw : ℚ} {st st₁ : St} {k : ℕ}
    (hSelf : noSelfLink sys) (hinv : StInv st) (hok : chargeOKq sys bw)
    (h : followPath sys path start path.plist.length bw st = some (st₁, k)) :
    followPath sys path start k (-bw) st₁ = some (st, k) :=
  (followPath_roundtrip hSelf hinv hok h).2.2

/-- A two-GPU topology with one NVL link in each direction, used as the
concrete instance for the ledger claims. -/
def wGpu0 : NodeS :=
  { ntype := GPU, id := 0, gpu := { dev := 0, cudaCompCap := 80, rank := [0] },
    cpu := dfltCpu, net := dfltNet, links := [⟨LINK_NVL, GPU, 1⟩],
    paths := [[⟨[], PATH_LOC, 0⟩, ⟨[(GPU, 0, 0)], PATH_NVL, 25⟩]] }

def wGpu1 : NodeS :=
  { ntype := GPU, id := 1, gpu := { dev := 1, cudaCompCap := 80, rank := [1] },
    cpu := dfltCpu, net := dfltNet, links := [⟨LINK_NVL, GPU, 0⟩],
    paths := [[⟨[(GPU, 1, 0)], PATH_NVL, 25⟩, ⟨[], PATH_LOC, 0⟩]] }

def wSys : Sys :=
  { nodes := [[wGpu0, wGpu1]], nRanks := 2, romeType := false, maxBw := 25,
    totalBw := 25, intelMul := 1, gdr := fun _ _ => false }

/-- The one-link path from GPU 0 to GPU 1 of `wSys`. -/
def wPath : PathS := ⟨[(GPU, 0, 0)], PATH_NVL, 25⟩

/-- Initial ledger: every link at bandwidth 1. -/
def wSt : St :=
  { linkBw := fun _ => 1, used := fun _ => 0, netBw := fun _ => 0,
    netMaxCh := fun _ => 0 }

/-- The ledger after reserving 1 unit on `wPath`'s link. -/
def wSt1 : St := stepApply wSt (GPU, 0, 0) 1 none

section RatEval

/- `Rat.add`, `Rat.mul`, `Rat.sub` and `Rat.inv` are `@[irreducible]` (an
elaboration-performance choice upstream; the kernel ignores reducibility), so
concrete evaluations below locally restore their reducibility. -/
set_option allowUnsafeReducibility true
attribute [local semireducible] Rat.mul Rat.add Rat.sub Rat.inv

theorem claim_C2_witness :
    (noSelfLink wSys ∧ StInv wSt ∧ chargeOKq wSys 1 ∧
      followPath wSys wPath (0, 0) wPath.plist.length 1 wSt = some (wSt1, 1)) ∧
    followPath wSys wPath (0, 0) 1 (-1) wSt1 = some (wSt, 1) := by
  have h1 : noSelfLink wSys := by decide
  have h2 : StInv wSt := by
    intro ref
    constructor
    · show (0 : ℚ) ≤ 1
      norm_num
    · show onGrid 1
      decide
  have h3 : chargeOKq wSys 1 := by decide
  have h4 : followPath wSys wPath (0, 0) wPath.plist.length 1 wSt =
      some (wSt1, 1) := rfl
  exact ⟨⟨h1, h2, h3, h4⟩, claim_C2_ledger_roundtrip h1 h2 h3 h4⟩

/-- Ledger with link bandwidth 2/1000, off-grid counterexample start. -/
def xSt : St :=
  { linkBw := fun _ => 2/1000, used := fun _ => 0, netBw := fun _ => 0,
    netMaxCh := fun _ => 0 }

def xSt1 : St := stepApply xSt (GPU, 0, 0) (3/2000) none
def xSt2 : St := stepApply xSt1 (GPU, 0, 0) (-(3/2000)) none

/-- **C2** counterexample: with `b = 3/2000` (an exact half-thousandth) on a
link holding `2/1000`, the reserving call advances one step and the paired
releasing call returns, but the link's bandwidth ends at `3/1000`, not its
prior `2/1000`: the claim's unconditional "restores every affected Link's
bandwidth to exactly its prior value" is false as stated. -/
theorem claim_C2_counterexample :
    followPath wSys wPath (0, 0) wPath.plist.length (3/2000) xSt =
      some (xSt1, 1) ∧
    followPath wSys wPath (0, 0) 1 (-(3/2000)) xSt1 = some (xSt2, 1) ∧
    xSt2.linkBw (GPU, 0, 0) ≠ xSt.linkBw (GPU, 0, 0) :=
  ⟨rfl, rfl, by decide⟩

/-- **C5**: link-type gating of reservations.  A reserving attempt
(`mult = +1`) whose precomputed path has a path type strictly coarser than
the applicable threshold (`typeIntra` for GPU→GPU, `typeInter` otherwise)
returns a `NULL` destination node and changes nothing: the state (hence every
Link bandwidth) and the graph (hence `nHops`) are returned unchanged.  The
hypothesis `hwf` is the spec's definition of path type (the coarsest link
type on the path, so an empty path has type `LOC`), which rules out an empty
path with a coarse type. -/
theorem claim_C5_type_gating {sys : Sys} {st : St} {graph : Graph}
    {t1 : ℤ} {i1 t2 i2 : ℕ}
    (h1 : t1 ≠ -1)
    (hwf : (sys.pathAt t1.toNat i1 t2 i2).plist.length = 0 →
      (sys.pathAt t1.toNat i1 t2 i2).ptype = PATH_LOC)
    (hcoarse : (sys.pathAt t1.toNat i1 t2 i2).ptype >
      (if t1 = ((GPU : ℕ) : ℤ) ∧ t2 = GPU then graph.typeIntra
        else graph.typeInter)) :
    ncclTopoFollowPath sys st graph t1 i1 t2 i2 1 = some (st, graph, none) := by
  have hne : ¬((sys.pathAt t1.toNat i1 t2 i2).plist.length = 0) := by
    intro h0
    rw [hwf h0] at hcoarse
    revert hcoarse
    simp [PATH_LOC]
  unfold ncclTopoFollowPath
  rw [if_neg h1, if_neg hne, if_pos ⟨rfl, hcoarse⟩]

/-- A graph with `typeIntra = typeInter = LOC`, under which `wSys`'s NVL
path is coarser than the threshold. -/
def wGraph : Graph :=
  { id := 0, pattern := PATTERN_RING, crossNic := 0, collNet := 0,
    bwIntra := 1, bwInter := 1, typeIntra := PATH_LOC, typeInter := PATH_LOC,
    nChannels := 0, minChannels := 1, maxChannels := 1, sameChannels := 1,
    nHops := 0, latencyInter := 0, intra := fun _ => 0, inter := fun _ => 0 }

theorem claim_C5_witness :
    (((GPU : ℕ) : ℤ) ≠ -1 ∧
      ((wSys.pathAt ((GPU : ℕ) : ℤ).toNat 0 GPU 1).plist.length = 0 →
        (wSys.pathAt ((GPU : ℕ) : ℤ).toNat 0 GPU 1).ptype = PATH_LOC) ∧
      (wSys.pathAt ((GPU : ℕ) : ℤ).toNat 0 GPU 1).ptype >
        (if ((GPU : ℕ) : ℤ) = ((GPU : ℕ) : ℤ) ∧ GPU = GPU then wGraph.typeIntra
          else wGraph.typeInter)) ∧
    ncclTopoFollowPath wSys wSt wGraph ((GPU : ℕ) : ℤ) 0 GPU 1 1 =
      some (wSt, wGraph, none) := by
  have h1 : ((GPU : ℕ) : ℤ) ≠ -1 := by decide
  have h2 : (wSys.pathAt ((GPU : ℕ) : ℤ).toNat 0 GPU 1).plist.length = 0 →
      (wSys.pathAt ((GPU : ℕ) : ℤ).toNat 0 GPU 1).ptype = PATH_LOC := by decide
  have h3 : (wSys.pathAt ((GPU : ℕ) : ℤ).toNat 0 GPU 1).ptype >
      (if ((GPU : ℕ) : ℤ) = ((GPU : ℕ) : ℤ) ∧ GPU = GPU then wGraph.typeIntra
        else wGraph.typeInter) := by decide
  exact ⟨⟨h1, h2, h3⟩, claim_C5_type_gating h1 h2 h3⟩

end RatEval

/-! ## PeerOrdering: `gpuPciBw`, `cmpScore`, `ncclTopoSearchNextGpuSort` -/

/-- Inner loop of `gpuPciBw`: scan the PCI node's links (with indices) for
the one pointing back at GPU `g`; on a hit, return
`std::min(gpuLink->bw, pciLink->bw)` truncated to `int`. -/
def gpuPciBwInner (sys : Sys) (st : St) (g l pt pi : ℕ) :
    List (ℕ × LinkS) → Option ℤ
  | [] => none
  | (m, pciLink) :: rest =>
    if pciLink.remType = GPU ∧ pciLink.remIdx = g then
      some (truncQ (min (st.linkBw (GPU, g, l)) (st.linkBw (pt, pi, m))))
    else gpuPciBwInner sys st g l pt pi rest

/-- Outer loop of `gpuPciBw`: first PCI link of the GPU with a backlink. -/
def gpuPciBwLoop (sys : Sys) (st : St) (g : ℕ) :
    List (ℕ × LinkS) → ℤ
  | [] => -1
  | (l, gpuLink) :: rest =>
    if gpuLink.ltype = LINK_PCI then
      match gpuPciBwInner sys st g l gpuLink.remType gpuLink.remIdx
          ((sys.node gpuLink.remType gpuLink.remIdx).links.enum) with
      | some v => v
      | none => gpuPciBwLoop sys st g rest
    else gpuPciBwLoop sys st g rest

/-- `gpuPciBw(gpu)`: the PCIe bottleneck of GPU `g` (ℤ, `-1` if none). -/
def gpuPciBw (sys : Sys) (st : St) (g : ℕ) : ℤ :=
  gpuPciBwLoop sys st g (sys.node GPU g).links.enum

/-- `struct ncclGpuScore`. -/
structure GpuScore where
  g : ℕ
  startIndex : ℤ
  intraNhops : ℤ
  intraBw : ℤ
  interNhops : ℤ
  interPciBw : ℤ
  interBw : ℤ
  deriving DecidableEq, Repr

instance : Inhabited GpuScore := ⟨⟨0, 0, 0, 0, 0, 0, 0⟩⟩

/-- `cmpScore`: the `qsort` comparator (first nonzero key difference). -/
def cmpScore (s1 s2 : GpuScore) : ℤ :=
  if s2.interBw - s1.interBw ≠ 0 then s2.interBw - s1.interBw
  else if s2.interPciBw - s1.interPciBw ≠ 0 then s2.interPciBw - s1.interPciBw
  else if s1.interNhops - s2.interNhops ≠ 0 then s1.interNhops - s2.interNhops
  else if s2.intraBw - s1.intraBw ≠ 0 then s2.intraBw - s1.intraBw
  else if s1.intraNhops - s2.intraNhops ≠ 0 then s1.intraNhops - s2.intraNhops
  else s1.startIndex - s2.startIndex

/-- The order induced by `cmpScore`.  On every candidate list built by the
search the `startIndex` keys are distinct, so `cmpScore` is a strict total
order and any correct sort (here insertion sort, standing in for `qsort`)
produces the same list. -/
def scoreLe (s1 s2 : GpuScore) : Prop := cmpScore s1 s2 ≤ 0

instance : DecidableRel scoreLe := fun s1 s2 => by
  unfold scoreLe; infer_instance

/-- `cmpIntraScores`: `1` (here `true`) iff some entry differs from the
first in `intraBw` or `intraNhops`. -/
def cmpIntraScores : List GpuScore → Bool
  | [] => false
  | s0 :: rest => rest.any (fun s => s.intraBw ≠ s0.intraBw ||
      s.intraNhops ≠ s0.intraNhops)

/-- `getGpuIndex`: the first GPU whose rank list contains `rank`. -/
def getGpuIndex (sys : Sys) (rank : ℤ) : Option ℕ :=
  (sys.nodes.getD GPU []).findIdx? (fun nd => nd.gpu.rank.contains rank)

/-- `getNetIndex`: the first NET node with node id `id`. -/
def getNetIndex (sys : Sys) (id : ℤ) : Option ℕ :=
  (sys.nodes.getD NET []).findIdx? (fun nd => nd.id = id)

/-- `getNetPaths`: the GPU-path array of the entry NIC of the channel being
built. -/
def getNetPaths (sys : Sys) (graph : Graph) : Option (List PathS) :=
  match getNetIndex sys (graph.inter (graph.nChannels * 2)) with
  | none => none
  | some n => some ((sys.node NET n).paths.getD GPU [])

/-- The candidate scores of `ncclTopoSearchNextGpuSort` before sorting:
GPUs at `(start+i) % ngpus` for `i = 1..ngpus-1` that have a path and are
not used on the current channel, with the six keys (inter keys stay at their
`memset` zeros when `netPaths` is `NULL`). -/
def nextGpuScores (sys : Sys) (st : St) (graph : Graph) (start : ℕ)
    (netPaths : Option (List PathS)) : List GpuScore :=
  let ngpus := sys.count GPU
  let flag := 2 ^ graph.nChannels
  let paths := (sys.node GPU start).paths.getD GPU []
  ((List.range ngpus).drop 1).filterMap (fun i =>
    if (paths.getD ((start + i) % ngpus) dfltPath).plist.length = 0 then none
    else if (st.used ((start + i) % ngpus)) &&& flag ≠ 0 then none
    else some
      { g := (start + i) % ngpus
        startIndex := i
        intraNhops := (paths.getD ((start + i) % ngpus) dfltPath).plist.length
        intraBw := truncQ (paths.getD ((start + i) % ngpus) dfltPath).pbw
        interNhops := match netPaths with
          | some nps =>
            ((nps.getD ((start + i) % ngpus) dfltPath).plist.length : ℤ)
          | none => 0
        interPciBw := match netPaths with
          | some _ => gpuPciBw sys st ((start + i) % ngpus)
          | none => 0
        interBw := match netPaths with
          | some nps => truncQ (nps.getD ((start + i) % ngpus) dfltPath).pbw
          | none => 0 })

/-- The candidate scores including the NIC-paths lookup (`none` when
`getNetPaths` fails, the `ncclInternalError` path). -/
def candidateScores (sys : Sys) (st : St) (graph : Graph) (start : ℕ)
    (sortNet : ℤ) : Option (List GpuScore) :=
  if sortNet ≠ 0 then
    match getNetPaths sys graph with
    | none => none
    | some nps => some (nextGpuScores sys st graph start (some nps))
  else some (nextGpuScores sys st graph start none)

/-- `ncclTopoSearchNextGpuSort`: sort the candidates with `cmpScore` and
return the GPU indices, reversed when `sortNet = -1` and all intra keys are
equal. -/
def ncclTopoSearchNextGpuSort (sys : Sys) (st : St) (graph : Graph)
    (start : ℕ) (sortNet : ℤ) : Option (List ℕ) :=
  match candidateScores sys st graph start sortNet with
  | none => none
  | some scores =>
    let sorted := scores.insertionSort scoreLe
    if sortNet = -1 ∧ cmpIntraScores sorted = false then
      some ((sorted.map (·.g)).reverse)
    else
      some (sorted.map (·.g))

/-! ## SolutionComparator: `ncclTopoCountXGMI`, `ncclTopoCompareGraphs` -/

/-- The inner count of `ncclTopoCountXGMI` for one consecutive pair
`(g, n)` of ranks: over all GPUs `k` one hop from the GPU owning rank `g`,
count the rank-list entries equal to `n` on NVL links. -/
def countXGMIpair (sys : Sys) (g n : ℤ) : ℕ :=
  match (sys.nodes.getD GPU []).findIdx? (fun nd => nd.gpu.rank.contains g) with
  | none => 0
  | some j =>
    let node := sys.node GPU j
    ((List.range (sys.count GPU)).map (fun k =>
      let p := (node.paths.getD GPU []).getD k dfltPath
      if p.plist.length = 1 then
        let link := sys.linkAt (p.plist.getD 0 (0, 0, 0))
        let remNode := sys.node link.remType link.remIdx
        if link.ltype = LINK_NVL then
          (remNode.gpu.rank.filter (fun r => r = n)).length
        else 0
      else 0)).sum

/-- `ncclTopoCountXGMI`: direct accelerator-interconnect edges between
consecutive ranks, summed over all channels. -/
def ncclTopoCountXGMI (sys : Sys) (graph : Graph) : ℕ :=
  let ngpus := sys.count GPU
  ((List.range graph.nChannels).map (fun c =>
    ((List.range ngpus).map (fun i =>
      countXGMIpair sys (graph.intra (ngpus * c + i))
        (graph.intra (ngpus * c + (i + 1) % ngpus)))).sum)).sum

/-- `ncclTopoCompareGraphs`: whether the candidate `graph` replaces the
saved `refGraph` (`*copy`, which every caller initializes to 0). -/
def ncclTopoCompareGraphs (sys : Sys) (graph refGraph : Graph) : Bool :=
  -- 1. constraint to get the same nChannels between rings and trees
  if graph.nChannels < graph.minChannels then false
  -- 2. try to get better bandwidth
  else if (graph.nChannels : ℚ) * graph.bwIntra <
      (refGraph.nChannels : ℚ) * refGraph.bwIntra then false
  else if (graph.nChannels : ℚ) * graph.bwIntra >
      (refGraph.nChannels : ℚ) * refGraph.bwIntra then true
  else
    -- 3. less hops (but not at the price of going cross NICs)
    -- 4. prefer graph with more XGMI connections
    decide (graph.pattern = refGraph.pattern ∧
        graph.crossNic = refGraph.crossNic ∧ graph.nHops < refGraph.nHops) ||
      decide (graph.nChannels = refGraph.nChannels ∧
        ncclTopoCountXGMI sys refGraph < ncclTopoCountXGMI sys graph)

/-! ## Claim C4 -/

/-- The claim's four ordered replacement rules, written as a predicate
(the spec side of C4). -/
def compareSpecReplaces (sys : Sys) (graph refGraph : Graph) : Prop :=
  graph.minChannels ≤ graph.nChannels ∧
    ((graph.nChannels : ℚ) * graph.bwIntra >
        (refGraph.nChannels : ℚ) * refGraph.bwIntra ∨
      ((graph.nChannels : ℚ) * graph.bwIntra =
          (refGraph.nChannels : ℚ) * refGraph.bwIntra ∧
        ((graph.pattern = refGraph.pattern ∧
            graph.crossNic = refGraph.crossNic ∧
            graph.nHops < refGraph.nHops) ∨
          (graph.nChannels = refGraph.nChannels ∧
            ncclTopoCountXGMI sys refGraph < ncclTopoCountXGMI sys graph))))

/-- **C4**: the solution comparator decides replacement exactly by the four
ordered rules: (1) `nChannels < minChannels` never replaces; (2) a strictly
greater `nChannels·bwIntra` product replaces, a strictly smaller one never
does; (3) on a tied product, equal pattern and crossNic with strictly fewer
hops replaces; (4) on a tied product with equal `nChannels`, strictly more
direct XGMI/NVL edges between consecutive ranks over all channels
replaces. -/
theorem claim_C4_comparator (sys : Sys) (graph refGraph : Graph) :
    ncclTopoCompareGraphs sys graph refGraph = true ↔
      compareSpecReplaces sys graph refGraph := by
  unfold ncclTopoCompareGraphs compareSpecReplaces
  split_ifs with h1 h2 h3
  · simp only [Bool.false_eq_true, false_iff]
    rintro ⟨hmc, _⟩
    omega
  · simp only [Bool.false_eq_true, false_iff]
    rintro ⟨_, hgt | ⟨heq, _⟩⟩
    · linarith
    · linarith
  · simp only [true_iff]
    exact ⟨by omega, Or.inl h3⟩
  · have heq : (graph.nChannels : ℚ) * graph.bwIntra =
        (refGraph.nChannels : ℚ) * refGraph.bwIntra :=
      le_antisymm (not_lt.mp h3) (not_lt.mp h2)
    simp only [Bool.or_eq_true, decide_eq_true_eq]
    constructor
    · intro h
      exact ⟨by omega, Or.inr ⟨heq, h⟩⟩
    · rintro ⟨_, hgt | ⟨_, h⟩⟩
      · exact absurd hgt h3
      · exact h

/-! ## Claim C9 -/

/-- The six-key lexicographic order of the claim: `interBw` descending, then
`interPciBw` descending, `interNhops` ascending, `intraBw` descending,
`intraNhops` ascending, `startIndex` ascending. -/
def specScoreLe (s1 s2 : GpuScore) : Prop :=
  s2.interBw < s1.interBw ∨ (s1.interBw = s2.interBw ∧
  (s2.interPciBw < s1.interPciBw ∨ (s1.interPciBw = s2.interPciBw ∧
  (s1.interNhops < s2.interNhops ∨ (s1.interNhops = s2.interNhops ∧
  (s2.intraBw < s1.intraBw ∨ (s1.intraBw = s2.intraBw ∧
  (s1.intraNhops < s2.intraNhops ∨ (s1.intraNhops = s2.intraNhops ∧
  s1.startIndex ≤ s2.startIndex)))))))))

theorem cmpScore_le_iff (s1 s2 : GpuScore) :
    cmpScore s1 s2 ≤ 0 ↔ specScoreLe s1 s2 := by
  unfold cmpScore specScoreLe
  split_ifs <;> omega

instance : IsTotal GpuScore scoreLe :=
  ⟨fun a b => by
    unfold scoreLe
    rw [cmpScore_le_iff, cmpScore_le_iff]
    unfold specScoreLe
    omega⟩

instance : IsTrans GpuScore scoreLe :=
  ⟨fun a b c hab hbc => by
    unfold scoreLe at hab hbc ⊢
    rw [cmpScore_le_iff] at hab hbc ⊢
    unfold specScoreLe at hab hbc ⊢
    omega⟩

theorem cmpIntraScores_eq_false (l : List GpuScore) :
    cmpIntraScores l = false ↔
      ∀ s ∈ l, s.intraBw = l.headI.intraBw ∧
        s.intraNhops = l.headI.intraNhops := by
  cases l with
  | nil => simp [cmpIntraScores]
  | cons s0 rest =>
    unfold cmpIntraScores
    rw [List.any_eq_false]
    constructor
    · intro h s hs
      rcases List.mem_cons.mp hs with h' | h'
      · subst h'; exact ⟨rfl, rfl⟩
      · have := h s h'
        simp only [Bool.or_eq_true, decide_eq_true_eq, not_or] at this
        exact ⟨by simpa using this.1, by simpa using this.2⟩
    · intro h s hs
      have := h s (List.mem_cons_of_mem _ hs)
      simp only [List.headI] at this
      simp [this.1, this.2]

/-- **C9**: the candidate list of next GPUs (those with a path and not yet
used on the current channel) is sorted by the six-key lexicographic score;
when `sortNet = -1` and every candidate has the same `intraBw` and
`intraNhops` as the first, the sorted list is returned reversed; when
`sortNet = 0` all three inter keys are zero for every candidate. -/
theorem claim_C9_peer_ordering {sys : Sys} {st : St} {graph : Graph}
    {start : ℕ} {sortNet : ℤ} {out : List ℕ}
    (h : ncclTopoSearchNextGpuSort sys st graph start sortNet = some out) :
    ∃ cands, candidateScores sys st graph start sortNet = some cands ∧
      List.Sorted specScoreLe (cands.insertionSort scoreLe) ∧
      (cands.insertionSort scoreLe).Perm cands ∧
      (sortNet = 0 → ∀ s ∈ cands,
        s.interBw = 0 ∧ s.interPciBw = 0 ∧ s.interNhops = 0) ∧
      ((sortNet = -1 ∧ ∀ s ∈ cands.insertionSort scoreLe,
          s.intraBw = (cands.insertionSort scoreLe).headI.intraBw ∧
          s.intraNhops = (cands.insertionSort scoreLe).headI.intraNhops) →
        out = ((cands.insertionSort scoreLe).map (·.g)).reverse) ∧
      (¬(sortNet = -1 ∧ ∀ s ∈ cands.insertionSort scoreLe,
          s.intraBw = (cands.insertionSort scoreLe).headI.intraBw ∧
          s.intraNhops = (cands.insertionSort scoreLe).headI.intraNhops) →
        out = (cands.insertionSort scoreLe).map (·.g)) := by
  unfold ncclTopoSearchNextGpuSort at h
  cases hc : candidateScores sys st graph start sortNet with
  | none => rw [hc] at h; exact absurd h (by simp)
  | some cands =>
    rw [hc] at h
    simp only at h
    refine ⟨cands, rfl, ?_, ?_, ?_, ?_, ?_⟩
    · have hs : List.Sorted scoreLe (cands.insertionSort scoreLe) :=
        List.sorted_insertionSort scoreLe cands
      exact hs.imp (fun hab => (cmpScore_le_iff _ _).mp hab)
    · exact List.perm_insertionSort scoreLe cands
    · intro h0 s hs
      unfold candidateScores at hc
      rw [if_neg (by simpa using h0)] at hc
      simp only [Option.some.injEq] at hc
      subst hc
      unfold nextGpuScores at hs
      rw [List.mem_filterMap] at hs
      obtain ⟨i, _, hi⟩ := hs
      split_ifs at hi
      all_goals try (injection hi with hi2; subst hi2; exact ⟨rfl, rfl, rfl⟩)
      all_goals exact absurd hi (by simp)
    · intro hcond
      rw [if_pos ⟨hcond.1, (cmpIntraScores_eq_false _).mpr hcond.2⟩] at h
      simpa using h.symm
    · intro hcond
      rw [if_neg ?_] at h
      · simpa using h.symm
      · intro hcontra
        exact hcond ⟨hcontra.1, (cmpIntraScores_eq_false _).mp hcontra.2⟩

/-- A GPU node for the peer-ordering instance: device `d`, rank `d`, with
the given GPU-path row. -/
def c9Gpu (d : ℕ) (ps : List PathS) : NodeS :=
  { ntype := GPU, id := d, gpu := { dev := d, cudaCompCap := 80, rank := [(d : ℤ)] },
    cpu := dfltCpu, net := dfltNet, links := [], paths := [ps] }

/-- Three GPUs; the paths from GPU 0 to GPUs 1 and 2 are one NVL hop with
nominal bandwidths 10 and 20. -/
def c9Sys : Sys :=
  { nodes := [[
      c9Gpu 0 [⟨[], PATH_LOC, 0⟩, ⟨[(GPU, 0, 0)], PATH_NVL, 10⟩,
        ⟨[(GPU, 0, 1)], PATH_NVL, 20⟩],
      c9Gpu 1 [⟨[(GPU, 1, 0)], PATH_NVL, 10⟩, ⟨[], PATH_LOC, 0⟩,
        ⟨[(GPU, 1, 1)], PATH_NVL, 15⟩],
      c9Gpu 2 [⟨[(GPU, 2, 0)], PATH_NVL, 20⟩, ⟨[(GPU, 2, 1)], PATH_NVL, 15⟩,
        ⟨[], PATH_LOC, 0⟩]]],
    nRanks := 3, romeType := false, maxBw := 20, totalBw := 20,
    intelMul := 1, gdr := fun _ _ => false }

section RatEvalPeer

set_option allowUnsafeReducibility true
attribute [local semireducible] Rat.mul Rat.add Rat.sub Rat.inv

theorem claim_C9_witness :
    ncclTopoSearchNextGpuSort c9Sys wSt wGraph 0 0 = some [2, 1] ∧
    ∃ cands, candidateScores c9Sys wSt wGraph 0 0 = some cands ∧
      List.Sorted specScoreLe (cands.insertionSort scoreLe) ∧
      (cands.insertionSort scoreLe).Perm cands ∧
      ((0 : ℤ) = 0 → ∀ s ∈ cands,
        s.interBw = 0 ∧ s.interPciBw = 0 ∧ s.interNhops = 0) ∧
      (((0 : ℤ) = -1 ∧ ∀ s ∈ cands.insertionSort scoreLe,
          s.intraBw = (cands.insertionSort scoreLe).headI.intraBw ∧
          s.intraNhops = (cands.insertionSort scoreLe).headI.intraNhops) →
        [2, 1] = ((cands.insertionSort scoreLe).map (·.g)).reverse) ∧
      (¬((0 : ℤ) = -1 ∧ ∀ s ∈ cands.insertionSort scoreLe,
          s.intraBw = (cands.insertionSort scoreLe).headI.intraBw ∧
          s.intraNhops = (cands.insertionSort scoreLe).headI.intraNhops) →
        [2, 1] = (cands.insertionSort scoreLe).map (·.g)) := by
  have h : ncclTopoSearchNextGpuSort c9Sys wSt wGraph 0 0 = some [2, 1] := by
    decide
  exact ⟨h, claim_C9_peer_ordering h⟩

end RatEvalPeer

/-! ## SearchRecursor helpers -/

/-- `ncclTopoReplayGetGpu`: the GPU at position `step+1` of the previous
channel. -/
def ncclTopoReplayGetGpu (sys : Sys) (graph : Graph) (step : ℤ) : Option ℕ :=
  if graph.nChannels = 0 then none
  else
    match (sys.nodes.getD GPU []).findIdx? (fun nd =>
        nd.gpu.rank.contains (graph.intra
          ((((graph.nChannels : ℤ) - 1) * (sys.count GPU) + step + 1).toNat))) with
    | some i => some i
    | none => none

/-- Rotate a list left by `r` (the per-GPU NIC shuffle of
`ncclTopoSelectNets`, which moves the head to the back `r` times). -/
def rotateList (l : List ℕ) (r : ℕ) : List ℕ := l.drop r ++ l.take r

/-- The NICs at path-type distance exactly `t` from GPU `g`. -/
def selectNetsLocal (sys : Sys) (g t : ℕ) : List ℕ :=
  (List.range (sys.count NET)).filter (fun n =>
    (((sys.node GPU g).paths.getD NET []).getD n dfltPath).ptype = t)

/-- Append, skipping NICs already collected. -/
def appendDedup (acc l : List ℕ) : List ℕ :=
  l.foldl (fun a n => if n ∈ a then a else a ++ [n]) acc

/-- `ncclTopoSelectNets(system, typeInter, gpu, ...)`. -/
def ncclTopoSelectNets (sys : Sys) (typeInter : ℕ) (gpu : ℤ) : List ℕ :=
  (List.range (typeInter + 1)).foldl (fun acc t =>
    (List.range (sys.count GPU)).foldl (fun acc2 (g : ℕ) =>
      if gpu ≠ -1 ∧ gpu ≠ (g : ℤ) then acc2
      else
        if (selectNetsLocal sys g t).length = 0 then acc2
        else appendDedup acc2 (rotateList (selectNetsLocal sys g t)
          ((sys.node GPU g).gpu.dev % (selectNetsLocal sys g t).length))) acc) []

/-- The reservation made on entry-NIC selection in `ncclTopoSearchRecNet`
(lines 520-527): subtract `bw` (the integer truncation of `graph->bwInter`)
from the `bw` field of every NIC sharing the (asic, port) of NIC `n`, then
decrement `n`'s `maxChannels`. -/
def netReserve (sys : Sys) (st : St) (n : ℕ) (bw : ℤ) : St :=
  let net := sys.node NET n
  let st1 := (List.range (sys.count NET)).foldl (fun s i =>
    if (sys.node NET i).net.asic = net.net.asic ∧
        (sys.node NET i).net.port = net.net.port then
      s.setNetBw i (s.netBw i - bw)
    else s) st
  st1.setNetMaxCh n (st1.netMaxCh n - 1)

/-- The paired release (lines 586-592): increment `maxChannels`, then add
`bw` back to every pooled NIC. -/
def netRelease (sys : Sys) (st : St) (n : ℕ) (bw : ℤ) : St :=
  let net := sys.node NET n
  let st1 := st.setNetMaxCh n (st.netMaxCh n + 1)
  (List.range (sys.count NET)).foldl (fun s i =>
    if (sys.node NET i).net.asic = net.net.asic ∧
        (sys.node NET i).net.port = net.net.port then
      s.setNetBw i (s.netBw i + bw)
    else s) st1

/-- The first-GPU selection of the PCI-order try in `ncclTopoSearchRecNet`
(lines 540-550): the GPU closest to the NIC, preferring GPU-direct RDMA. -/
def recNetFirstGpu (sys : Sys) (n : ℕ) : ℕ × Bool :=
  (List.range (sys.count GPU)).foldl (fun fg i =>
    let paths := (sys.node NET n).paths.getD GPU []
    if (paths.getD i dfltPath).plist.length ≤
        (paths.getD fg.1 dfltPath).plist.length then
      if (paths.getD i dfltPath).plist.length <
          (paths.getD fg.1 dfltPath).plist.length ∨
        ((paths.getD i dfltPath).plist.length =
            (paths.getD fg.1 dfltPath).plist.length ∧ ¬fg.2 ∧
          sys.gdr (sys.node GPU i).id (sys.node NET n).id) then
        (i, sys.gdr (sys.node GPU i).id (sys.node NET n).id)
      else fg
    else fg) (0, false)

/-- The `maxBw`/`minHops` scan over the NIC's GPU paths (lines 557-567). -/
def recNetLocalScan (sys : Sys) (n : ℕ) : ℚ × ℕ :=
  (List.range (sys.count GPU)).foldl (fun mm g =>
    let p := ((sys.node NET n).paths.getD GPU []).getD g dfltPath
    if p.pbw > mm.1 then (p.pbw, p.plist.length)
    else if p.pbw = mm.1 ∧ p.plist.length < mm.2 then (mm.1, p.plist.length)
    else mm) (0, 0xfffffff)

/-- `ncclTopoSearchParams`: `(backToNet, backToFirstRank)` for a pattern. -/
def ncclTopoSearchParams (sys : Sys) (pattern : ℕ) : ℤ × ℤ :=
  if sys.count NET ≠ 0 ∧ sys.count GPU ≠ sys.nRanks then
    (if pattern = PATTERN_RING then ((sys.count GPU : ℤ) - 1)
      else if pattern = PATTERN_SPLIT_TREE then 1 else 0, -1)
  else
    (-1, if pattern = PATTERN_RING then ((sys.count GPU : ℤ) - 1) else -1)

/-- Result of a search call: `(state, graph, saveGraph, time)`; `none` is an
error propagated by `NCCLCHECK` or fuel exhaustion. -/
abbrev SRes : Type := Option (St × Graph × Graph × ℤ)

/-! ## SearchRecursor: the fueled mutual recursion

Every function consumes one unit of fuel per call; `none` at fuel 0.  In the
terminating C code a large enough fuel always exists, so the theorems below
are stated for runs that return `some`. -/

mutual

/-- `ncclTopoSearchTryGpu`: reserve the edge to GPU `g`, toggle its channel
bit, recurse, untoggle, release. -/
def ncclTopoSearchTryGpu (fuel : ℕ) (sys : Sys) (st : St)
    (graph save : Graph) (step : ℕ) (backToNet backToFirstRank : ℤ)
    (forcedOrder : ℕ) (time : ℤ) (t1 : ℤ) (i1 g : ℕ) : SRes :=
  match fuel with
  | 0 => none
  | fuel + 1 =>
    match ncclTopoFollowPath sys st graph t1 i1 GPU g 1 with
    | none => none
    | some (st1, g1, nd) =>
      match nd with
      | none => some (st1, g1, save, time)
      | some _ =>
        let st2 := st1.setUsed g ((st1.used g) ^^^ 2 ^ graph.nChannels)
        match ncclTopoSearchRecGpu fuel sys st2 g1 save g step backToNet
            backToFirstRank forcedOrder time with
        | none => none
        | some (st3, g3, save3, time3) =>
          let st4 := st3.setUsed g ((st3.used g) ^^^ 2 ^ graph.nChannels)
          match ncclTopoFollowPath sys st4 g3 t1 i1 GPU g (-1) with
          | none => none
          | some (st5, g5, _) => some (st5, g5, save3, time3)
termination_by structural fuel


/-- `ncclTopoSearchRecGpu`. -/
def ncclTopoSearchRecGpu (fuel : ℕ) (sys : Sys) (st : St)
    (graph save : Graph) (gpu : ℕ) (step : ℕ)
    (backToNet backToFirstRank : ℤ) (forcedOrder : ℕ) (time : ℤ) : SRes :=
  match fuel with
  | 0 => none
  | fuel + 1 =>
    if time ≤ 0 then some (st, graph, save, time)
    else
      searchRecGpuBody fuel sys st graph save gpu step backToNet
        backToFirstRank forcedOrder (time - 1)
termination_by structural fuel


/-- The body of `ncclTopoSearchRecGpu` after the time-budget check and
decrement. -/
def searchRecGpuBody (fuel : ℕ) (sys : Sys) (st : St)
    (graph save : Graph) (gpu : ℕ) (step : ℕ)
    (backToNet backToFirstRank : ℤ) (forcedOrder : ℕ) (time : ℤ) : SRes :=
  match fuel with
  | 0 => none
  | fuel + 1 =>
    if step = sys.count GPU then
      -- channel complete: tentatively increment nChannels, compare, maybe
      -- snapshot and set the perfect-solution sentinel, maybe recurse into
      -- the next channel, decrement nChannels
      let g1 := { graph with nChannels := graph.nChannels + 1 }
      let copy := ncclTopoCompareGraphs sys g1 save
      let save1 := if copy then g1 else save
      let time1 := if copy ∧ g1.nChannels = g1.maxChannels then -1 else time
      if g1.nChannels < g1.maxChannels then
        match ncclTopoSearchRec fuel sys st g1 save1 time1 with
        | none => none
        | some (st2, g2, save2, time2) =>
          some (st2, { g2 with nChannels := g2.nChannels - 1 }, save2, time2)
      else
        some (st, { g1 with nChannels := g1.nChannels - 1 }, save1, time1)
    else
      let g1 := graph.setIntra (graph.nChannels * sys.count GPU + step)
        ((sys.node GPU gpu).gpu.rank.headI)
      if (step : ℤ) = backToNet then
        if sys.count NET ≠ 0 then
          match getNetIndex sys (g1.inter (g1.nChannels * 2)) with
          | none => none
          | some startNetIndex =>
            recGpuNetLoop fuel sys st g1 save gpu step backToNet
              backToFirstRank forcedOrder time startNetIndex
              (ncclTopoSelectNets sys g1.typeInter gpu)
        else some (st, g1, save, time)
      else if step < sys.count GPU - 1 then
        if forcedOrder = FORCED_ORDER_PCI then
          recGpuNextLoop fuel sys st g1 save gpu step backToNet
            backToFirstRank forcedOrder time [step + 1]
        else if forcedOrder = FORCED_ORDER_REPLAY then
          match ncclTopoReplayGetGpu sys g1 step with
          | none => none
          | some g =>
            recGpuNextLoop fuel sys st g1 save gpu step backToNet
              backToFirstRank forcedOrder time [g]
        else
          match ncclTopoSearchNextGpuSort sys st g1 gpu
              (if backToNet = -1 then 0
                else if backToNet = (step : ℤ) + 1 then 1 else -1) with
          | none => none
          | some next =>
            recGpuNextLoop fuel sys st g1 save gpu step backToNet
              backToFirstRank forcedOrder time next
      else if (step : ℤ) = backToFirstRank then
        match getGpuIndex sys (g1.intra (g1.nChannels * sys.count GPU)) with
        | none => none
        | some p =>
          match ncclTopoFollowPath sys st g1 ((GPU : ℕ) : ℤ) gpu GPU p 1 with
          | none => none
          | some (st1, g2, nd) =>
            match nd with
            | none => some (st1, g2, save, time)
            | some _ =>
              match ncclTopoSearchRecGpu fuel sys st1 g2 save p (step + 1)
                  backToNet (-1) forcedOrder time with
              | none => none
              | some (st2, g3, save2, time2) =>
                match ncclTopoFollowPath sys st2 g3 ((GPU : ℕ) : ℤ) gpu GPU p
                    (-1) with
                | none => none
                | some (st3, g4, _) => some (st3, g4, save2, time2)
      else
        ncclTopoSearchRecGpu fuel sys st g1 save gpu (sys.count GPU) (-1) (-1)
          forcedOrder time
termination_by structural fuel


/-- The loop over candidate return NICs in the `step == backToNet` branch. -/
def recGpuNetLoop (fuel : ℕ) (sys : Sys) (st : St) (graph save : Graph)
    (gpu : ℕ) (step : ℕ) (backToNet backToFirstRank : ℤ) (forcedOrder : ℕ)
    (time : ℤ) (startNetIndex : ℕ) (nets : List ℕ) : SRes :=
  match fuel with
  | 0 => none
  | fuel + 1 =>
    match nets with
    | [] => some (st, graph, save, time)
    | n :: rest =>
      if graph.pattern = PATTERN_TREE ∧
          (sys.node NET n).id ≠ (sys.node NET startNetIndex).id then
        recGpuNetLoop fuel sys st graph save gpu step backToNet
          backToFirstRank forcedOrder time startNetIndex rest
      else if graph.crossNic ≠ 1 ∧
          ((sys.node NET n).net.asic ≠ (sys.node NET startNetIndex).net.asic ∨
            (sys.node NET n).net.port ≠ (sys.node NET startNetIndex).net.port) then
        recGpuNetLoop fuel sys st graph save gpu step backToNet
          backToFirstRank forcedOrder time startNetIndex rest
      else if graph.pattern = PATTERN_BALANCED_TREE ∧ step ≠ 0 ∧
          (sys.node NET n).id ≠ graph.inter (graph.nChannels * 2 + 1) then
        recGpuNetLoop fuel sys st graph save gpu step backToNet
          backToFirstRank forcedOrder time startNetIndex rest
      else
        match ncclTopoFollowPath sys st
            (if graph.pattern = PATTERN_BALANCED_TREE then
              { graph with bwInter := graph.bwInter / 2 } else graph)
            ((GPU : ℕ) : ℤ) gpu NET n 1 with
        | none => none
        | some (st1, g2, nd) =>
          match nd with
          | none =>
            recGpuNetLoop fuel sys st1 { g2 with bwInter := graph.bwInter }
              save gpu step backToNet backToFirstRank forcedOrder time
              startNetIndex rest
          | some _ =>
            match ncclTopoSearchRecGpu fuel sys st1
                (({ g2 with bwInter := graph.bwInter }).setInter
                  (g2.nChannels * 2 + 1) (sys.node NET n).id)
                save gpu step
                (if graph.pattern = PATTERN_BALANCED_TREE ∧ step = 0 then 1
                  else -1)
                backToFirstRank forcedOrder time with
            | none => none
            | some (st2, g5, save2, time2) =>
              match ncclTopoFollowPath sys st2
                  (if g5.pattern = PATTERN_BALANCED_TREE then
                    { g5 with bwInter := g5.bwInter / 2 } else g5)
                  ((GPU : ℕ) : ℤ) gpu NET n (-1) with
              | none => none
              | some (st3, g7, _) =>
                recGpuNetLoop fuel sys st3 { g7 with bwInter := graph.bwInter }
                  save2 gpu step backToNet backToFirstRank forcedOrder time2
                  startNetIndex rest
termination_by structural fuel


/-- The loop over candidate next GPUs in the middle branch. -/
def recGpuNextLoop (fuel : ℕ) (sys : Sys) (st : St) (graph save : Graph)
    (gpu : ℕ) (step : ℕ) (backToNet backToFirstRank : ℤ) (forcedOrder : ℕ)
    (time : ℤ) (next : List ℕ) : SRes :=
  match fuel with
  | 0 => none
  | fuel + 1 =>
    match next with
    | [] => some (st, graph, save, time)
    | g :: rest =>
      match ncclTopoSearchTryGpu fuel sys st graph save (step + 1) backToNet
          backToFirstRank forcedOrder time ((GPU : ℕ) : ℤ) gpu g with
      | none => none
      | some (st1, g1, save1, time1) =>
        recGpuNextLoop fuel sys st1 g1 save1 gpu step backToNet
          backToFirstRank forcedOrder time1 rest
termination_by structural fuel


/-- `ncclTopoSearchRecNet`. -/
def ncclTopoSearchRecNet (fuel : ℕ) (sys : Sys) (st : St)
    (graph save : Graph) (backToNet backToFirstRank : ℤ) (time : ℤ) : SRes :=
  match fuel with
  | 0 => none
  | fuel + 1 =>
    recNetLoop fuel sys st graph save backToNet backToFirstRank time
      (truncQ graph.bwInter) (ncclTopoSelectNets sys graph.typeInter (-1))
termination_by structural fuel


/-- The loop over candidate entry NICs of `ncclTopoSearchRecNet`. -/
def recNetLoop (fuel : ℕ) (sys : Sys) (st : St) (graph save : Graph)
    (backToNet backToFirstRank : ℤ) (time : ℤ) (bw : ℤ)
    (nets : List ℕ) : SRes :=
  match fuel with
  | 0 => none
  | fuel + 1 =>
    match nets with
    | [] => some (st, graph, save, time)
    | n :: rest =>
      if graph.collNet ≠ 0 ∧ (sys.node NET n).net.collSupport = 0 then
        recNetLoop fuel sys st graph save backToNet backToFirstRank time bw rest
      else if st.netBw n < (bw : ℚ) then
        recNetLoop fuel sys st graph save backToNet backToFirstRank time bw rest
      else if st.netMaxCh n = 0 then
        recNetLoop fuel sys st graph save backToNet backToFirstRank time bw rest
      else
        match recNetBody fuel sys
            (netReserve sys st n bw)
            ({ graph.setInter (graph.nChannels * 2) (sys.node NET n).id with
              latencyInter := (sys.node NET n).net.latency })
            save backToNet backToFirstRank time bw n with
        | none => none
        | some (st6, g7, save6, time6) =>
          recNetLoop fuel sys (netRelease sys st6 n bw) g7 save6 backToNet
            backToFirstRank time6 bw rest
termination_by structural fuel


/-- The per-NIC body of `ncclTopoSearchRecNet`: replay try, PCI-order try,
most-local-GPU tries. -/
def recNetBody (fuel : ℕ) (sys : Sys) (st : St) (graph save : Graph)
    (backToNet backToFirstRank : ℤ) (time : ℤ) (bw : ℤ) (n : ℕ) : SRes :=
  match fuel with
  | 0 => none
  | fuel + 1 =>
    match (if graph.nChannels > 0 then
        match ncclTopoReplayGetGpu sys graph (-1) with
        | none => none
        | some g =>
          ncclTopoSearchTryGpu fuel sys st graph save 0 backToNet
            backToFirstRank FORCED_ORDER_REPLAY time ((NET : ℕ) : ℤ) n g
      else some (st, graph, save, time)) with
    | none => none
    | some (st2, g3, save2, time2) =>
      if g3.nChannels = 0 ∨ g3.sameChannels = 0 then
        match (if g3.nChannels = 0 then
            match ncclTopoSearchTryGpu fuel sys st2 g3 save2 0 backToNet
                backToFirstRank
                (if (recNetFirstGpu sys n).1 = 0 then FORCED_ORDER_PCI else 0)
                1024 ((NET : ℕ) : ℤ) n (recNetFirstGpu sys n).1 with
            | none => none
            | some (st3, g4, save3, t3) =>
              some (st3, g4, save3, if t3 = -1 then (-1 : ℤ) else time2)
          else some (st2, g3, save2, time2)) with
        | none => none
        | some (st4, g5, save4, time4) =>
          if (recNetLocalScan sys n).1 ≥ (bw : ℚ) then
            recNetBidirLoop fuel sys st4 g5 save4 backToNet backToFirstRank
              time4 n (recNetLocalScan sys n).1 (recNetLocalScan sys n).2
              ((List.range 2).flatMap (fun b =>
                (List.range (sys.count GPU)).map (fun g => (b, g))))
          else some (st4, g5, save4, time4)
      else some (st2, g3, save2, time2)
termination_by structural fuel


/-- The two-pass (`tryGpuBidir`) loop over the most local GPUs. -/
def recNetBidirLoop (fuel : ℕ) (sys : Sys) (st : St) (graph save : Graph)
    (backToNet backToFirstRank : ℤ) (time : ℤ) (n : ℕ) (maxBwV : ℚ)
    (minHops : ℕ) (pairs : List (ℕ × ℕ)) : SRes :=
  match fuel with
  | 0 => none
  | fuel + 1 =>
    match pairs with
    | [] => some (st, graph, save, time)
    | (bidir, g) :: rest =>
      if (((sys.node NET n).paths.getD GPU []).getD g dfltPath).pbw = maxBwV ∧
          (((sys.node NET n).paths.getD GPU []).getD g dfltPath).plist.length
            = minHops then
        if bidir = (if gpuPciBw sys st g > 0 then 0 else 1) then
          match ncclTopoSearchTryGpu fuel sys st graph save 0 backToNet
              backToFirstRank 0 time ((NET : ℕ) : ℤ) n g with
          | none => none
          | some (st1, g1, save1, time1) =>
            recNetBidirLoop fuel sys st1 g1 save1 backToNet backToFirstRank
              time1 n maxBwV minHops rest
        else
          recNetBidirLoop fuel sys st graph save backToNet backToFirstRank
            time n maxBwV minHops rest
      else
        recNetBidirLoop fuel sys st graph save backToNet backToFirstRank
          time n maxBwV minHops rest
termination_by structural fuel


/-- `ncclTopoSearchRec`: the top-level search entry. -/
def ncclTopoSearchRec (fuel : ℕ) (sys : Sys) (st : St) (graph save : Graph)
    (time : ℤ) : SRes :=
  match fuel with
  | 0 => none
  | fuel + 1 =>
    if sys.count NET ≠ 0 ∧ sys.count GPU ≠ sys.nRanks then
      ncclTopoSearchRecNet fuel sys st graph save
        (ncclTopoSearchParams sys graph.pattern).1
        (ncclTopoSearchParams sys graph.pattern).2 time
    else
      match (if graph.nChannels = 0 then
          ncclTopoSearchTryGpu fuel sys st graph save 0
            (ncclTopoSearchParams sys graph.pattern).1
            (ncclTopoSearchParams sys graph.pattern).2 FORCED_ORDER_PCI time
            (-1) 0 0
        else
          match ncclTopoReplayGetGpu sys graph (-1) with
          | none => none
          | some g =>
            ncclTopoSearchTryGpu fuel sys st graph save 0
              (ncclTopoSearchParams sys graph.pattern).1
              (ncclTopoSearchParams sys graph.pattern).2 FORCED_ORDER_REPLAY
              time (-1) 0 g) with
      | none => none
      | some (st1, g1, save1, time1) =>
        if g1.sameChannels = 0 ∨ g1.nChannels = 0 then
          searchRecIntraLoop fuel sys st1 g1 save1
            (ncclTopoSearchParams sys g1.pattern).1
            (ncclTopoSearchParams sys g1.pattern).2 time1
            (List.range (sys.count GPU))
        else some (st1, g1, save1, time1)
termination_by structural fuel


/-- The final loop of `ncclTopoSearchRec` over all starting GPUs. -/
def searchRecIntraLoop (fuel : ℕ) (sys : Sys) (st : St) (graph save : Graph)
    (backToNet backToFirstRank : ℤ) (time : ℤ) (gs : List ℕ) : SRes :=
  match fuel with
  | 0 => none
  | fuel + 1 =>
    match gs with
    | [] => some (st, graph, save, time)
    | g :: rest =>
      match ncclTopoSearchTryGpu fuel sys st graph save 0 backToNet
          backToFirstRank 0 time (-1) 0 g with
      | none => none
      | some (st1, g1, save1, time1) =>
        searchRecIntraLoop fuel sys st1 g1 save1 backToNet backToFirstRank
          time1 rest
termination_by structural fuel

end

/-! ## C3: NIC pooling at channel start -/

/-- Pointwise effect on `netBw` of a fold updating the NICs satisfying `p`. -/
theorem foldNetBw_netBw (p : ℕ → Prop) [DecidablePred p] (f : ℚ → ℚ)
    (l : List ℕ) (hl : l.Nodup) (st : St) (j : ℕ) :
    ((l.foldl (fun s i => if p i then s.setNetBw i (f (s.netBw i)) else s)
        st).netBw j)
      = if j ∈ l ∧ p j then f (st.netBw j) else st.netBw j := by
  induction l generalizing st with
  | nil => simp
  | cons a rest ih =>
    rw [List.nodup_cons] at hl
    simp only [List.foldl_cons]
    rw [ih hl.2]
    by_cases hpa : p a
    · rw [if_pos hpa]
      by_cases hj : j ∈ rest ∧ p j
      · rw [if_pos hj, if_pos ⟨List.mem_cons_of_mem a hj.1, hj.2⟩]
        have hja : j ≠ a := fun h => hl.1 (h ▸ hj.1)
        simp [St.setNetBw, hja]
      · rw [if_neg hj]
        by_cases hje : j = a
        · subst hje
          rw [if_pos ⟨List.mem_cons_self _ _, hpa⟩]
          simp [St.setNetBw]
        · have hnc : ¬(j ∈ a :: rest ∧ p j) := by
            rintro ⟨hm, hp⟩
            rcases List.mem_cons.mp hm with h | h
            · exact hje h
            · exact hj ⟨h, hp⟩
          rw [if_neg hnc]
          simp [St.setNetBw, hje]
    · rw [if_neg hpa]
      by_cases hj : j ∈ rest ∧ p j
      · rw [if_pos hj, if_pos ⟨List.mem_cons_of_mem a hj.1, hj.2⟩]
      · rw [if_neg hj]
        have hnc : ¬(j ∈ a :: rest ∧ p j) := by
          rintro ⟨hm, hp⟩
          rcases List.mem_cons.mp hm with h | h
          · exact hpa (h ▸ hp)
          · exact hj ⟨h, hp⟩
        rw [if_neg hnc]

/-- The `netBw` fold leaves the other three state components unchanged. -/
theorem foldNetBw_others (p : ℕ → Prop) [DecidablePred p] (f : ℚ → ℚ)
    (l : List ℕ) (st : St) :
    ((l.foldl (fun s i => if p i then s.setNetBw i (f (s.netBw i)) else s)
        st).linkBw = st.linkBw) ∧
    ((l.foldl (fun s i => if p i then s.setNetBw i (f (s.netBw i)) else s)
        st).used = st.used) ∧
    ((l.foldl (fun s i => if p i then s.setNetBw i (f (s.netBw i)) else s)
        st).netMaxCh = st.netMaxCh) := by
  induction l generalizing st with
  | nil => exact ⟨rfl, rfl, rfl⟩
  | cons a rest ih =>
    simp only [List.foldl_cons]
    obtain ⟨h1, h2, h3⟩ :=
      ih (if p a then st.setNetBw a (f (st.netBw a)) else st)
    refine ⟨?_, ?_, ?_⟩
    · rw [h1]; by_cases hpa : p a <;> simp [hpa, St.setNetBw]
    · rw [h2]; by_cases hpa : p a <;> simp [hpa, St.setNetBw]
    · rw [h3]; by_cases hpa : p a <;> simp [hpa, St.setNetBw]

/-- `netReserve` subtracts `bw` from exactly the pooled NICs' `bw` fields. -/
theorem netReserve_netBw (sys : Sys) (st : St) (n : ℕ) (bw : ℤ) (j : ℕ) :
    (netReserve sys st n bw).netBw j =
      if j < sys.count NET ∧
          (sys.node NET j).net.asic = (sys.node NET n).net.asic ∧
          (sys.node NET j).net.port = (sys.node NET n).net.port
      then st.netBw j - (bw : ℚ) else st.netBw j := by
  have h := foldNetBw_netBw
    (fun i => (sys.node NET i).net.asic = (sys.node NET n).net.asic ∧
      (sys.node NET i).net.port = (sys.node NET n).net.port)
    (fun q => q - (bw : ℚ)) (List.range (sys.count NET))
    (List.nodup_range _) st j
  simp only [List.mem_range] at h
  exact h

/-- `netReserve` decrements exactly NIC `n`'s `maxChannels`. -/
theorem netReserve_netMaxCh (sys : Sys) (st : St) (n : ℕ) (bw : ℤ) (j : ℕ) :
    (netReserve sys st n bw).netMaxCh j =
      if j = n then st.netMaxCh j - 1 else st.netMaxCh j := by
  have h := (foldNetBw_others
    (fun i => (sys.node NET i).net.asic = (sys.node NET n).net.asic ∧
      (sys.node NET i).net.port = (sys.node NET n).net.port)
    (fun q => q - (bw : ℚ)) (List.range (sys.count NET)) st).2.2
  show (if j = n then _ else _) = _
  rw [h]
  by_cases hj : j = n
  · subst hj; simp
  · simp [hj]

/-- `netReserve` touches neither `linkBw` nor `used`. -/
theorem netReserve_others (sys : Sys) (st : St) (n : ℕ) (bw : ℤ) :
    (netReserve sys st n bw).linkBw = st.linkBw ∧
    (netReserve sys st n bw).used = st.used := by
  obtain ⟨h1, h2, _⟩ := foldNetBw_others
    (fun i => (sys.node NET i).net.asic = (sys.node NET n).net.asic ∧
      (sys.node NET i).net.port = (sys.node NET n).net.port)
    (fun q => q - (bw : ℚ)) (List.range (sys.count NET)) st
  exact ⟨h1, h2⟩

/-- `netRelease` adds `bw` back to exactly the pooled NICs' `bw` fields. -/
theorem netRelease_netBw (sys : Sys) (st : St) (n : ℕ) (bw : ℤ) (j : ℕ) :
    (netRelease sys st n bw).netBw j =
      if j < sys.count NET ∧
          (sys.node NET j).net.asic = (sys.node NET n).net.asic ∧
          (sys.node NET j).net.port = (sys.node NET n).net.port
      then st.netBw j + (bw : ℚ) else st.netBw j := by
  have h := foldNetBw_netBw
    (fun i => (sys.node NET i).net.asic = (sys.node NET n).net.asic ∧
      (sys.node NET i).net.port = (sys.node NET n).net.port)
    (fun q => q + (bw : ℚ)) (List.range (sys.count NET))
    (List.nodup_range _) (st.setNetMaxCh n (st.netMaxCh n + 1)) j
  simp only [List.mem_range] at h
  exact h

/-- `netRelease` increments exactly NIC `n`'s `maxChannels`. -/
theorem netRelease_netMaxCh (sys : Sys) (st : St) (n : ℕ) (bw : ℤ) (j : ℕ) :
    (netRelease sys st n bw).netMaxCh j =
      if j = n then st.netMaxCh j + 1 else st.netMaxCh j := by
  have h := (foldNetBw_others
    (fun i => (sys.node NET i).net.asic = (sys.node NET n).net.asic ∧
      (sys.node NET i).net.port = (sys.node NET n).net.port)
    (fun q => q + (bw : ℚ)) (List.range (sys.count NET))
    (st.setNetMaxCh n (st.netMaxCh n + 1))).2.2
  show _ = _
  rw [show (netRelease sys st n bw).netMaxCh =
      (st.setNetMaxCh n (st.netMaxCh n + 1)).netMaxCh from h]
  by_cases hj : j = n
  · subst hj; simp [St.setNetMaxCh]
  · simp [St.setNetMaxCh, hj]

/-- `netRelease` touches neither `linkBw` nor `used`. -/
theorem netRelease_others (sys : Sys) (st : St) (n : ℕ) (bw : ℤ) :
    (netRelease sys st n bw).linkBw = st.linkBw ∧
    (netRelease sys st n bw).used = st.used := by
  obtain ⟨h1, h2, _⟩ := foldNetBw_others
    (fun i => (sys.node NET i).net.asic = (sys.node NET n).net.asic ∧
      (sys.node NET i).net.port = (sys.node NET n).net.port)
    (fun q => q + (bw : ℚ)) (List.range (sys.count NET))
    (st.setNetMaxCh n (st.netMaxCh n + 1))
  exact ⟨Eq.trans h1 rfl, Eq.trans h2 rfl⟩

/-- The release exactly undoes the reservation, state-wide. -/
theorem netRelease_netReserve (sys : Sys) (st : St) (n : ℕ) (bw : ℤ) :
    netRelease sys (netReserve sys st n bw) n bw = st := by
  ext x
  · rw [(netRelease_others sys _ n bw).1, (netReserve_others sys st n bw).1]
  · rw [(netRelease_others sys _ n bw).2, (netReserve_others sys st n bw).2]
  · rw [netRelease_netBw, netReserve_netBw]
    by_cases hx : x < sys.count NET ∧
        (sys.node NET x).net.asic = (sys.node NET n).net.asic ∧
        (sys.node NET x).net.port = (sys.node NET n).net.port
    · rw [if_pos hx, if_pos hx]; ring
    · rw [if_neg hx, if_neg hx]
  · rw [netRelease_netMaxCh, netReserve_netMaxCh]
    by_cases hx : x = n
    · rw [if_pos hx, if_pos hx]; ring
    · rw [if_neg hx, if_neg hx]

/-- **C3** (corrected): when the channel-start loop of `ncclTopoSearchRecNet`
selects entry NIC `n`, it decrements `n`'s `maxChannels` counter by one and
reduces the `bw` field of every NIC sharing `n`'s (asic, port) — `n`
included — by the *integer truncation* of `graph.bwInter` (the C code binds
`const int bw = graph->bwInter;` with `bw` of type `int`), not by
`graph.bwInter` itself; on return the counter and every pooled `bw` field are
restored by the exact same amounts, leaving the state bit-identical.  The
first conjunct records that `ncclTopoSearchRecNet` passes exactly
`truncQ graph.bwInter` to its per-NIC loop. -/
theorem claim_C3_nic_pooling (fuel : ℕ) (sys : Sys) (st : St)
    (graph save : Graph) (backToNet backToFirstRank time : ℤ) (n : ℕ) :
    ncclTopoSearchRecNet (fuel + 1) sys st graph save backToNet
        backToFirstRank time
      = recNetLoop fuel sys st graph save backToNet backToFirstRank time
          (truncQ graph.bwInter)
          (ncclTopoSelectNets sys graph.typeInter (-1)) ∧
    (netReserve sys st n (truncQ graph.bwInter)).netMaxCh n
        = st.netMaxCh n - 1 ∧
    (∀ j, (j < sys.count NET ∧
        (sys.node NET j).net.asic = (sys.node NET n).net.asic ∧
        (sys.node NET j).net.port = (sys.node NET n).net.port) →
      (netReserve sys st n (truncQ graph.bwInter)).netBw j
        = st.netBw j - ((truncQ graph.bwInter : ℤ) : ℚ)) ∧
    (∀ j, ¬((sys.node NET j).net.asic = (sys.node NET n).net.asic ∧
        (sys.node NET j).net.port = (sys.node NET n).net.port) →
      (netReserve sys st n (truncQ graph.bwInter)).netBw j = st.netBw j) ∧
    netRelease sys (netReserve sys st n (truncQ graph.bwInter)) n
        (truncQ graph.bwInter) = st := by
  refine ⟨rfl, ?_, ?_, ?_, netRelease_netReserve sys st n _⟩
  · rw [netReserve_netMaxCh]; simp
  · intro j hj
    rw [netReserve_netBw, if_pos hj]
  · intro j hj
    rw [netReserve_netBw, if_neg (fun hc => hj hc.2)]

/-- A two-NIC system whose NICs share (asic, port) = (7, 1). -/
def c3Sys : Sys :=
  { nodes := [[], [], [], [], [],
      [{ dfltNode with ntype := NET, id := 100, net := ⟨7, 1, 0, 0⟩ },
        { dfltNode with ntype := NET, id := 101, net := ⟨7, 1, 0, 0⟩ }]],
    nRanks := 0, romeType := false, maxBw := 0, totalBw := 0, intelMul := 1,
    gdr := fun _ _ => false }

def c3St : St :=
  { linkBw := fun _ => 0, used := fun _ => 0, netBw := fun _ => 10,
    netMaxCh := fun _ => 4 }

/-- A graph requesting the non-integer inter-node bandwidth 2.4. -/
def c3Graph : Graph :=
  { id := 0, pattern := PATTERN_RING, crossNic := 0, collNet := 0,
    bwIntra := 1, bwInter := 12/5, typeIntra := PATH_LOC,
    typeInter := PATH_LOC, nChannels := 0, minChannels := 1, maxChannels := 1,
    sameChannels := 1, nHops := 0, latencyInter := 0, intra := fun _ => 0,
    inter := fun _ => 0 }

section RatEvalNet

set_option allowUnsafeReducibility true
attribute [local semireducible] Rat.mul Rat.add Rat.sub Rat.inv

theorem claim_C3_witness :
    netRelease c3Sys (netReserve c3Sys c3St 0 (truncQ c3Graph.bwInter)) 0
        (truncQ c3Graph.bwInter) = c3St ∧
    (netReserve c3Sys c3St 0 (truncQ c3Graph.bwInter)).netMaxCh 0
        = c3St.netMaxCh 0 - 1 ∧
    (netReserve c3Sys c3St 0 (truncQ c3Graph.bwInter)).netBw 1
        = c3St.netBw 1 - ((truncQ c3Graph.bwInter : ℤ) : ℚ) := by
  obtain ⟨-, h2, h3, -, h5⟩ :=
    claim_C3_nic_pooling 0 c3Sys c3St c3Graph c3Graph (-1) (-1) 0 0
  exact ⟨h5, h2, h3 1 (by decide)⟩

/-- **C3** counterexample to the original wording: with
`graph.bwInter = 12/5` (= 2.4, a value the HIP speed tables contain), the
pooled NIC bandwidths drop from 10 to 8 — a reduction of 2, the integer
truncation — whereas the claimed reduction "by exactly graph.bwInter" would
leave 38/5 = 7.6. -/
theorem claim_C3_counterexample :
    c3Graph.bwInter = 12/5 ∧
    (netReserve c3Sys c3St 0 (truncQ c3Graph.bwInter)).netBw 1 = 8 ∧
    c3St.netBw 1 - c3Graph.bwInter = 38/5 ∧ (8 : ℚ) ≠ 38/5 := by
  refine ⟨rfl, ?_, by decide, by decide⟩
  decide

end RatEvalNet

/-! ## C6: the perfect-solution sentinel -/

/-- **C6** (corrected): when a channel completes (`step == ngpus`) and the
tentatively incremented `nChannels` equals `maxChannels`, the `time` counter
is set to `-1` *only if the comparator accepted the candidate* (`copy` true,
line 419): the assignment `*time = -1` sits inside `if (copy)`.  If the
comparator rejects, `time` is merely decremented and the search returns with
`time - 1`, not `-1`. -/
theorem claim_C6_sentinel (fuel : ℕ) (sys : Sys) (st : St)
    (graph save : Graph) (gpu : ℕ) (backToNet backToFirstRank : ℤ)
    (forcedOrder : ℕ) (time : ℤ) (htime : 0 < time)
    (hmax : graph.nChannels + 1 = graph.maxChannels) :
    (ncclTopoCompareGraphs sys
          { graph with nChannels := graph.nChannels + 1 } save = true →
      ncclTopoSearchRecGpu (fuel + 2) sys st graph save gpu (sys.count GPU)
          backToNet backToFirstRank forcedOrder time
        = some (st, graph,
            { graph with nChannels := graph.nChannels + 1 }, -1)) ∧
    (ncclTopoCompareGraphs sys
          { graph with nChannels := graph.nChannels + 1 } save = false →
      ncclTopoSearchRecGpu (fuel + 2) sys st graph save gpu (sys.count GPU)
          backToNet backToFirstRank forcedOrder time
        = some (st, graph, save, time - 1)) := by
  have hng : ¬(graph.nChannels + 1 < graph.maxChannels) := by omega
  constructor
  · intro hcopy
    show (if time ≤ 0 then some (st, graph, save, time)
        else searchRecGpuBody (fuel + 1) sys st graph save gpu
          (sys.count GPU) backToNet backToFirstRank forcedOrder (time - 1)) = _
    rw [if_neg (not_le.mpr htime)]
    show (if sys.count GPU = sys.count GPU then _ else _) = _
    rw [if_pos rfl]
    simp only [hcopy]
    rw [if_neg hng, if_pos trivial,
      if_pos (⟨trivial, hmax⟩ :
        True ∧ graph.nChannels + 1 = graph.maxChannels)]
    simp
  · intro hcopy
    show (if time ≤ 0 then some (st, graph, save, time)
        else searchRecGpuBody (fuel + 1) sys st graph save gpu
          (sys.count GPU) backToNet backToFirstRank forcedOrder (time - 1)) = _
    rw [if_neg (not_le.mpr htime)]
    show (if sys.count GPU = sys.count GPU then _ else _) = _
    rw [if_pos rfl]
    simp only [hcopy]
    rw [if_neg hng]
    simp

/-- A candidate one channel below its `maxChannels` whose tentative
completion is worse than the saved best. -/
def c6Graph : Graph :=
  { id := 0, pattern := PATTERN_RING, crossNic := 0, collNet := 0,
    bwIntra := 1, bwInter := 1, typeIntra := PATH_LOC, typeInter := PATH_LOC,
    nChannels := 1, minChannels := 1, maxChannels := 2, sameChannels := 1,
    nHops := 0, latencyInter := 0, intra := fun _ => 0, inter := fun _ => 0 }

/-- A saved best with the larger bandwidth product 2·2 = 4. -/
def c6Save : Graph :=
  { id := 0, pattern := PATTERN_RING, crossNic := 0, collNet := 0,
    bwIntra := 2, bwInter := 1, typeIntra := PATH_LOC, typeInter := PATH_LOC,
    nChannels := 2, minChannels := 1, maxChannels := 2, sameChannels := 1,
    nHops := 0, latencyInter := 0, intra := fun _ => 0, inter := fun _ => 0 }

section RatEvalSentinel

set_option allowUnsafeReducibility true
attribute [local semireducible] Rat.mul Rat.add Rat.sub Rat.inv

theorem claim_C6_witness :
    (0 < (5 : ℤ) ∧ c6Save.nChannels + 1 = c6Save.maxChannels + 1 ∧
      ncclTopoCompareGraphs c3Sys
        { c6Graph with nChannels := c6Graph.nChannels + 1 } c6Save = false) ∧
    ncclTopoSearchRecGpu 2 c3Sys c3St c6Graph c6Save 0 (c3Sys.count GPU)
        (-1) (-1) 0 5 = some (c3St, c6Graph, c6Save, 4) := by
  have hc : ncclTopoCompareGraphs c3Sys
      { c6Graph with nChannels := c6Graph.nChannels + 1 } c6Save = false := by
    decide
  refine ⟨⟨by decide, by decide, hc⟩, ?_⟩
  have h := (claim_C6_sentinel 0 c3Sys c3St c6Graph c6Save 0 (-1) (-1) 0 5
    (by decide) (by decide)).2 hc
  exact h

/-- **C6** counterexample to the original wording: a channel completes with
`nChannels + 1 = maxChannels = 2`, yet the comparator rejects the candidate
(product 2·1 < 2·2 of the saved best), so the search returns `time = 4`
— the sentinel `-1` is *not* set. -/
theorem claim_C6_counterexample :
    c6Graph.nChannels + 1 = c6Graph.maxChannels ∧
    (ncclTopoSearchRecGpu 2 c3Sys c3St c6Graph c6Save 0 (c3Sys.count GPU)
        (-1) (-1) 0 5).map (fun r => r.2.2.2) = some 4 ∧
    some (4 : ℤ) ≠ some (-1) := by
  refine ⟨by decide, ?_, by decide⟩
  decide

end RatEvalSentinel

/-! ## Graph-shape tracking through the search

`Graph.withMut` replaces exactly the four fields the search mutates without
restoring (`nHops`, `latencyInter`, `intra`, `inter`); `MutOf g2 g1` says
`g2` differs from `g1` at most in those fields. -/

def Graph.withMut (g : Graph) (nh : ℤ) (li : ℚ) (ia ie : ℕ → ℤ) : Graph :=
  { g with nHops := nh, latencyInter := li, intra := ia, inter := ie }

def MutOf (g2 g1 : Graph) : Prop :=
  ∃ nh li ia ie, g2 = Graph.withMut g1 nh li ia ie

theorem MutOf.refl (g : Graph) : MutOf g g :=
  ⟨g.nHops, g.latencyInter, g.intra, g.inter, by cases g; rfl⟩

theorem MutOf.trans {g3 g2 g1 : Graph} (h2 : MutOf g3 g2) (h1 : MutOf g2 g1) :
    MutOf g3 g1 := by
  obtain ⟨a, b, c, d, rfl⟩ := h2
  obtain ⟨a', b', c', d', rfl⟩ := h1
  exact ⟨a, b, c, d, by cases g1; rfl⟩

theorem MutOf.setIntra {g2 g1 : Graph} (h : MutOf g2 g1) (i : ℕ) (v : ℤ) :
    MutOf (g2.setIntra i v) g1 := by
  obtain ⟨a, b, c, d, rfl⟩ := h
  refine ⟨a, b, fun j => if j = i then v else c j, d, ?_⟩
  cases g1
  simp [Graph.withMut, Graph.setIntra]

theorem MutOf.setInter {g2 g1 : Graph} (h : MutOf g2 g1) (i : ℕ) (v : ℤ) :
    MutOf (g2.setInter i v) g1 := by
  obtain ⟨a, b, c, d, rfl⟩ := h
  refine ⟨a, b, c, fun j => if j = i then v else d j, ?_⟩
  cases g1
  simp [Graph.withMut, Graph.setInter]

theorem MutOf.nHops {g2 g1 : Graph} (h : MutOf g2 g1) (nh : ℤ) :
    MutOf { g2 with nHops := nh } g1 := by
  obtain ⟨a, b, c, d, rfl⟩ := h
  exact ⟨nh, b, c, d, by cases g1; rfl⟩

theorem MutOf.latencyInter {g2 g1 : Graph} (h : MutOf g2 g1) (li : ℚ) :
    MutOf { g2 with latencyInter := li } g1 := by
  obtain ⟨a, b, c, d, rfl⟩ := h
  exact ⟨a, li, c, d, by cases g1; rfl⟩

/-- All twelve stable scalar fields, read off a `MutOf` relation. -/
theorem MutOf.fields {g2 g1 : Graph} (h : MutOf g2 g1) :
    g2.id = g1.id ∧ g2.pattern = g1.pattern ∧ g2.crossNic = g1.crossNic ∧
    g2.collNet = g1.collNet ∧ g2.bwIntra = g1.bwIntra ∧
    g2.bwInter = g1.bwInter ∧ g2.typeIntra = g1.typeIntra ∧
    g2.typeInter = g1.typeInter ∧ g2.nChannels = g1.nChannels ∧
    g2.minChannels = g1.minChannels ∧ g2.maxChannels = g1.maxChannels ∧
    g2.sameChannels = g1.sameChannels := by
  obtain ⟨a, b, c, d, rfl⟩ := h
  exact ⟨rfl, rfl, rfl, rfl, rfl, rfl, rfl, rfl, rfl, rfl, rfl, rfl⟩

/-- Undoing a `bwInter` override restores a `MutOf` to the base graph. -/
theorem MutOf.bwInterReset {g2 g1 : Graph} {x : ℚ}
    (h : MutOf g2 { g1 with bwInter := x }) :
    MutOf { g2 with bwInter := g1.bwInter } g1 := by
  obtain ⟨a, b, c, d, rfl⟩ := h
  exact ⟨a, b, c, d, by cases g1; rfl⟩

/-- Undoing the tentative `nChannels` increment of the channel-complete
branch restores a `MutOf` to the base graph. -/
theorem MutOf.nChannelsDec {g2 g1 : Graph}
    (h : MutOf g2 { g1 with nChannels := g1.nChannels + 1 }) :
    MutOf { g2 with nChannels := g2.nChannels - 1 } g1 := by
  obtain ⟨a, b, c, d, rfl⟩ := h
  refine ⟨a, b, c, d, ?_⟩
  cases g1
  simp [Graph.withMut]

/-- A `MutOf` into a graph whose `bwInter` was halved (the balanced-tree
accounting) still has the base graph's other scalars; resetting `bwInter`
recovers a `MutOf` into the base graph. -/
theorem MutOf.bwInterHalfReset {g2 g1 : Graph}
    (h : MutOf g2 { g1 with bwInter := g1.bwInter / 2 }) :
    MutOf { g2 with bwInter := g1.bwInter } g1 :=
  MutOf.bwInterReset h

theorem MutOf.bwInterCongr {g2 g1 : Graph} (h : MutOf g2 g1) (x : ℚ) :
    MutOf { g2 with bwInter := x } { g1 with bwInter := x } := by
  obtain ⟨a, b, c, d, rfl⟩ := h
  exact ⟨a, b, c, d, by cases g1; rfl⟩

theorem MutOf.bwInterSelf {g2 g1 : Graph} (h : MutOf g2 g1) :
    MutOf { g2 with bwInter := g1.bwInter } g1 := by
  obtain ⟨a, b, c, d, rfl⟩ := h
  exact ⟨a, b, c, d, by cases g1; rfl⟩

/-- `ncclTopoFollowPath` changes at most `nHops` of the graph. -/
theorem tfp_shape {sys : Sys} {st : St} {graph : Graph} {t1 : ℤ}
    {i1 t2 i2 : ℕ} {mult : ℤ} {st' : St} {g' : Graph} {nd : Option NodeRef}
    (h : ncclTopoFollowPath sys st graph t1 i1 t2 i2 mult
      = some (st', g', nd)) :
    MutOf g' graph := by
  unfold ncclTopoFollowPath at h
  by_cases h1 : t1 = -1
  · rw [if_pos h1] at h
    simp only [Option.some.injEq, Prod.mk.injEq] at h
    exact h.2.1 ▸ MutOf.refl graph
  · rw [if_neg h1] at h
    by_cases h2 : (sys.pathAt t1.toNat i1 t2 i2).plist.length = 0
    · rw [if_pos h2] at h
      simp only [Option.some.injEq, Prod.mk.injEq] at h
      exact h.2.1 ▸ MutOf.refl graph
    · rw [if_neg h2] at h
      by_cases h3 : mult = 1 ∧ (sys.pathAt t1.toNat i1 t2 i2).ptype >
          (if t1 = (GPU : ℕ) ∧ t2 = GPU then graph.typeIntra
            else graph.typeInter)
      · rw [if_pos h3] at h
        simp only [Option.some.injEq, Prod.mk.injEq] at h
        exact h.2.1 ▸ MutOf.refl graph
      · rw [if_neg h3] at h
        cases hfp : followPath sys (sys.pathAt t1.toNat i1 t2 i2)
            (t1.toNat, i1) (sys.pathAt t1.toNat i1 t2 i2).plist.length
            ((if t1 = (GPU : ℕ) ∧ t2 = GPU then graph.bwIntra
              else graph.bwInter) * mult) st with
        | none => rw [hfp] at h; exact absurd h (by simp)
        | some p =>
          obtain ⟨stA, step⟩ := p
          rw [hfp] at h
          simp only at h
          by_cases h4 : step < (sys.pathAt t1.toNat i1 t2 i2).plist.length
          · rw [if_pos h4] at h
            cases hfp2 : followPath sys (sys.pathAt t1.toNat i1 t2 i2)
                (t1.toNat, i1) step
                (-((if t1 = (GPU : ℕ) ∧ t2 = GPU then graph.bwIntra
                  else graph.bwInter) * mult)) stA with
            | none => rw [hfp2] at h; exact absurd h (by simp)
            | some q =>
              rw [hfp2] at h
              simp only [Option.some.injEq, Prod.mk.injEq] at h
              exact h.2.1 ▸ MutOf.refl graph
          · rw [if_neg h4] at h
            simp only [Option.some.injEq, Prod.mk.injEq] at h
            exact h.2.1 ▸ MutOf.nHops (MutOf.refl graph) _

/-- What one search call does to its two graph arguments: the candidate is
changed at most in the mutable fields, and the saved best's `crossNic` comes
from one of the two inputs. -/
def ShapeOK (graph save g' save' : Graph) : Prop :=
  MutOf g' graph ∧
    (save'.crossNic = graph.crossNic ∨ save'.crossNic = save.crossNic)

theorem ShapeOK.base (graph save : Graph) : ShapeOK graph save graph save :=
  ⟨MutOf.refl _, Or.inr rfl⟩

theorem ShapeOK.chain {graph save g1 save1 g2 save2 : Graph}
    (h1 : ShapeOK graph save g1 save1) (h2 : ShapeOK g1 save1 g2 save2) :
    ShapeOK graph save g2 save2 := by
  obtain ⟨m1, s1⟩ := h1
  obtain ⟨m2, s2⟩ := h2
  refine ⟨m2.trans m1, ?_⟩
  rcases s2 with h | h
  · exact Or.inl (h.trans (m1.fields).2.2.1)
  · rcases s1 with h' | h'
    · exact Or.inl (h.trans h')
    · exact Or.inr (h.trans h')

theorem ShapeOK.ofMut {graph save gA : Graph} (h : MutOf gA graph) :
    ShapeOK graph save gA save :=
  ⟨h, Or.inr rfl⟩

/-- Joint shape invariant of the whole search recursion, one conjunct per
function of the mutual block: whenever a call returns, the returned candidate
graph differs from the argument graph at most in `nHops`, `latencyInter`,
`intra`, `inter`, and the returned best graph's `crossNic` equals the
`crossNic` of one of the two argument graphs.  No hypotheses on the state or
the bandwidths are needed. -/
theorem search_shape (fuel : ℕ) :
    (∀ sys st graph save step bTN bTFR fO time t1 i1 g st' g' save' t',
      ncclTopoSearchTryGpu fuel sys st graph save step bTN bTFR fO time t1 i1
          g = some (st', g', save', t') →
      ShapeOK graph save g' save') ∧
    (∀ sys st graph save gpu step bTN bTFR fO time st' g' save' t',
      ncclTopoSearchRecGpu fuel sys st graph save gpu step bTN bTFR fO time
          = some (st', g', save', t') →
      ShapeOK graph save g' save') ∧
    (∀ sys st graph save gpu step bTN bTFR fO time st' g' save' t',
      searchRecGpuBody fuel sys st graph save gpu step bTN bTFR fO time
          = some (st', g', save', t') →
      ShapeOK graph save g' save') ∧
    (∀ sys st graph save gpu step bTN bTFR fO time sNI nets st' g' save' t',
      recGpuNetLoop fuel sys st graph save gpu step bTN bTFR fO time sNI nets
          = some (st', g', save', t') →
      ShapeOK graph save g' save') ∧
    (∀ sys st graph save gpu step bTN bTFR fO time next st' g' save' t',
      recGpuNextLoop fuel sys st graph save gpu step bTN bTFR fO time next
          = some (st', g', save', t') →
      ShapeOK graph save g' save') ∧
    (∀ sys st graph save bTN bTFR time st' g' save' t',
      ncclTopoSearchRecNet fuel sys st graph save bTN bTFR time
          = some (st', g', save', t') →
      ShapeOK graph save g' save') ∧
    (∀ sys st graph save bTN bTFR time bw nets st' g' save' t',
      recNetLoop fuel sys st graph save bTN bTFR time bw nets
          = some (st', g', save', t') →
      ShapeOK graph save g' save') ∧
    (∀ sys st graph save bTN bTFR time bw n st' g' save' t',
      recNetBody fuel sys st graph save bTN bTFR time bw n
          = some (st', g', save', t') →
      ShapeOK graph save g' save') ∧
    (∀ sys st graph save bTN bTFR time n mB mH prs st' g' save' t',
      recNetBidirLoop fuel sys st graph save bTN bTFR time n mB mH prs
          = some (st', g', save', t') →
      ShapeOK graph save g' save') ∧
    (∀ sys st graph save time st' g' save' t',
      ncclTopoSearchRec fuel sys st graph save time
          = some (st', g', save', t') →
      ShapeOK graph save g' save') ∧
    (∀ sys st graph save bTN bTFR time gs st' g' save' t',
      searchRecIntraLoop fuel sys st graph save bTN bTFR time gs
          = some (st', g', save', t') →
      ShapeOK graph save g' save') := by
  induction fuel with
  | zero =>
    refine ⟨?_, ?_, ?_, ?_, ?_, ?_, ?_, ?_, ?_, ?_, ?_⟩ <;>
      · intros
        rename_i h
        simp only [ncclTopoSearchTryGpu, ncclTopoSearchRecGpu,
          searchRecGpuBody, recGpuNetLoop, recGpuNextLoop,
          ncclTopoSearchRecNet, recNetLoop, recNetBody, recNetBidirLoop,
          ncclTopoSearchRec, searchRecIntraLoop] at h
        exact Option.noConfusion h
  | succ fuel ih =>
    obtain ⟨ihTry, ihRecGpu, ihBody, ihNetLoop, ihNextLoop, ihRecNet,
      ihRNLoop, ihRNBody, ihBidir, ihSearch, ihIntra⟩ := ih
    have hTry : ∀ sys st graph save step bTN bTFR fO time t1 i1 g st' g'
        save' t',
        ncclTopoSearchTryGpu (fuel + 1) sys st graph save step bTN bTFR fO
            time t1 i1 g = some (st', g', save', t') →
        ShapeOK graph save g' save' := by
      intro sys st graph save step bTN bTFR fO time t1 i1 g st' g' save' t' h
      simp only [ncclTopoSearchTryGpu] at h
      cases h1 : ncclTopoFollowPath sys st graph t1 i1 GPU g 1 with
      | none => rw [h1] at h; simp at h
      | some p1 =>
        obtain ⟨st1, g1, nd⟩ := p1
        rw [h1] at h
        simp only at h
        cases nd with
        | none =>
          simp only [Option.some.injEq, Prod.mk.injEq] at h
          obtain ⟨-, h2, h3, -⟩ := h
          exact h2 ▸ h3 ▸ ShapeOK.ofMut (tfp_shape h1)
        | some nd0 =>
          simp only at h
          cases h2 : ncclTopoSearchRecGpu fuel sys
              (st1.setUsed g ((st1.used g) ^^^ 2 ^ graph.nChannels)) g1 save g
              step bTN bTFR fO time with
          | none => rw [h2] at h; simp at h
          | some p2 =>
            obtain ⟨st3, g3, save3, time3⟩ := p2
            rw [h2] at h
            simp only at h
            cases h3 : ncclTopoFollowPath sys
                (st3.setUsed g ((st3.used g) ^^^ 2 ^ graph.nChannels)) g3 t1
                i1 GPU g (-1) with
            | none => rw [h3] at h; simp at h
            | some p3 =>
              obtain ⟨st5, g5, nd5⟩ := p3
              rw [h3] at h
              simp only [Option.some.injEq, Prod.mk.injEq] at h
              obtain ⟨-, hg, hs, -⟩ := h
              have c1 : ShapeOK graph save g1 save :=
                ShapeOK.ofMut (tfp_shape h1)
              have c2 : ShapeOK g1 save g3 save3 :=
                ihRecGpu _ _ _ _ _ _ _ _ _ _ _ _ _ _ h2
              have c3 : ShapeOK g3 save3 g5 save3 :=
                ShapeOK.ofMut (tfp_shape h3)
              exact hg ▸ hs ▸ (c1.chain (c2.chain c3))
    have hRecGpu : ∀ sys st graph save gpu step bTN bTFR fO time st' g'
        save' t',
        ncclTopoSearchRecGpu (fuel + 1) sys st graph save gpu step bTN bTFR
            fO time = some (st', g', save', t') →
        ShapeOK graph save g' save' := by
      intro sys st graph save gpu step bTN bTFR fO time st' g' save' t' h
      simp only [ncclTopoSearchRecGpu] at h
      by_cases ht : time ≤ 0
      · rw [if_pos ht] at h
        simp only [Option.some.injEq, Prod.mk.injEq] at h
        obtain ⟨-, hg, hs, -⟩ := h
        exact hg ▸ hs ▸ ShapeOK.base graph save
      · rw [if_neg ht] at h
        exact ihBody _ _ _ _ _ _ _ _ _ _ _ _ _ _ h
    have hNextLoop : ∀ sys st graph save gpu step bTN bTFR fO time next st'
        g' save' t',
        recGpuNextLoop (fuel + 1) sys st graph save gpu step bTN bTFR fO time
            next = some (st', g', save', t') →
        ShapeOK graph save g' save' := by
      intro sys st graph save gpu step bTN bTFR fO time next st' g' save' t' h
      simp only [recGpuNextLoop] at h
      cases next with
      | nil =>
        simp only [Option.some.injEq, Prod.mk.injEq] at h
        obtain ⟨-, hg, hs, -⟩ := h
        exact hg ▸ hs ▸ ShapeOK.base graph save
      | cons g0 rest =>
        simp only at h
        cases h1 : ncclTopoSearchTryGpu fuel sys st graph save (step + 1) bTN
            bTFR fO time ((GPU : ℕ) : ℤ) gpu g0 with
        | none => rw [h1] at h; simp at h
        | some p1 =>
          obtain ⟨st1, g1, save1, time1⟩ := p1
          rw [h1] at h
          simp only at h
          exact (ihTry _ _ _ _ _ _ _ _ _ _ _ _ _ _ _ _ h1).chain
            (ihNextLoop _ _ _ _ _ _ _ _ _ _ _ _ _ _ _ h)
    have hNetLoop : ∀ sys st graph save gpu step bTN bTFR fO time sNI nets
        st' g' save' t',
        recGpuNetLoop (fuel + 1) sys st graph save gpu step bTN bTFR fO time
            sNI nets = some (st', g', save', t') →
        ShapeOK graph save g' save' := by
      intro sys st graph save gpu step bTN bTFR fO time sNI nets st' g' save'
        t' h
      simp only [recGpuNetLoop] at h
      cases nets with
      | nil =>
        simp only [Option.some.injEq, Prod.mk.injEq] at h
        obtain ⟨-, hg, hs, -⟩ := h
        exact hg ▸ hs ▸ ShapeOK.base graph save
      | cons n rest =>
        simp only at h
        by_cases hc1 : graph.pattern = PATTERN_TREE ∧
            (sys.node NET n).id ≠ (sys.node NET sNI).id
        · rw [if_pos hc1] at h
          exact ihNetLoop _ _ _ _ _ _ _ _ _ _ _ _ _ _ _ _ h
        · rw [if_neg hc1] at h
          by_cases hc2 : graph.crossNic ≠ 1 ∧
              ((sys.node NET n).net.asic ≠ (sys.node NET sNI).net.asic ∨
                (sys.node NET n).net.port ≠ (sys.node NET sNI).net.port)
          · rw [if_pos hc2] at h
            exact ihNetLoop _ _ _ _ _ _ _ _ _ _ _ _ _ _ _ _ h
          · rw [if_neg hc2] at h
            by_cases hc3 : graph.pattern = PATTERN_BALANCED_TREE ∧ step ≠ 0 ∧
                (sys.node NET n).id ≠ graph.inter (graph.nChannels * 2 + 1)
            · rw [if_pos hc3] at h
              exact ihNetLoop _ _ _ _ _ _ _ _ _ _ _ _ _ _ _ _ h
            · rw [if_neg hc3] at h
              have hhalf : MutOf
                  (if graph.pattern = PATTERN_BALANCED_TREE then
                    { graph with bwInter := graph.bwInter / 2 } else graph)
                  (if graph.pattern = PATTERN_BALANCED_TREE then
                    { graph with bwInter := graph.bwInter / 2 } else graph) :=
                MutOf.refl _
              cases h1 : ncclTopoFollowPath sys st
                  (if graph.pattern = PATTERN_BALANCED_TREE then
                    { graph with bwInter := graph.bwInter / 2 } else graph)
                  ((GPU : ℕ) : ℤ) gpu NET n 1 with
              | none => rw [h1] at h; simp at h
              | some p1 =>
                obtain ⟨st1, g2, nd⟩ := p1
                rw [h1] at h
                simp only at h
                have hg2 : MutOf { g2 with bwInter := graph.bwInter } graph := by
                  by_cases hb : graph.pattern = PATTERN_BALANCED_TREE
                  · rw [if_pos hb] at h1
                    exact MutOf.bwInterReset (tfp_shape h1)
                  · rw [if_neg hb] at h1
                    exact MutOf.bwInterSelf (tfp_shape h1)
                cases nd with
                | none =>
                  simp only at h
                  exact (ShapeOK.ofMut hg2).chain
                    (ihNetLoop _ _ _ _ _ _ _ _ _ _ _ _ _ _ _ _ h)
                | some nd0 =>
                  simp only at h
                  cases h2 : ncclTopoSearchRecGpu fuel sys st1
                      (({ g2 with bwInter := graph.bwInter }).setInter
                        (g2.nChannels * 2 + 1) (sys.node NET n).id)
                      save gpu step
                      (if graph.pattern = PATTERN_BALANCED_TREE ∧ step = 0
                        then 1 else -1)
                      bTFR fO time with
                  | none => rw [h2] at h; simp at h
                  | some p2 =>
                    obtain ⟨st2, g5, save2, time2⟩ := p2
                    rw [h2] at h
                    simp only at h
                    have cArg : MutOf
                        (({ g2 with bwInter := graph.bwInter }).setInter
                          (g2.nChannels * 2 + 1) (sys.node NET n).id)
                        graph := hg2.setInter _ _
                    have c2 : ShapeOK graph save g5 save2 :=
                      (ShapeOK.ofMut cArg).chain
                        (ihRecGpu _ _ _ _ _ _ _ _ _ _ _ _ _ _ h2)
                    cases h3 : ncclTopoFollowPath sys st2
                        (if g5.pattern = PATTERN_BALANCED_TREE then
                          { g5 with bwInter := g5.bwInter / 2 } else g5)
                        ((GPU : ℕ) : ℤ) gpu NET n (-1) with
                    | none => rw [h3] at h; simp at h
                    | some p3 =>
                      obtain ⟨st3, g7, nd3⟩ := p3
                      rw [h3] at h
                      simp only at h
                      have hg7 : MutOf { g7 with bwInter := graph.bwInter }
                          graph := by
                        by_cases hb : g5.pattern = PATTERN_BALANCED_TREE
                        · rw [if_pos hb] at h3
                          have hmid : MutOf g7
                              { graph with bwInter := graph.bwInter / 2 } := by
                            have h5half : MutOf
                                { g5 with bwInter := g5.bwInter / 2 }
                                { graph with bwInter := graph.bwInter / 2 } := by
                              rw [(c2.1).fields.2.2.2.2.2.1]
                              exact (c2.1).bwInterCongr _
                            exact (tfp_shape h3).trans h5half
                          exact MutOf.bwInterReset hmid
                        · rw [if_neg hb] at h3
                          exact MutOf.bwInterSelf ((tfp_shape h3).trans c2.1)
                      have hrec :=
                        ihNetLoop _ _ _ _ _ _ _ _ _ _ _ _ _ _ _ _ h
                      exact (show ShapeOK graph save
                          { g7 with bwInter := graph.bwInter } save2 from
                        ⟨hg7, c2.2⟩).chain hrec
    have hBody : ∀ sys st graph save gpu step bTN bTFR fO time st' g' save'
        t',
        searchRecGpuBody (fuel + 1) sys st graph save gpu step bTN bTFR fO
            time = some (st', g', save', t') →
        ShapeOK graph save g' save' := by
      intro sys st graph save gpu step bTN bTFR fO time st' g' save' t' h
      simp only [searchRecGpuBody] at h
      by_cases hstep : step = sys.count GPU
      · rw [if_pos hstep] at h
        by_cases hcopy : ncclTopoCompareGraphs sys
            { graph with nChannels := graph.nChannels + 1 } save = true
        · rw [if_pos hcopy] at h
          by_cases hlt : graph.nChannels + 1 < graph.maxChannels
          · rw [if_pos hlt] at h
            cases h1 : ncclTopoSearchRec fuel sys st
                { graph with nChannels := graph.nChannels + 1 }
                { graph with nChannels := graph.nChannels + 1 }
                (if (ncclTopoCompareGraphs sys
                    { graph with nChannels := graph.nChannels + 1 } save
                      = true) ∧
                    graph.nChannels + 1 = graph.maxChannels then -1
                  else time) with
            | none => rw [h1] at h; simp at h
            | some p1 =>
              obtain ⟨st2, g2, save2, time2⟩ := p1
              rw [h1] at h
              simp only [Option.some.injEq, Prod.mk.injEq] at h
              obtain ⟨-, hg, hs, -⟩ := h
              have c1 := ihSearch _ _ _ _ _ _ _ _ _ h1
              refine ⟨hg ▸ MutOf.nChannelsDec c1.1, ?_⟩
              rcases c1.2 with hx | hx <;>
                exact Or.inl (hs ▸ hx)
          · rw [if_neg hlt] at h
            simp only [Option.some.injEq, Prod.mk.injEq] at h
            obtain ⟨-, hg, hs, -⟩ := h
            refine ⟨hg ▸ MutOf.nChannelsDec (MutOf.refl _), Or.inl (hs ▸ rfl)⟩
        · rw [if_neg hcopy] at h
          by_cases hlt : graph.nChannels + 1 < graph.maxChannels
          · rw [if_pos hlt] at h
            cases h1 : ncclTopoSearchRec fuel sys st
                { graph with nChannels := graph.nChannels + 1 } save
                (if (ncclTopoCompareGraphs sys
                    { graph with nChannels := graph.nChannels + 1 } save
                      = true) ∧
                    graph.nChannels + 1 = graph.maxChannels then -1
                  else time) with
            | none => rw [h1] at h; simp at h
            | some p1 =>
              obtain ⟨st2, g2, save2, time2⟩ := p1
              rw [h1] at h
              simp only [Option.some.injEq, Prod.mk.injEq] at h
              obtain ⟨-, hg, hs, -⟩ := h
              have c1 := ihSearch _ _ _ _ _ _ _ _ _ h1
              refine ⟨hg ▸ MutOf.nChannelsDec c1.1, ?_⟩
              rcases c1.2 with hx | hx
              · exact Or.inl (hs ▸ hx)
              · exact Or.inr (hs ▸ hx)
          · rw [if_neg hlt] at h
            simp only [Option.some.injEq, Prod.mk.injEq] at h
            obtain ⟨-, hg, hs, -⟩ := h
            exact ⟨hg ▸ MutOf.nChannelsDec (MutOf.refl _), Or.inr (hs ▸ rfl)⟩
      · rw [if_neg hstep] at h
        have hg1 : MutOf (graph.setIntra
            (graph.nChannels * sys.count GPU + step)
            ((sys.node GPU gpu).gpu.rank.headI)) graph :=
          (MutOf.refl graph).setIntra _ _
        by_cases hbn : (step : ℤ) = bTN
        · rw [if_pos hbn] at h
          by_cases hnet : sys.count NET ≠ 0
          · rw [if_pos hnet] at h
            cases h1 : getNetIndex sys ((graph.setIntra
                (graph.nChannels * sys.count GPU + step)
                ((sys.node GPU gpu).gpu.rank.headI)).inter
                  ((graph.setIntra (graph.nChannels * sys.count GPU + step)
                    ((sys.node GPU gpu).gpu.rank.headI)).nChannels * 2)) with
            | none => rw [h1] at h; simp at h
            | some sNI =>
              rw [h1] at h
              simp only at h
              exact (ShapeOK.ofMut hg1).chain
                (ihNetLoop _ _ _ _ _ _ _ _ _ _ _ _ _ _ _ _ h)
          · rw [if_neg hnet] at h
            simp only [Option.some.injEq, Prod.mk.injEq] at h
            obtain ⟨-, hg, hs, -⟩ := h
            exact ⟨hg ▸ hg1, Or.inr (hs ▸ rfl)⟩
        · rw [if_neg hbn] at h
          by_cases hmid : step < sys.count GPU - 1
          · rw [if_pos hmid] at h
            by_cases hpci : fO = FORCED_ORDER_PCI
            · rw [if_pos hpci] at h
              exact (ShapeOK.ofMut hg1).chain
                (ihNextLoop _ _ _ _ _ _ _ _ _ _ _ _ _ _ _ h)
            · rw [if_neg hpci] at h
              by_cases hrep : fO = FORCED_ORDER_REPLAY
              · rw [if_pos hrep] at h
                cases h1 : ncclTopoReplayGetGpu sys (graph.setIntra
                    (graph.nChannels * sys.count GPU + step)
                    ((sys.node GPU gpu).gpu.rank.headI)) step with
                | none => rw [h1] at h; simp at h
                | some g0 =>
                  rw [h1] at h
                  simp only at h
                  exact (ShapeOK.ofMut hg1).chain
                    (ihNextLoop _ _ _ _ _ _ _ _ _ _ _ _ _ _ _ h)
              · rw [if_neg hrep] at h
                cases h1 : ncclTopoSearchNextGpuSort sys st (graph.setIntra
                    (graph.nChannels * sys.count GPU + step)
                    ((sys.node GPU gpu).gpu.rank.headI)) gpu
                    (if bTN = -1 then 0
                      else if bTN = (step : ℤ) + 1 then 1 else -1) with
                | none => rw [h1] at h; simp at h
                | some next =>
                  rw [h1] at h
                  simp only at h
                  exact (ShapeOK.ofMut hg1).chain
                    (ihNextLoop _ _ _ _ _ _ _ _ _ _ _ _ _ _ _ h)
          · rw [if_neg hmid] at h
            by_cases hbfr : (step : ℤ) = bTFR
            · rw [if_pos hbfr] at h
              cases h1 : getGpuIndex sys ((graph.setIntra
                  (graph.nChannels * sys.count GPU + step)
                  ((sys.node GPU gpu).gpu.rank.headI)).intra
                    ((graph.setIntra (graph.nChannels * sys.count GPU + step)
                      ((sys.node GPU gpu).gpu.rank.headI)).nChannels *
                      sys.count GPU)) with
              | none => rw [h1] at h; simp at h
              | some p =>
                rw [h1] at h
                simp only at h
                cases h2 : ncclTopoFollowPath sys st (graph.setIntra
                    (graph.nChannels * sys.count GPU + step)
                    ((sys.node GPU gpu).gpu.rank.headI)) ((GPU : ℕ) : ℤ) gpu
                    GPU p 1 with
                | none => rw [h2] at h; simp at h
                | some p2 =>
                  obtain ⟨st1, g2, nd⟩ := p2
                  rw [h2] at h
                  simp only at h
                  cases nd with
                  | none =>
                    simp only [Option.some.injEq, Prod.mk.injEq] at h
                    obtain ⟨-, hg, hs, -⟩ := h
                    exact ⟨hg ▸ (tfp_shape h2).trans hg1, Or.inr (hs ▸ rfl)⟩
                  | some nd0 =>
                    simp only at h
                    cases h3 : ncclTopoSearchRecGpu fuel sys st1 g2 save p
                        (step + 1) bTN (-1) fO time with
                    | none => rw [h3] at h; simp at h
                    | some p3 =>
                      obtain ⟨st2, g3, save2, time2⟩ := p3
                      rw [h3] at h
                      simp only at h
                      cases h4 : ncclTopoFollowPath sys st2 g3
                          ((GPU : ℕ) : ℤ) gpu GPU p (-1) with
                      | none => rw [h4] at h; simp at h
                      | some p4 =>
                        obtain ⟨st3, g4, nd4⟩ := p4
                        rw [h4] at h
                        simp only [Option.some.injEq, Prod.mk.injEq] at h
                        obtain ⟨-, hg, hs, -⟩ := h
                        have c0 : ShapeOK graph save
                            (graph.setIntra
                              (graph.nChannels * sys.count GPU + step)
                              ((sys.node GPU gpu).gpu.rank.headI)) save :=
                          ShapeOK.ofMut hg1
                        have c1 : ShapeOK
                            (graph.setIntra
                              (graph.nChannels * sys.count GPU + step)
                              ((sys.node GPU gpu).gpu.rank.headI)) save g2 save :=
                          ShapeOK.ofMut (tfp_shape h2)
                        have c2 : ShapeOK g2 save g3 save2 :=
                          ihRecGpu _ _ _ _ _ _ _ _ _ _ _ _ _ _ h3
                        have c3 : ShapeOK g3 save2 g4 save2 :=
                          ShapeOK.ofMut (tfp_shape h4)
                        exact hg ▸ hs ▸
                          ((c0.chain c1).chain (c2.chain c3))
            · rw [if_neg hbfr] at h
              exact (ShapeOK.ofMut hg1).chain
                (ihRecGpu _ _ _ _ _ _ _ _ _ _ _ _ _ _ h)
    have hRecNet : ∀ sys st graph save bTN bTFR time st' g' save' t',
        ncclTopoSearchRecNet (fuel + 1) sys st graph save bTN bTFR time
            = some (st', g', save', t') →
        ShapeOK graph save g' save' := by
      intro sys st graph save bTN bTFR time st' g' save' t' h
      simp only [ncclTopoSearchRecNet] at h
      exact ihRNLoop _ _ _ _ _ _ _ _ _ _ _ _ _ h
    have hRNLoop : ∀ sys st graph save bTN bTFR time bw nets st' g' save' t',
        recNetLoop (fuel + 1) sys st graph save bTN bTFR time bw nets
            = some (st', g', save', t') →
        ShapeOK graph save g' save' := by
      intro sys st graph save bTN bTFR time bw nets st' g' save' t' h
      simp only [recNetLoop] at h
      cases nets with
      | nil =>
        simp only [Option.some.injEq, Prod.mk.injEq] at h
        obtain ⟨-, hg, hs, -⟩ := h
        exact hg ▸ hs ▸ ShapeOK.base graph save
      | cons n rest =>
        simp only at h
        by_cases hc1 : graph.collNet ≠ 0 ∧ (sys.node NET n).net.collSupport
            = 0
        · rw [if_pos hc1] at h
          exact ihRNLoop _ _ _ _ _ _ _ _ _ _ _ _ _ h
        · rw [if_neg hc1] at h
          by_cases hc2 : st.netBw n < (bw : ℚ)
          · rw [if_pos hc2] at h
            exact ihRNLoop _ _ _ _ _ _ _ _ _ _ _ _ _ h
          · rw [if_neg hc2] at h
            by_cases hc3 : st.netMaxCh n = 0
            · rw [if_pos hc3] at h
              exact ihRNLoop _ _ _ _ _ _ _ _ _ _ _ _ _ h
            · rw [if_neg hc3] at h
              cases h1 : recNetBody fuel sys (netReserve sys st n bw)
                  ({ graph.setInter (graph.nChannels * 2)
                      (sys.node NET n).id with
                    latencyInter := (sys.node NET n).net.latency })
                  save bTN bTFR time bw n with
              | none => rw [h1] at h; simp at h
              | some p1 =>
                obtain ⟨st6, g7, save6, time6⟩ := p1
                rw [h1] at h
                simp only at h
                have c0 : MutOf ({ graph.setInter (graph.nChannels * 2)
                    (sys.node NET n).id with
                  latencyInter := (sys.node NET n).net.latency }) graph :=
                  ((MutOf.refl graph).setInter _ _).latencyInter _
                exact ((ShapeOK.ofMut c0).chain
                    (ihRNBody _ _ _ _ _ _ _ _ _ _ _ _ _ h1)).chain
                  (ihRNLoop _ _ _ _ _ _ _ _ _ _ _ _ _ h)
    have hRNBody : ∀ sys st graph save bTN bTFR time bw n st' g' save' t',
        recNetBody (fuel + 1) sys st graph save bTN bTFR time bw n
            = some (st', g', save', t') →
        ShapeOK graph save g' save' := by
      intro sys st graph save bTN bTFR time bw n st' g' save' t' h
      simp only [recNetBody] at h
      have stage1 : ∀ st2 g3 save2 time2,
          (if graph.nChannels > 0 then
            match ncclTopoReplayGetGpu sys graph (-1) with
            | none => none
            | some g =>
              ncclTopoSearchTryGpu fuel sys st graph save 0 bTN bTFR
                FORCED_ORDER_REPLAY time ((NET : ℕ) : ℤ) n g
            else some (st, graph, save, time))
            = some (st2, g3, save2, time2) →
          ShapeOK graph save g3 save2 := by
        intro st2 g3 save2 time2 h1
        by_cases hn : graph.nChannels > 0
        · rw [if_pos hn] at h1
          cases h2 : ncclTopoReplayGetGpu sys graph (-1) with
          | none => rw [h2] at h1; simp at h1
          | some g0 =>
            rw [h2] at h1
            simp only at h1
            exact ihTry _ _ _ _ _ _ _ _ _ _ _ _ _ _ _ _ h1
        · rw [if_neg hn] at h1
          simp only [Option.some.injEq, Prod.mk.injEq] at h1
          obtain ⟨-, hg, hs, -⟩ := h1
          exact hg ▸ hs ▸ ShapeOK.base graph save
      cases hs1 : (if graph.nChannels > 0 then
          match ncclTopoReplayGetGpu sys graph (-1) with
          | none => none
          | some g =>
            ncclTopoSearchTryGpu fuel sys st graph save 0 bTN bTFR
              FORCED_ORDER_REPLAY time ((NET : ℕ) : ℤ) n g
          else some (st, graph, save, time)) with
      | none => rw [hs1] at h; simp at h
      | some p1 =>
        obtain ⟨st2, g3, save2, time2⟩ := p1
        rw [hs1] at h
        simp only at h
        have c1 := stage1 _ _ _ _ hs1
        by_cases hcond : g3.nChannels = 0 ∨ g3.sameChannels = 0
        · rw [if_pos hcond] at h
          have stage2 : ∀ st4 g5 save4 time4,
              (if g3.nChannels = 0 then
                match ncclTopoSearchTryGpu fuel sys st2 g3 save2 0 bTN bTFR
                    (if (recNetFirstGpu sys n).1 = 0 then FORCED_ORDER_PCI
                      else 0)
                    1024 ((NET : ℕ) : ℤ) n (recNetFirstGpu sys n).1 with
                | none => none
                | some (st3, g4, save3, t3) =>
                  some (st3, g4, save3, if t3 = -1 then (-1 : ℤ) else time2)
                else some (st2, g3, save2, time2))
                = some (st4, g5, save4, time4) →
              ShapeOK g3 save2 g5 save4 := by
            intro st4 g5 save4 time4 h2
            by_cases hn0 : g3.nChannels = 0
            · rw [if_pos hn0] at h2
              cases h3 : ncclTopoSearchTryGpu fuel sys st2 g3 save2 0 bTN
                  bTFR
                  (if (recNetFirstGpu sys n).1 = 0 then FORCED_ORDER_PCI
                    else 0)
                  1024 ((NET : ℕ) : ℤ) n (recNetFirstGpu sys n).1 with
              | none => rw [h3] at h2; simp at h2
              | some p3 =>
                obtain ⟨st3, g4, save3, t3⟩ := p3
                rw [h3] at h2
                simp only [Option.some.injEq, Prod.mk.injEq] at h2
                obtain ⟨-, hg, hs, -⟩ := h2
                exact hg ▸ hs ▸ ihTry _ _ _ _ _ _ _ _ _ _ _ _ _ _ _ _ h3
            · rw [if_neg hn0] at h2
              simp only [Option.some.injEq, Prod.mk.injEq] at h2
              obtain ⟨-, hg, hs, -⟩ := h2
              exact hg ▸ hs ▸ ShapeOK.base g3 save2
          cases hs2 : (if g3.nChannels = 0 then
              match ncclTopoSearchTryGpu fuel sys st2 g3 save2 0 bTN bTFR
                  (if (recNetFirstGpu sys n).1 = 0 then FORCED_ORDER_PCI
                    else 0)
                  1024 ((NET : ℕ) : ℤ) n (recNetFirstGpu sys n).1 with
              | none => none
              | some (st3, g4, save3, t3) =>
                some (st3, g4, save3, if t3 = -1 then (-1 : ℤ) else time2)
              else some (st2, g3, save2, time2)) with
          | none => rw [hs2] at h; simp at h
          | some p2 =>
            obtain ⟨st4, g5, save4, time4⟩ := p2
            rw [hs2] at h
            simp only at h
            have c2 := stage2 _ _ _ _ hs2
            by_cases hbw : (recNetLocalScan sys n).1 ≥ (bw : ℚ)
            · rw [if_pos hbw] at h
              exact (c1.chain c2).chain
                (ihBidir _ _ _ _ _ _ _ _ _ _ _ _ _ _ _ h)
            · rw [if_neg hbw] at h
              simp only [Option.some.injEq, Prod.mk.injEq] at h
              obtain ⟨-, hg, hs, -⟩ := h
              exact hg ▸ hs ▸ (c1.chain c2)
        · rw [if_neg hcond] at h
          simp only [Option.some.injEq, Prod.mk.injEq] at h
          obtain ⟨-, hg, hs, -⟩ := h
          exact hg ▸ hs ▸ c1
    have hBidir : ∀ sys st graph save bTN bTFR time n mB mH prs st' g' save'
        t',
        recNetBidirLoop (fuel + 1) sys st graph save bTN bTFR time n mB mH
            prs = some (st', g', save', t') →
        ShapeOK graph save g' save' := by
      intro sys st graph save bTN bTFR time n mB mH prs st' g' save' t' h
      simp only [recNetBidirLoop] at h
      cases prs with
      | nil =>
        simp only [Option.some.injEq, Prod.mk.injEq] at h
        obtain ⟨-, hg, hs, -⟩ := h
        exact hg ▸ hs ▸ ShapeOK.base graph save
      | cons pr rest =>
        obtain ⟨bd, g0⟩ := pr
        simp only at h
        by_cases hc1 : (((sys.node NET n).paths.getD GPU []).getD g0
            dfltPath).pbw = mB ∧
            (((sys.node NET n).paths.getD GPU []).getD g0
              dfltPath).plist.length = mH
        · rw [if_pos hc1] at h
          by_cases hc2 : bd = (if gpuPciBw sys st g0 > 0 then 0 else 1)
          · rw [if_pos hc2] at h
            cases h1 : ncclTopoSearchTryGpu fuel sys st graph save 0 bTN bTFR
                0 time ((NET : ℕ) : ℤ) n g0 with
            | none => rw [h1] at h; simp at h
            | some p1 =>
              obtain ⟨st1, g1, save1, time1⟩ := p1
              rw [h1] at h
              simp only at h
              exact (ihTry _ _ _ _ _ _ _ _ _ _ _ _ _ _ _ _ h1).chain
                (ihBidir _ _ _ _ _ _ _ _ _ _ _ _ _ _ _ h)
          · rw [if_neg hc2] at h
            exact ihBidir _ _ _ _ _ _ _ _ _ _ _ _ _ _ _ h
        · rw [if_neg hc1] at h
          exact ihBidir _ _ _ _ _ _ _ _ _ _ _ _ _ _ _ h
    have hSearch : ∀ sys st graph save time st' g' save' t',
        ncclTopoSearchRec (fuel + 1) sys st graph save time
            = some (st', g', save', t') →
        ShapeOK graph save g' save' := by
      intro sys st graph save time st' g' save' t' h
      simp only [ncclTopoSearchRec] at h
      by_cases hnet : sys.count NET ≠ 0 ∧ sys.count GPU ≠ sys.nRanks
      · rw [if_pos hnet] at h
        exact ihRecNet _ _ _ _ _ _ _ _ _ _ _ h
      · rw [if_neg hnet] at h
        have stage1 : ∀ st1 g1 save1 time1,
            (if graph.nChannels = 0 then
              ncclTopoSearchTryGpu fuel sys st graph save 0
                (ncclTopoSearchParams sys graph.pattern).1
                (ncclTopoSearchParams sys graph.pattern).2 FORCED_ORDER_PCI
                time (-1) 0 0
              else
              match ncclTopoReplayGetGpu sys graph (-1) with
              | none => none
              | some g =>
                ncclTopoSearchTryGpu fuel sys st graph save 0
                  (ncclTopoSearchParams sys graph.pattern).1
                  (ncclTopoSearchParams sys graph.pattern).2
                  FORCED_ORDER_REPLAY time (-1) 0 g)
              = some (st1, g1, save1, time1) →
            ShapeOK graph save g1 save1 := by
          intro st1 g1 save1 time1 h1
          by_cases hn : graph.nChannels = 0
          · rw [if_pos hn] at h1
            exact ihTry _ _ _ _ _ _ _ _ _ _ _ _ _ _ _ _ h1
          · rw [if_neg hn] at h1
            cases h2 : ncclTopoReplayGetGpu sys graph (-1) with
            | none => rw [h2] at h1; simp at h1
            | some g0 =>
              rw [h2] at h1
              simp only at h1
              exact ihTry _ _ _ _ _ _ _ _ _ _ _ _ _ _ _ _ h1
        cases hs1 : (if graph.nChannels = 0 then
            ncclTopoSearchTryGpu fuel sys st graph save 0
              (ncclTopoSearchParams sys graph.pattern).1
              (ncclTopoSearchParams sys graph.pattern).2 FORCED_ORDER_PCI
              time (-1) 0 0
            else
            match ncclTopoReplayGetGpu sys graph (-1) with
            | none => none
            | some g =>
              ncclTopoSearchTryGpu fuel sys st graph save 0
                (ncclTopoSearchParams sys graph.pattern).1
                (ncclTopoSearchParams sys graph.pattern).2
                FORCED_ORDER_REPLAY time (-1) 0 g) with
        | none => rw [hs1] at h; simp at h
        | some p1 =>
          obtain ⟨st1, g1, save1, time1⟩ := p1
          rw [hs1] at h
          simp only at h
          have c1 := stage1 _ _ _ _ hs1
          by_cases hcond : g1.sameChannels = 0 ∨ g1.nChannels = 0
          · rw [if_pos hcond] at h
            exact c1.chain (ihIntra _ _ _ _ _ _ _ _ _ _ _ _ h)
          · rw [if_neg hcond] at h
            simp only [Option.some.injEq, Prod.mk.injEq] at h
            obtain ⟨-, hg, hs, -⟩ := h
            exact hg ▸ hs ▸ c1
    have hIntra : ∀ sys st graph save bTN bTFR time gs st' g' save' t',
        searchRecIntraLoop (fuel + 1) sys st graph save bTN bTFR time gs
            = some (st', g', save', t') →
        ShapeOK graph save g' save' := by
      intro sys st graph save bTN bTFR time gs st' g' save' t' h
      simp only [searchRecIntraLoop] at h
      cases gs with
      | nil =>
        simp only [Option.some.injEq, Prod.mk.injEq] at h
        obtain ⟨-, hg, hs, -⟩ := h
        exact hg ▸ hs ▸ ShapeOK.base graph save
      | cons g0 rest =>
        simp only at h
        cases h1 : ncclTopoSearchTryGpu fuel sys st graph save 0 bTN bTFR 0
            time (-1) 0 g0 with
        | none => rw [h1] at h; simp at h
        | some p1 =>
          obtain ⟨st1, g1, save1, time1⟩ := p1
          rw [h1] at h
          simp only at h
          exact (ihTry _ _ _ _ _ _ _ _ _ _ _ _ _ _ _ _ h1).chain
            (ihIntra _ _ _ _ _ _ _ _ _ _ _ _ h)
    exact ⟨hTry, hRecGpu, hBody, hNetLoop, hNextLoop, hRecNet, hRNLoop,
      hRNBody, hBidir, hSearch, hIntra⟩

/-! ## State restoration through the search (claim C1) -/

/-- The grid conditions on a candidate graph under which every ledger charge
the search derives from it is positive and on the 1/1000 grid (`bwIntra`
for GPU-GPU edges, `bwInter` for NIC edges, and the halved `bwInter` the
balanced-tree pattern charges on the first two GPUs). -/
def GOK (sys : Sys) (g : Graph) : Prop :=
  chargeOKq sys g.bwIntra ∧ chargeOKq sys g.bwInter ∧
    (g.pattern = PATTERN_BALANCED_TREE → chargeOKq sys (g.bwInter / 2))

instance (sys : Sys) (g : Graph) : Decidable (GOK sys g) := by
  unfold GOK; infer_instance

theorem GOK.transfer {sys : Sys} {g2 g1 : Graph} (m : MutOf g2 g1)
    (h : GOK sys g1) : GOK sys g2 := by
  obtain ⟨a, b, c, d, rfl⟩ := m
  exact h

theorem StInv_setUsed {st : St} (h : StInv st) (g m : ℕ) :
    StInv (st.setUsed g m) := h

theorem StInv_netReserve (sys : Sys) {st : St} (h : StInv st) (n : ℕ)
    (bw : ℤ) : StInv (netReserve sys st n bw) := by
  intro ref
  rw [show (netReserve sys st n bw).linkBw = st.linkBw from
    (netReserve_others sys st n bw).1]
  exact h ref

/-- Toggling the same `used` bit twice restores the state exactly. -/
theorem setUsed_xor_cancel (st : St) (g f' : ℕ) :
    (st.setUsed g (st.used g ^^^ f')).setUsed g
      ((st.setUsed g (st.used g ^^^ f')).used g ^^^ f') = st := by
  ext x
  · rfl
  · show (if x = g then _ else _) = st.used x
    by_cases hx : x = g
    · subst hx
      rw [if_pos rfl]
      show (if x = x then st.used x ^^^ f' else st.used x) ^^^ f' = st.used x
      rw [if_pos rfl]
      exact Nat.xor_cancel_right _ _
    · rw [if_neg hx]
      show (if x = g then _ else st.used x) = st.used x
      rw [if_neg hx]
  · rfl
  · rfl

theorem bwInter_reset_self (g : Graph) : ({ g with bwInter := g.bwInter } : Graph) = g := rfl

theorem bwInter_reset_over (g : Graph) (x : ℚ) :
    ({ ({ g with bwInter := x } : Graph) with bwInter := g.bwInter } : Graph)
      = g := rfl

/-- Joint state-restoration invariant of the whole search recursion: under
the no-self-link topology, a nonnegative on-grid ledger and grid conditions
on the candidate's bandwidths, every returning call hands back the exact
state it was given — every reservation on every exit path is paired with an
exact release. -/
theorem search_restores (fuel : ℕ) :
    (∀ sys st graph save step bTN bTFR fO time t1 i1 g st' g' save' t',
      noSelfLink sys → StInv st → GOK sys graph →
      ncclTopoSearchTryGpu fuel sys st graph save step bTN bTFR fO time t1 i1
          g = some (st', g', save', t') →
      st' = st) ∧
    (∀ sys st graph save gpu step bTN bTFR fO time st' g' save' t',
      noSelfLink sys → StInv st → GOK sys graph →
      ncclTopoSearchRecGpu fuel sys st graph save gpu step bTN bTFR fO time
          = some (st', g', save', t') →
      st' = st) ∧
    (∀ sys st graph save gpu step bTN bTFR fO time st' g' save' t',
      noSelfLink sys → StInv st → GOK sys graph →
      searchRecGpuBody fuel sys st graph save gpu step bTN bTFR fO time
          = some (st', g', save', t') →
      st' = st) ∧
    (∀ sys st graph save gpu step bTN bTFR fO time sNI nets st' g' save' t',
      noSelfLink sys → StInv st → GOK sys graph →
      recGpuNetLoop fuel sys st graph save gpu step bTN bTFR fO time sNI nets
          = some (st', g', save', t') →
      st' = st) ∧
    (∀ sys st graph save gpu step bTN bTFR fO time next st' g' save' t',
      noSelfLink sys → StInv st → GOK sys graph →
      recGpuNextLoop fuel sys st graph save gpu step bTN bTFR fO time next
          = some (st', g', save', t') →
      st' = st) ∧
    (∀ sys st graph save bTN bTFR time st' g' save' t',
      noSelfLink sys → StInv st → GOK sys graph →
      ncclTopoSearchRecNet fuel sys st graph save bTN bTFR time
          = some (st', g', save', t') →
      st' = st) ∧
    (∀ sys st graph save bTN bTFR time bw nets st' g' save' t',
      noSelfLink sys → StInv st → GOK sys graph →
      recNetLoop fuel sys st graph save bTN bTFR time bw nets
          = some (st', g', save', t') →
      st' = st) ∧
    (∀ sys st graph save bTN bTFR time bw n st' g' save' t',
      noSelfLink sys → StInv st → GOK sys graph →
      recNetBody fuel sys st graph save bTN bTFR time bw n
          = some (st', g', save', t') →
      st' = st) ∧
    (∀ sys st graph save bTN bTFR time n mB mH prs st' g' save' t',
      noSelfLink sys → StInv st → GOK sys graph →
      recNetBidirLoop fuel sys st graph save bTN bTFR time n mB mH prs
          = some (st', g', save', t') →
      st' = st) ∧
    (∀ sys st graph save time st' g' save' t',
      noSelfLink sys → StInv st → GOK sys graph →
      ncclTopoSearchRec fuel sys st graph save time
          = some (st', g', save', t') →
      st' = st) ∧
    (∀ sys st graph save bTN bTFR time gs st' g' save' t',
      noSelfLink sys → StInv st → GOK sys graph →
      searchRecIntraLoop fuel sys st graph save bTN bTFR time gs
          = some (st', g', save', t') →
      st' = st) := by
  induction fuel with
  | zero =>
    refine ⟨?_, ?_, ?_, ?_, ?_, ?_, ?_, ?_, ?_, ?_, ?_⟩ <;>
      · intros
        rename_i h
        simp only [ncclTopoSearchTryGpu, ncclTopoSearchRecGpu,
          searchRecGpuBody, recGpuNetLoop, recGpuNextLoop,
          ncclTopoSearchRecNet, recNetLoop, recNetBody, recNetBidirLoop,
          ncclTopoSearchRec, searchRecIntraLoop] at h
        exact Option.noConfusion h
  | succ fuel ih =>
    obtain ⟨ihTryR, ihRecGpuR, ihBodyR, ihNetLoopR, ihNextLoopR, ihRecNetR,
      ihRNLoopR, ihRNBodyR, ihBidirR, ihSearchR, ihIntraR⟩ := ih
    obtain ⟨sTry, sRecGpu, sBody, sNetLoop, sNextLoop, sRecNet, sRNLoop,
      sRNBody, sBidir, sSearch, sIntra⟩ := search_shape fuel
    have hTryR : ∀ sys st graph save step bTN bTFR fO time t1 i1 g st' g'
        save' t',
        noSelfLink sys → StInv st → GOK sys graph →
        ncclTopoSearchTryGpu (fuel + 1) sys st graph save step bTN bTFR fO
            time t1 i1 g = some (st', g', save', t') →
        st' = st := by
      intro sys st graph save step bTN bTFR fO time t1 i1 g st' g' save' t'
        hSelf hinv hok h
      simp only [ncclTopoSearchTryGpu] at h
      cases h1 : ncclTopoFollowPath sys st graph t1 i1 GPU g 1 with
      | none => rw [h1] at h; simp at h
      | some p1 =>
        obtain ⟨st1, g1, nd⟩ := p1
        rw [h1] at h
        simp only at h
        cases nd with
        | none =>
          simp only [Option.some.injEq, Prod.mk.injEq] at h
          obtain ⟨hst, -, -, -⟩ := h
          obtain ⟨he, -⟩ :=
            ncclTopoFollowPath_plus_none hSelf hinv hok.1 hok.2.1 h1
          exact hst ▸ he
        | some nd0 =>
          simp only at h
          obtain ⟨-, hinv1, cnt, hg1, hrel⟩ :=
            ncclTopoFollowPath_pair hSelf hinv hok.1 hok.2.1 h1
          cases h2 : ncclTopoSearchRecGpu fuel sys
              (st1.setUsed g ((st1.used g) ^^^ 2 ^ graph.nChannels)) g1 save g
              step bTN bTFR fO time with
          | none => rw [h2] at h; simp at h
          | some p2 =>
            obtain ⟨st3, g3, save3, time3⟩ := p2
            rw [h2] at h
            simp only at h
            have hok1 : GOK sys g1 := GOK.transfer (tfp_shape h1) hok
            have hst3 : st3
                = st1.setUsed g ((st1.used g) ^^^ 2 ^ graph.nChannels) :=
              ihRecGpuR _ _ _ _ _ _ _ _ _ _ _ _ _ _ hSelf
                (StInv_setUsed hinv1 _ _) hok1 h2
            have hst4 : st3.setUsed g ((st3.used g) ^^^ 2 ^ graph.nChannels)
                = st1 := by
              rw [hst3]; exact setUsed_xor_cancel st1 g _
            cases h3 : ncclTopoFollowPath sys
                (st3.setUsed g ((st3.used g) ^^^ 2 ^ graph.nChannels)) g3 t1
                i1 GPU g (-1) with
            | none => rw [h3] at h; simp at h
            | some p3 =>
              obtain ⟨st5, g5, nd5⟩ := p3
              rw [h3] at h
              simp only [Option.some.injEq, Prod.mk.injEq] at h
              obtain ⟨hst', -, -, -⟩ := h
              have hm := (sRecGpu _ _ _ _ _ _ _ _ _ _ _ _ _ _ h2).1
              have hbwI : g3.bwIntra = graph.bwIntra := by
                rw [hm.fields.2.2.2.2.1, hg1]
              have hbwN : g3.bwInter = graph.bwInter := by
                rw [hm.fields.2.2.2.2.2.1, hg1]
              have hv := hrel g3 hbwI hbwN
              rw [hst4, hv] at h3
              simp only [Option.some.injEq, Prod.mk.injEq] at h3
              obtain ⟨hst5, -, -⟩ := h3
              exact hst' ▸ hst5.symm
    have hRecGpuR : ∀ sys st graph save gpu step bTN bTFR fO time st' g'
        save' t',
        noSelfLink sys → StInv st → GOK sys graph →
        ncclTopoSearchRecGpu (fuel + 1) sys st graph save gpu step bTN bTFR
            fO time = some (st', g', save', t') →
        st' = st := by
      intro sys st graph save gpu step bTN bTFR fO time st' g' save' t' hSelf
        hinv hok h
      simp only [ncclTopoSearchRecGpu] at h
      by_cases ht : time ≤ 0
      · rw [if_pos ht] at h
        simp only [Option.some.injEq, Prod.mk.injEq] at h
        exact h.1.symm
      · rw [if_neg ht] at h
        exact ihBodyR _ _ _ _ _ _ _ _ _ _ _ _ _ _ hSelf hinv hok h
    have hNextLoopR : ∀ sys st graph save gpu step bTN bTFR fO time next st'
        g' save' t',
        noSelfLink sys → StInv st → GOK sys graph →
        recGpuNextLoop (fuel + 1) sys st graph save gpu step bTN bTFR fO time
            next = some (st', g', save', t') →
        st' = st := by
      intro sys st graph save gpu step bTN bTFR fO time next st' g' save' t'
        hSelf hinv hok h
      simp only [recGpuNextLoop] at h
      cases next with
      | nil =>
        simp only [Option.some.injEq, Prod.mk.injEq] at h
        exact h.1.symm
      | cons g0 rest =>
        simp only at h
        cases h1 : ncclTopoSearchTryGpu fuel sys st graph save (step + 1) bTN
            bTFR fO time ((GPU : ℕ) : ℤ) gpu g0 with
        | none => rw [h1] at h; simp at h
        | some p1 =>
          obtain ⟨st1, g1, save1, time1⟩ := p1
          rw [h1] at h
          simp only at h
          have hst1 : st1 = st :=
            ihTryR _ _ _ _ _ _ _ _ _ _ _ _ _ _ _ _ hSelf hinv hok h1
          have hok1 : GOK sys g1 :=
            GOK.transfer (sTry _ _ _ _ _ _ _ _ _ _ _ _ _ _ _ _ h1).1 hok
          have := ihNextLoopR _ _ _ _ _ _ _ _ _ _ _ _ _ _ _ hSelf
            (hst1 ▸ hinv) hok1 h
          rw [this, hst1]
    have hNetLoopR : ∀ sys st graph save gpu step bTN bTFR fO time sNI nets
        st' g' save' t',
        noSelfLink sys → StInv st → GOK sys graph →
        recGpuNetLoop (fuel + 1) sys st graph save gpu step bTN bTFR fO time
            sNI nets = some (st', g', save', t') →
        st' = st := by
      intro sys st graph save gpu step bTN bTFR fO time sNI nets st' g' save'
        t' hSelf hinv hok h
      simp only [recGpuNetLoop] at h
      cases nets with
      | nil =>
        simp only [Option.some.injEq, Prod.mk.injEq] at h
        exact h.1.symm
      | cons n rest =>
        simp only at h
        by_cases hc1 : graph.pattern = PATTERN_TREE ∧
            (sys.node NET n).id ≠ (sys.node NET sNI).id
        · rw [if_pos hc1] at h
          exact ihNetLoopR _ _ _ _ _ _ _ _ _ _ _ _ _ _ _ _ hSelf hinv hok h
        · rw [if_neg hc1] at h
          by_cases hc2 : graph.crossNic ≠ 1 ∧
              ((sys.node NET n).net.asic ≠ (sys.node NET sNI).net.asic ∨
                (sys.node NET n).net.port ≠ (sys.node NET sNI).net.port)
          · rw [if_pos hc2] at h
            exact ihNetLoopR _ _ _ _ _ _ _ _ _ _ _ _ _ _ _ _ hSelf hinv hok h
          · rw [if_neg hc2] at h
            by_cases hc3 : graph.pattern = PATTERN_BALANCED_TREE ∧ step ≠ 0 ∧
                (sys.node NET n).id ≠ graph.inter (graph.nChannels * 2 + 1)
            · rw [if_pos hc3] at h
              exact ihNetLoopR _ _ _ _ _ _ _ _ _ _ _ _ _ _ _ _ hSelf hinv hok
                h
            · rw [if_neg hc3] at h
              by_cases hb : graph.pattern = PATTERN_BALANCED_TREE
              · rw [if_pos hb] at h
                cases h1 : ncclTopoFollowPath sys st
                    { graph with bwInter := graph.bwInter / 2 }
                    ((GPU : ℕ) : ℤ) gpu NET n 1 with
                | none => rw [h1] at h; simp at h
                | some p1 =>
                  obtain ⟨st1, g2, nd⟩ := p1
                  rw [h1] at h
                  simp only at h
                  cases nd with
                  | none =>
                    simp only at h
                    obtain ⟨he1, he2⟩ := ncclTopoFollowPath_plus_none hSelf
                      hinv
                      (show chargeOKq sys ({ graph with
                        bwInter := graph.bwInter / 2 } : Graph).bwIntra from
                        hok.1)
                      (show chargeOKq sys ({ graph with
                        bwInter := graph.bwInter / 2 } : Graph).bwInter from
                        hok.2.2 hb) h1
                    rw [he2, bwInter_reset_over] at h
                    have := ihNetLoopR _ _ _ _ _ _ _ _ _ _ _ _ _ _ _ _ hSelf
                      (he1 ▸ hinv) hok h
                    rw [this, he1]
                  | some nd0 =>
                    simp only at h
                    obtain ⟨-, hinv1, cnt, hg1, hrel⟩ :=
                      ncclTopoFollowPath_pair hSelf hinv
                        (show chargeOKq sys ({ graph with
                          bwInter := graph.bwInter / 2 } : Graph).bwIntra from
                          hok.1)
                        (show chargeOKq sys ({ graph with
                          bwInter := graph.bwInter / 2 } : Graph).bwInter from
                          hok.2.2 hb) h1
                    have hg2m : MutOf { g2 with bwInter := graph.bwInter }
                        graph := MutOf.bwInterReset (tfp_shape h1)
                    cases h2 : ncclTopoSearchRecGpu fuel sys st1
                        (({ g2 with bwInter := graph.bwInter }).setInter
                          (g2.nChannels * 2 + 1) (sys.node NET n).id)
                        save gpu step
                        (if graph.pattern = PATTERN_BALANCED_TREE ∧ step = 0
                          then 1 else -1)
                        bTFR fO time with
                    | none => rw [h2] at h; simp at h
                    | some p2 =>
                      obtain ⟨st2, g5, save2, time2⟩ := p2
                      rw [h2] at h
                      simp only at h
                      have cArg : MutOf
                          (({ g2 with bwInter := graph.bwInter }).setInter
                            (g2.nChannels * 2 + 1) (sys.node NET n).id)
                          graph := hg2m.setInter _ _
                      have hst2 : st2 = st1 :=
                        ihRecGpuR _ _ _ _ _ _ _ _ _ _ _ _ _ _ hSelf hinv1
                          (GOK.transfer cArg hok) h2
                      have hm5 : MutOf g5 graph :=
                        ((sRecGpu _ _ _ _ _ _ _ _ _ _ _ _ _ _ h2).1).trans
                          cArg
                      have hp5 : g5.pattern = graph.pattern := hm5.fields.2.1
                      rw [if_pos (hp5.trans hb)] at h
                      cases h3 : ncclTopoFollowPath sys st2
                          { g5 with bwInter := g5.bwInter / 2 }
                          ((GPU : ℕ) : ℤ) gpu NET n (-1) with
                      | none => rw [h3] at h; simp at h
                      | some p3 =>
                        obtain ⟨st3, g7, nd3⟩ := p3
                        rw [h3] at h
                        simp only at h
                        have hsh3 := tfp_shape h3
                        have hbi : ({ g5 with bwInter := g5.bwInter / 2 }
                            : Graph).bwIntra
                            = ({ graph with
                                bwInter := graph.bwInter / 2 } : Graph).bwIntra := by
                          show g5.bwIntra = graph.bwIntra
                          exact hm5.fields.2.2.2.2.1
                        have hbn : ({ g5 with bwInter := g5.bwInter / 2 }
                            : Graph).bwInter
                            = ({ graph with
                                bwInter := graph.bwInter / 2 } : Graph).bwInter := by
                          show g5.bwInter / 2 = graph.bwInter / 2
                          rw [hm5.fields.2.2.2.2.2.1]
                        have hv := hrel _ hbi hbn
                        rw [hst2, hv] at h3
                        simp only [Option.some.injEq, Prod.mk.injEq] at h3
                        obtain ⟨hst3, -, -⟩ := h3
                        have hg7m : MutOf
                            { g7 with bwInter := graph.bwInter } graph := by
                          have h5half : MutOf
                              { g5 with bwInter := g5.bwInter / 2 }
                              { graph with bwInter := graph.bwInter / 2 } := by
                            rw [hm5.fields.2.2.2.2.2.1]
                            exact hm5.bwInterCongr _
                          exact MutOf.bwInterReset (hsh3.trans h5half)
                        have := ihNetLoopR _ _ _ _ _ _ _ _ _ _ _ _ _ _ _ _
                          hSelf (hst3.symm ▸ hinv) (GOK.transfer hg7m hok) h
                        rw [this, ← hst3]
              · rw [if_neg hb] at h
                cases h1 : ncclTopoFollowPath sys st graph
                    ((GPU : ℕ) : ℤ) gpu NET n 1 with
                | none => rw [h1] at h; simp at h
                | some p1 =>
                  obtain ⟨st1, g2, nd⟩ := p1
                  rw [h1] at h
                  simp only at h
                  cases nd with
                  | none =>
                    simp only at h
                    obtain ⟨he1, he2⟩ := ncclTopoFollowPath_plus_none hSelf
                      hinv hok.1 hok.2.1 h1
                    rw [he2, bwInter_reset_self] at h
                    have := ihNetLoopR _ _ _ _ _ _ _ _ _ _ _ _ _ _ _ _ hSelf
                      (he1 ▸ hinv) hok h
                    rw [this, he1]
                  | some nd0 =>
                    simp only at h
                    obtain ⟨-, hinv1, cnt, hg1, hrel⟩ :=
                      ncclTopoFollowPath_pair hSelf hinv hok.1 hok.2.1 h1
                    have hg2m : MutOf { g2 with bwInter := graph.bwInter }
                        graph := MutOf.bwInterSelf (tfp_shape h1)
                    cases h2 : ncclTopoSearchRecGpu fuel sys st1
                        (({ g2 with bwInter := graph.bwInter }).setInter
                          (g2.nChannels * 2 + 1) (sys.node NET n).id)
                        save gpu step
                        (if graph.pattern = PATTERN_BALANCED_TREE ∧ step = 0
                          then 1 else -1)
                        bTFR fO time with
                    | none => rw [h2] at h; simp at h
                    | some p2 =>
                      obtain ⟨st2, g5, save2, time2⟩ := p2
                      rw [h2] at h
                      simp only at h
                      have cArg : MutOf
                          (({ g2 with bwInter := graph.bwInter }).setInter
                            (g2.nChannels * 2 + 1) (sys.node NET n).id)
                          graph := hg2m.setInter _ _
                      have hst2 : st2 = st1 :=
                        ihRecGpuR _ _ _ _ _ _ _ _ _ _ _ _ _ _ hSelf hinv1
                          (GOK.transfer cArg hok) h2
                      have hm5 : MutOf g5 graph :=
                        ((sRecGpu _ _ _ _ _ _ _ _ _ _ _ _ _ _ h2).1).trans
                          cArg
                      have hp5 : g5.pattern = graph.pattern := hm5.fields.2.1
                      rw [if_neg (fun hc => hb (hp5 ▸ hc))] at h
                      cases h3 : ncclTopoFollowPath sys st2 g5
                          ((GPU : ℕ) : ℤ) gpu NET n (-1) with
                      | none => rw [h3] at h; simp at h
                      | some p3 =>
                        obtain ⟨st3, g7, nd3⟩ := p3
                        rw [h3] at h
                        simp only at h
                        have hsh3 := tfp_shape h3
                        have hv := hrel g5 hm5.fields.2.2.2.2.1
                          hm5.fields.2.2.2.2.2.1
                        rw [hst2, hv] at h3
                        simp only [Option.some.injEq, Prod.mk.injEq] at h3
                        obtain ⟨hst3, -, -⟩ := h3
                        have hg7m : MutOf
                            { g7 with bwInter := graph.bwInter } graph :=
                          MutOf.bwInterSelf (hsh3.trans hm5)
                        have := ihNetLoopR _ _ _ _ _ _ _ _ _ _ _ _ _ _ _ _
                          hSelf (hst3.symm ▸ hinv) (GOK.transfer hg7m hok) h
                        rw [this, ← hst3]
    have hBodyR : ∀ sys st graph save gpu step bTN bTFR fO time st' g' save'
        t',
        noSelfLink sys → StInv st → GOK sys graph →
        searchRecGpuBody (fuel + 1) sys st graph save gpu step bTN bTFR fO
            time = some (st', g', save', t') →
        st' = st := by
      intro sys st graph save gpu step bTN bTFR fO time st' g' save' t' hSelf
        hinv hok h
      simp only [searchRecGpuBody] at h
      by_cases hstep : step = sys.count GPU
      · rw [if_pos hstep] at h
        by_cases hlt : graph.nChannels + 1 < graph.maxChannels
        · rw [if_pos hlt] at h
          cases h1 : ncclTopoSearchRec fuel sys st
              { graph with nChannels := graph.nChannels + 1 }
              (if ncclTopoCompareGraphs sys
                  { graph with nChannels := graph.nChannels + 1 } save
                then { graph with nChannels := graph.nChannels + 1 }
                else save)
              (if (ncclTopoCompareGraphs sys
                  { graph with nChannels := graph.nChannels + 1 } save
                    = true) ∧
                  graph.nChannels + 1 = graph.maxChannels then -1
                else time) with
          | none => rw [h1] at h; simp at h
          | some p1 =>
            obtain ⟨st2, g2, save2, time2⟩ := p1
            rw [h1] at h
            simp only [Option.some.injEq, Prod.mk.injEq] at h
            obtain ⟨hst, -, -, -⟩ := h
            exact hst ▸ (ihSearchR _ _ _ _ _ _ _ _ _ hSelf hinv
              (show GOK sys ({ graph with
                nChannels := graph.nChannels + 1 } : Graph) from hok) h1)
        · rw [if_neg hlt] at h
          simp only [Option.some.injEq, Prod.mk.injEq] at h
          exact h.1.symm
      · rw [if_neg hstep] at h
        by_cases hbn : (step : ℤ) = bTN
        · rw [if_pos hbn] at h
          by_cases hnet : sys.count NET ≠ 0
          · rw [if_pos hnet] at h
            cases h1 : getNetIndex sys ((graph.setIntra
                (graph.nChannels * sys.count GPU + step)
                ((sys.node GPU gpu).gpu.rank.headI)).inter
                  ((graph.setIntra (graph.nChannels * sys.count GPU + step)
                    ((sys.node GPU gpu).gpu.rank.headI)).nChannels * 2)) with
            | none => rw [h1] at h; simp at h
            | some sNI =>
              rw [h1] at h
              simp only at h
              exact ihNetLoopR _ _ _ _ _ _ _ _ _ _ _ _ _ _ _ _ hSelf hinv
                (show GOK sys (graph.setIntra
                  (graph.nChannels * sys.count GPU + step)
                  ((sys.node GPU gpu).gpu.rank.headI)) from hok) h
          · rw [if_neg hnet] at h
            simp only [Option.some.injEq, Prod.mk.injEq] at h
            exact h.1.symm
        · rw [if_neg hbn] at h
          by_cases hmid : step < sys.count GPU - 1
          · rw [if_pos hmid] at h
            by_cases hpci : fO = FORCED_ORDER_PCI
            · rw [if_pos hpci] at h
              exact ihNextLoopR _ _ _ _ _ _ _ _ _ _ _ _ _ _ _ hSelf hinv
                (show GOK sys (graph.setIntra
                  (graph.nChannels * sys.count GPU + step)
                  ((sys.node GPU gpu).gpu.rank.headI)) from hok) h
            · rw [if_neg hpci] at h
              by_cases hrep : fO = FORCED_ORDER_REPLAY
              · rw [if_pos hrep] at h
                cases h1 : ncclTopoReplayGetGpu sys (graph.setIntra
                    (graph.nChannels * sys.count GPU + step)
                    ((sys.node GPU gpu).gpu.rank.headI)) step with
                | none => rw [h1] at h; simp at h
                | some g0 =>
                  rw [h1] at h
                  simp only at h
                  exact ihNextLoopR _ _ _ _ _ _ _ _ _ _ _ _ _ _ _ hSelf hinv
                    (show GOK sys (graph.setIntra
                  (graph.nChannels * sys.count GPU + step)
                  ((sys.node GPU gpu).gpu.rank.headI)) from hok) h
              · rw [if_neg hrep] at h
                cases h1 : ncclTopoSearchNextGpuSort sys st (graph.setIntra
                    (graph.nChannels * sys.count GPU + step)
                    ((sys.node GPU gpu).gpu.rank.headI)) gpu
                    (if bTN = -1 then 0
                      else if bTN = (step : ℤ) + 1 then 1 else -1) with
                | none => rw [h1] at h; simp at h
                | some next =>
                  rw [h1] at h
                  simp only at h
                  exact ihNextLoopR _ _ _ _ _ _ _ _ _ _ _ _ _ _ _ hSelf hinv
                    (show GOK sys (graph.setIntra
                  (graph.nChannels * sys.count GPU + step)
                  ((sys.node GPU gpu).gpu.rank.headI)) from hok) h
          · rw [if_neg hmid] at h
            by_cases hbfr : (step : ℤ) = bTFR
            · rw [if_pos hbfr] at h
              cases h1 : getGpuIndex sys ((graph.setIntra
                  (graph.nChannels * sys.count GPU + step)
                  ((sys.node GPU gpu).gpu.rank.headI)).intra
                    ((graph.setIntra (graph.nChannels * sys.count GPU + step)
                      ((sys.node GPU gpu).gpu.rank.headI)).nChannels *
                      sys.count GPU)) with
              | none => rw [h1] at h; simp at h
              | some p =>
                rw [h1] at h
                simp only at h
                cases h2 : ncclTopoFollowPath sys st (graph.setIntra
                    (graph.nChannels * sys.count GPU + step)
                    ((sys.node GPU gpu).gpu.rank.headI)) ((GPU : ℕ) : ℤ) gpu
                    GPU p 1 with
                | none => rw [h2] at h; simp at h
                | some p2 =>
                  obtain ⟨st1, g2, nd⟩ := p2
                  rw [h2] at h
                  simp only at h
                  cases nd with
                  | none =>
                    simp only [Option.some.injEq, Prod.mk.injEq] at h
                    obtain ⟨hst, -, -, -⟩ := h
                    obtain ⟨he, -⟩ := ncclTopoFollowPath_plus_none hSelf hinv
                      (show chargeOKq sys (graph.setIntra
                        (graph.nChannels * sys.count GPU + step)
                        ((sys.node GPU gpu).gpu.rank.headI)).bwIntra from
                        hok.1)
                      (show chargeOKq sys (graph.setIntra
                        (graph.nChannels * sys.count GPU + step)
                        ((sys.node GPU gpu).gpu.rank.headI)).bwInter from
                        hok.2.1) h2
                    exact hst ▸ he
                  | some nd0 =>
                    simp only at h
                    obtain ⟨-, hinv1, cnt, hg1, hrel⟩ :=
                      ncclTopoFollowPath_pair hSelf hinv
                        (show chargeOKq sys (graph.setIntra
                          (graph.nChannels * sys.count GPU + step)
                          ((sys.node GPU gpu).gpu.rank.headI)).bwIntra from
                          hok.1)
                        (show chargeOKq sys (graph.setIntra
                          (graph.nChannels * sys.count GPU + step)
                          ((sys.node GPU gpu).gpu.rank.headI)).bwInter from
                          hok.2.1) h2
                    cases h3 : ncclTopoSearchRecGpu fuel sys st1 g2 save p
                        (step + 1) bTN (-1) fO time with
                    | none => rw [h3] at h; simp at h
                    | some p3 =>
                      obtain ⟨st2, g3, save2, time2⟩ := p3
                      rw [h3] at h
                      simp only at h
                      have hokArg : GOK sys (graph.setIntra
                          (graph.nChannels * sys.count GPU + step)
                          ((sys.node GPU gpu).gpu.rank.headI)) := hok
                      have hok2 : GOK sys g2 :=
                        GOK.transfer (tfp_shape h2) hokArg
                      have hst2 : st2 = st1 :=
                        ihRecGpuR _ _ _ _ _ _ _ _ _ _ _ _ _ _ hSelf hinv1
                          hok2 h3
                      cases h4 : ncclTopoFollowPath sys st2 g3
                          ((GPU : ℕ) : ℤ) gpu GPU p (-1) with
                      | none => rw [h4] at h; simp at h
                      | some p4 =>
                        obtain ⟨st3, g4, nd4⟩ := p4
                        rw [h4] at h
                        simp only [Option.some.injEq, Prod.mk.injEq] at h
                        obtain ⟨hst', -, -, -⟩ := h
                        have hm := (sRecGpu _ _ _ _ _ _ _ _ _ _ _ _ _ _ h3).1
                        have hbwI : g3.bwIntra = (graph.setIntra
                            (graph.nChannels * sys.count GPU + step)
                            ((sys.node GPU gpu).gpu.rank.headI)).bwIntra := by
                          rw [hm.fields.2.2.2.2.1, hg1]
                        have hbwN : g3.bwInter = (graph.setIntra
                            (graph.nChannels * sys.count GPU + step)
                            ((sys.node GPU gpu).gpu.rank.headI)).bwInter := by
                          rw [hm.fields.2.2.2.2.2.1, hg1]
                        have hv := hrel g3 hbwI hbwN
                        rw [hst2, hv] at h4
                        simp only [Option.some.injEq, Prod.mk.injEq] at h4
                        obtain ⟨hst3, -, -⟩ := h4
                        exact hst' ▸ hst3.symm
            · rw [if_neg hbfr] at h
              exact ihRecGpuR _ _ _ _ _ _ _ _ _ _ _ _ _ _ hSelf hinv
                (show GOK sys (graph.setIntra
                  (graph.nChannels * sys.count GPU + step)
                  ((sys.node GPU gpu).gpu.rank.headI)) from hok) h
    have hRecNetR : ∀ sys st graph save bTN bTFR time st' g' save' t',
        noSelfLink sys → StInv st → GOK sys graph →
        ncclTopoSearchRecNet (fuel + 1) sys st graph save bTN bTFR time
            = some (st', g', save', t') →
        st' = st := by
      intro sys st graph save bTN bTFR time st' g' save' t' hSelf hinv hok h
      simp only [ncclTopoSearchRecNet] at h
      exact ihRNLoopR _ _ _ _ _ _ _ _ _ _ _ _ _ hSelf hinv hok h
    have hRNLoopR : ∀ sys st graph save bTN bTFR time bw nets st' g' save'
        t',
        noSelfLink sys → StInv st → GOK sys graph →
        recNetLoop (fuel + 1) sys st graph save bTN bTFR time bw nets
            = some (st', g', save', t') →
        st' = st := by
      intro sys st graph save bTN bTFR time bw nets st' g' save' t' hSelf
        hinv hok h
      simp only [recNetLoop] at h
      cases nets with
      | nil =>
        simp only [Option.some.injEq, Prod.mk.injEq] at h
        exact h.1.symm
      | cons n rest =>
        simp only at h
        by_cases hc1 : graph.collNet ≠ 0 ∧ (sys.node NET n).net.collSupport
            = 0
        · rw [if_pos hc1] at h
          exact ihRNLoopR _ _ _ _ _ _ _ _ _ _ _ _ _ hSelf hinv hok h
        · rw [if_neg hc1] at h
          by_cases hc2 : st.netBw n < (bw : ℚ)
          · rw [if_pos hc2] at h
            exact ihRNLoopR _ _ _ _ _ _ _ _ _ _ _ _ _ hSelf hinv hok h
          · rw [if_neg hc2] at h
            by_cases hc3 : st.netMaxCh n = 0
            · rw [if_pos hc3] at h
              exact ihRNLoopR _ _ _ _ _ _ _ _ _ _ _ _ _ hSelf hinv hok h
            · rw [if_neg hc3] at h
              cases h1 : recNetBody fuel sys (netReserve sys st n bw)
                  ({ graph.setInter (graph.nChannels * 2)
                      (sys.node NET n).id with
                    latencyInter := (sys.node NET n).net.latency })
                  save bTN bTFR time bw n with
              | none => rw [h1] at h; simp at h
              | some p1 =>
                obtain ⟨st6, g7, save6, time6⟩ := p1
                rw [h1] at h
                simp only at h
                have hst6 : st6 = netReserve sys st n bw :=
                  ihRNBodyR _ _ _ _ _ _ _ _ _ _ _ _ _ hSelf
                    (StInv_netReserve sys hinv n bw)
                    (show GOK sys ({ graph.setInter (graph.nChannels * 2)
                        (sys.node NET n).id with
                      latencyInter := (sys.node NET n).net.latency }) from
                      hok) h1
                have hrel : netRelease sys st6 n bw = st := by
                  rw [hst6]; exact netRelease_netReserve sys st n bw
                rw [hrel] at h
                have c0 : MutOf ({ graph.setInter (graph.nChannels * 2)
                    (sys.node NET n).id with
                  latencyInter := (sys.node NET n).net.latency }) graph :=
                  ((MutOf.refl graph).setInter _ _).latencyInter _
                have hm7 : MutOf g7 graph :=
                  ((sRNBody _ _ _ _ _ _ _ _ _ _ _ _ _ h1).1).trans c0
                exact ihRNLoopR _ _ _ _ _ _ _ _ _ _ _ _ _ hSelf hinv
                  (GOK.transfer hm7 hok) h
    have hRNBodyR : ∀ sys st graph save bTN bTFR time bw n st' g' save' t',
        noSelfLink sys → StInv st → GOK sys graph →
        recNetBody (fuel + 1) sys st graph save bTN bTFR time bw n
            = some (st', g', save', t') →
        st' = st := by
      intro sys st graph save bTN bTFR time bw n st' g' save' t' hSelf hinv
        hok h
      simp only [recNetBody] at h
      have stage1 : ∀ st2 g3 save2 time2,
          (if graph.nChannels > 0 then
            match ncclTopoReplayGetGpu sys graph (-1) with
            | none => none
            | some g =>
              ncclTopoSearchTryGpu fuel sys st graph save 0 bTN bTFR
                FORCED_ORDER_REPLAY time ((NET : ℕ) : ℤ) n g
            else some (st, graph, save, time))
            = some (st2, g3, save2, time2) →
          st2 = st ∧ MutOf g3 graph := by
        intro st2 g3 save2 time2 h1
        by_cases hn : graph.nChannels > 0
        · rw [if_pos hn] at h1
          cases h2 : ncclTopoReplayGetGpu sys graph (-1) with
          | none => rw [h2] at h1; simp at h1
          | some g0 =>
            rw [h2] at h1
            simp only at h1
            exact ⟨ihTryR _ _ _ _ _ _ _ _ _ _ _ _ _ _ _ _ hSelf hinv hok h1,
              (sTry _ _ _ _ _ _ _ _ _ _ _ _ _ _ _ _ h1).1⟩
        · rw [if_neg hn] at h1
          simp only [Option.some.injEq, Prod.mk.injEq] at h1
          obtain ⟨ha, hb, -, -⟩ := h1
          exact ⟨ha.symm, hb ▸ MutOf.refl graph⟩
      cases hs1 : (if graph.nChannels > 0 then
          match ncclTopoReplayGetGpu sys graph (-1) with
          | none => none
          | some g =>
            ncclTopoSearchTryGpu fuel sys st graph save 0 bTN bTFR
              FORCED_ORDER_REPLAY time ((NET : ℕ) : ℤ) n g
          else some (st, graph, save, time)) with
      | none => rw [hs1] at h; simp at h
      | some p1 =>
        obtain ⟨st2, g3, save2, time2⟩ := p1
        rw [hs1] at h
        simp only at h
        obtain ⟨hst2, hm3⟩ := stage1 _ _ _ _ hs1
        by_cases hcond : g3.nChannels = 0 ∨ g3.sameChannels = 0
        · rw [if_pos hcond] at h
          have stage2 : ∀ st4 g5 save4 time4,
              (if g3.nChannels = 0 then
                match ncclTopoSearchTryGpu fuel sys st2 g3 save2 0 bTN bTFR
                    (if (recNetFirstGpu sys n).1 = 0 then FORCED_ORDER_PCI
                      else 0)
                    1024 ((NET : ℕ) : ℤ) n (recNetFirstGpu sys n).1 with
                | none => none
                | some (st3, g4, save3, t3) =>
                  some (st3, g4, save3, if t3 = -1 then (-1 : ℤ) else time2)
                else some (st2, g3, save2, time2))
                = some (st4, g5, save4, time4) →
              st4 = st2 ∧ MutOf g5 g3 := by
            intro st4 g5 save4 time4 h2
            by_cases hn0 : g3.nChannels = 0
            · rw [if_pos hn0] at h2
              cases h3 : ncclTopoSearchTryGpu fuel sys st2 g3 save2 0 bTN
                  bTFR
                  (if (recNetFirstGpu sys n).1 = 0 then FORCED_ORDER_PCI
                    else 0)
                  1024 ((NET : ℕ) : ℤ) n (recNetFirstGpu sys n).1 with
              | none => rw [h3] at h2; simp at h2
              | some p3 =>
                obtain ⟨st3, g4, save3, t3⟩ := p3
                rw [h3] at h2
                simp only [Option.some.injEq, Prod.mk.injEq] at h2
                obtain ⟨ha, hb, -, -⟩ := h2
                refine ⟨?_, hb ▸ (sTry _ _ _ _ _ _ _ _ _ _ _ _ _ _ _ _ h3).1⟩
                rw [← ha]
                exact ihTryR _ _ _ _ _ _ _ _ _ _ _ _ _ _ _ _ hSelf
                  (hst2 ▸ hinv) (GOK.transfer hm3 hok) h3
            · rw [if_neg hn0] at h2
              simp only [Option.some.injEq, Prod.mk.injEq] at h2
              obtain ⟨ha, hb, -, -⟩ := h2
              exact ⟨ha.symm, hb ▸ MutOf.refl g3⟩
          cases hs2 : (if g3.nChannels = 0 then
              match ncclTopoSearchTryGpu fuel sys st2 g3 save2 0 bTN bTFR
                  (if (recNetFirstGpu sys n).1 = 0 then FORCED_ORDER_PCI
                    else 0)
                  1024 ((NET : ℕ) : ℤ) n (recNetFirstGpu sys n).1 with
              | none => none
              | some (st3, g4, save3, t3) =>
                some (st3, g4, save3, if t3 = -1 then (-1 : ℤ) else time2)
              else some (st2, g3, save2, time2)) with
          | none => rw [hs2] at h; simp at h
          | some p2 =>
            obtain ⟨st4, g5, save4, time4⟩ := p2
            rw [hs2] at h
            simp only at h
            obtain ⟨hst4, hm5⟩ := stage2 _ _ _ _ hs2
            by_cases hbw : (recNetLocalScan sys n).1 ≥ (bw : ℚ)
            · rw [if_pos hbw] at h
              have := ihBidirR _ _ _ _ _ _ _ _ _ _ _ _ _ _ _ hSelf
                (hst4 ▸ hst2 ▸ hinv) (GOK.transfer (hm5.trans hm3) hok) h
              rw [this, hst4, hst2]
            · rw [if_neg hbw] at h
              simp only [Option.some.injEq, Prod.mk.injEq] at h
              obtain ⟨ha, -, -, -⟩ := h
              rw [← ha, hst4, hst2]
        · rw [if_neg hcond] at h
          simp only [Option.some.injEq, Prod.mk.injEq] at h
          obtain ⟨ha, -, -, -⟩ := h
          rw [← ha, hst2]
    have hBidirR : ∀ sys st graph save bTN bTFR time n mB mH prs st' g'
        save' t',
        noSelfLink sys → StInv st → GOK sys graph →
        recNetBidirLoop (fuel + 1) sys st graph save bTN bTFR time n mB mH
            prs = some (st', g', save', t') →
        st' = st := by
      intro sys st graph save bTN bTFR time n mB mH prs st' g' save' t'
        hSelf hinv hok h
      simp only [recNetBidirLoop] at h
      cases prs with
      | nil =>
        simp only [Option.some.injEq, Prod.mk.injEq] at h
        exact h.1.symm
      | cons pr rest =>
        obtain ⟨bd, g0⟩ := pr
        simp only at h
        by_cases hc1 : (((sys.node NET n).paths.getD GPU []).getD g0
            dfltPath).pbw = mB ∧
            (((sys.node NET n).paths.getD GPU []).getD g0
              dfltPath).plist.length = mH
        · rw [if_pos hc1] at h
          by_cases hc2 : bd = (if gpuPciBw sys st g0 > 0 then 0 else 1)
          · rw [if_pos hc2] at h
            cases h1 : ncclTopoSearchTryGpu fuel sys st graph save 0 bTN bTFR
                0 time ((NET : ℕ) : ℤ) n g0 with
            | none => rw [h1] at h; simp at h
            | some p1 =>
              obtain ⟨st1, g1, save1, time1⟩ := p1
              rw [h1] at h
              simp only at h
              have hst1 : st1 = st :=
                ihTryR _ _ _ _ _ _ _ _ _ _ _ _ _ _ _ _ hSelf hinv hok h1
              have := ihBidirR _ _ _ _ _ _ _ _ _ _ _ _ _ _ _ hSelf
                (hst1 ▸ hinv)
                (GOK.transfer (sTry _ _ _ _ _ _ _ _ _ _ _ _ _ _ _ _ h1).1 hok) h
              rw [this, hst1]
          · rw [if_neg hc2] at h
            exact ihBidirR _ _ _ _ _ _ _ _ _ _ _ _ _ _ _ hSelf hinv hok h
        · rw [if_neg hc1] at h
          exact ihBidirR _ _ _ _ _ _ _ _ _ _ _ _ _ _ _ hSelf hinv hok h
    have hSearchR : ∀ sys st graph save time st' g' save' t',
        noSelfLink sys → StInv st → GOK sys graph →
        ncclTopoSearchRec (fuel + 1) sys st graph save time
            = some (st', g', save', t') →
        st' = st := by
      intro sys st graph save time st' g' save' t' hSelf hinv hok h
      simp only [ncclTopoSearchRec] at h
      by_cases hnet : sys.count NET ≠ 0 ∧ sys.count GPU ≠ sys.nRanks
      · rw [if_pos hnet] at h
        exact ihRecNetR _ _ _ _ _ _ _ _ _ _ _ hSelf hinv hok h
      · rw [if_neg hnet] at h
        have stage1 : ∀ st1 g1 save1 time1,
            (if graph.nChannels = 0 then
              ncclTopoSearchTryGpu fuel sys st graph save 0
                (ncclTopoSearchParams sys graph.pattern).1
                (ncclTopoSearchParams sys graph.pattern).2 FORCED_ORDER_PCI
                time (-1) 0 0
              else
              match ncclTopoReplayGetGpu sys graph (-1) with
              | none => none
              | some g =>
                ncclTopoSearchTryGpu fuel sys st graph save 0
                  (ncclTopoSearchParams sys graph.pattern).1
                  (ncclTopoSearchParams sys graph.pattern).2
                  FORCED_ORDER_REPLAY time (-1) 0 g)
              = some (st1, g1, save1, time1) →
            st1 = st ∧ MutOf g1 graph := by
          intro st1 g1 save1 time1 h1
          by_cases hn : graph.nChannels = 0
          · rw [if_pos hn] at h1
            exact ⟨ihTryR _ _ _ _ _ _ _ _ _ _ _ _ _ _ _ _ hSelf hinv hok h1,
              (sTry _ _ _ _ _ _ _ _ _ _ _ _ _ _ _ _ h1).1⟩
          · rw [if_neg hn] at h1
            cases h2 : ncclTopoReplayGetGpu sys graph (-1) with
            | none => rw [h2] at h1; simp at h1
            | some g0 =>
              rw [h2] at h1
              simp only at h1
              exact ⟨ihTryR _ _ _ _ _ _ _ _ _ _ _ _ _ _ _ _ hSelf hinv hok
                h1, (sTry _ _ _ _ _ _ _ _ _ _ _ _ _ _ _ _ h1).1⟩
        cases hs1 : (if graph.nChannels = 0 then
            ncclTopoSearchTryGpu fuel sys st graph save 0
              (ncclTopoSearchParams sys graph.pattern).1
              (ncclTopoSearchParams sys graph.pattern).2 FORCED_ORDER_PCI
              time (-1) 0 0
            else
            match ncclTopoReplayGetGpu sys graph (-1) with
            | none => none
            | some g =>
              ncclTopoSearchTryGpu fuel sys st graph save 0
                (ncclTopoSearchParams sys graph.pattern).1
                (ncclTopoSearchParams sys graph.pattern).2
                FORCED_ORDER_REPLAY time (-1) 0 g) with
        | none => rw [hs1] at h; simp at h
        | some p1 =>
          obtain ⟨st1, g1, save1, time1⟩ := p1
          rw [hs1] at h
          simp only at h
          obtain ⟨hst1, hm1⟩ := stage1 _ _ _ _ hs1
          by_cases hcond : g1.sameChannels = 0 ∨ g1.nChannels = 0
          · rw [if_pos hcond] at h
            have := ihIntraR _ _ _ _ _ _ _ _ _ _ _ _ hSelf (hst1 ▸ hinv)
              (GOK.transfer hm1 hok) h
            rw [this, hst1]
          · rw [if_neg hcond] at h
            simp only [Option.some.injEq, Prod.mk.injEq] at h
            obtain ⟨ha, -, -, -⟩ := h
            rw [← ha, hst1]
    have hIntraR : ∀ sys st graph save bTN bTFR time gs st' g' save' t',
        noSelfLink sys → StInv st → GOK sys graph →
        searchRecIntraLoop (fuel + 1) sys st graph save bTN bTFR time gs
            = some (st', g', save', t') →
        st' = st := by
      intro sys st graph save bTN bTFR time gs st' g' save' t' hSelf hinv hok
        h
      simp only [searchRecIntraLoop] at h
      cases gs with
      | nil =>
        simp only [Option.some.injEq, Prod.mk.injEq] at h
        exact h.1.symm
      | cons g0 rest =>
        simp only at h
        cases h1 : ncclTopoSearchTryGpu fuel sys st graph save 0 bTN bTFR 0
            time (-1) 0 g0 with
        | none => rw [h1] at h; simp at h
        | some p1 =>
          obtain ⟨st1, g1, save1, time1⟩ := p1
          rw [h1] at h
          simp only at h
          have hst1 : st1 = st :=
            ihTryR _ _ _ _ _ _ _ _ _ _ _ _ _ _ _ _ hSelf hinv hok h1
          have := ihIntraR _ _ _ _ _ _ _ _ _ _ _ _ hSelf (hst1 ▸ hinv)
            (GOK.transfer (sTry _ _ _ _ _ _ _ _ _ _ _ _ _ _ _ _ h1).1 hok) h
          rw [this, hst1]
    exact ⟨hTryR, hRecGpuR, hBodyR, hNetLoopR, hNextLoopR, hRecNetR,
      hRNLoopR, hRNBodyR, hBidirR, hSearchR, hIntraR⟩

/-- **C1** (corrected): backtrack purity of the top-level search.  Under the
no-self-link topology, a nonnegative on-grid initial ledger, and the grid
conditions `GOK` on the candidate's bandwidths (every charge derived from
`bwIntra`, `bwInter` and — for the balanced-tree pattern — `bwInter/2` is
positive and on the 1/1000 grid), a returning top-level search hands back the
exact initial state: every Link bandwidth and every GPU `used` bitmask (and
the pooled NIC bandwidth and maxChannels counters) equal their pre-call
values, including exits caused by the time budget.  Without the grid
conditions the claim is false (see the counterexample). -/
theorem claim_C1_backtrack_purity (fuel : ℕ) (sys : Sys) (st : St)
    (graph save : Graph) (time : ℤ) (res : St × Graph × Graph × ℤ)
    (hSelf : noSelfLink sys) (hinv : StInv st) (hok : GOK sys graph)
    (h : ncclTopoSearchRec fuel sys st graph save time = some res) :
    res.1 = st ∧ res.1.linkBw = st.linkBw ∧ res.1.used = st.used := by
  obtain ⟨st', g', save', t'⟩ := res
  have hr := (search_restores fuel).2.2.2.2.2.2.2.2.2.1 sys st graph save
    time st' g' save' t' hSelf hinv hok h
  exact ⟨hr, by rw [hr], by rw [hr]⟩

/-- A clean search input on `wSys`: 2 GPUs, tree pattern, on-grid
bandwidth 2. -/
def c1Graph : Graph :=
  { id := 0, pattern := PATTERN_TREE, crossNic := 0, collNet := 0,
    bwIntra := 2, bwInter := 2, typeIntra := PATH_NVL, typeInter := PATH_NVL,
    nChannels := 0, minChannels := 1, maxChannels := 1, sameChannels := 1,
    nHops := 0, latencyInter := 0, intra := fun _ => 0, inter := fun _ => 0 }

def c1Save : Graph :=
  { id := 0, pattern := PATTERN_TREE, crossNic := 0, collNet := 0,
    bwIntra := 0, bwInter := 0, typeIntra := PATH_NVL, typeInter := PATH_NVL,
    nChannels := 0, minChannels := 1, maxChannels := 1, sameChannels := 1,
    nHops := 0, latencyInter := 0, intra := fun _ => 0, inter := fun _ => 0 }

def c1St : St :=
  { linkBw := fun _ => 10, used := fun _ => 0, netBw := fun _ => 0,
    netMaxCh := fun _ => 0 }

/-- Off-grid variant: bandwidth 3/2000 (an exact half-thousandth) on a
ledger holding 2/1000. -/
def c1xGraph : Graph :=
  { id := 0, pattern := PATTERN_TREE, crossNic := 0, collNet := 0,
    bwIntra := 3/2000, bwInter := 3/2000, typeIntra := PATH_NVL,
    typeInter := PATH_NVL, nChannels := 0, minChannels := 1,
    maxChannels := 1, sameChannels := 1, nHops := 0, latencyInter := 0,
    intra := fun _ => 0, inter := fun _ => 0 }

def c1xSt : St :=
  { linkBw := fun _ => 2/1000, used := fun _ => 0, netBw := fun _ => 0,
    netMaxCh := fun _ => 0 }

section RatEvalSearch

set_option allowUnsafeReducibility true
attribute [local semireducible] Rat.mul Rat.add Rat.sub Rat.inv

set_option maxHeartbeats 4000000 in
theorem claim_C1_witness :
    (noSelfLink wSys ∧ StInv c1St ∧ GOK wSys c1Graph ∧
      (ncclTopoSearchRec 20 wSys c1St c1Graph c1Save 100).isSome = true) ∧
    (ncclTopoSearchRec 20 wSys c1St c1Graph c1Save 100).map
        (fun r => (r.1.linkBw (GPU, 0, 0), r.1.linkBw (GPU, 1, 0),
          r.1.used 0, r.1.used 1))
      = some (c1St.linkBw (GPU, 0, 0), c1St.linkBw (GPU, 1, 0),
          c1St.used 0, c1St.used 1) := by
  have hSelf : noSelfLink wSys := by decide
  have hinv : StInv c1St := by
    intro ref
    constructor
    · show (0 : ℚ) ≤ 10
      norm_num
    · show onGrid 10
      decide
  have hok : GOK wSys c1Graph := by decide
  have hs : (ncclTopoSearchRec 20 wSys c1St c1Graph c1Save 100).isSome
      = true := by decide
  obtain ⟨res, hres⟩ := Option.isSome_iff_exists.mp hs
  have h := claim_C1_backtrack_purity 20 wSys c1St c1Graph c1Save 100 res
    hSelf hinv hok hres
  refine ⟨⟨hSelf, hinv, hok, hs⟩, ?_⟩
  rw [hres, Option.map_some']
  rw [h.1]

set_option maxHeartbeats 4000000 in
/-- **C1** counterexample to the unconditional claim: with the off-grid
bandwidth `3/2000` on links holding `2/1000`, the search returns but the
GPU0→GPU1 link ends at `3/1000`, not its pre-call `2/1000`: the
reserve/release pairing is inexact off the 1/1000 grid. -/
theorem claim_C1_counterexample :
    (ncclTopoSearchRec 20 wSys c1xSt c1xGraph c1Save 100).map
        (fun r => r.1.linkBw (GPU, 0, 0)) = some (3/1000) ∧
    c1xSt.linkBw (GPU, 0, 0) = 2/1000 ∧ (3/1000 : ℚ) ≠ 2/1000 := by
  refine ⟨by decide, rfl, by decide⟩

end RatEvalSearch

/-! ## `ncclTopoCompute`: the outer relaxation sweep

The HIP speed tables (`speedArrayIntra = speedArrayInter` under
`__HIP_PLATFORM_HCC__`), the `DIVUP` helper, the fallback/duplication
epilogue, `ncclExpandMultiRank`, and the `goto search` sweep as a fueled
recursion.  The `NCCL_GRAPH_FILE` / `NCCL_RINGS` environment hooks and the
Rome model matchers (`parseChordalRing` etc., defined outside this source
file) are modelled as absent: no environment override and no pre-matched
channels, which is the default `ncclParamCrossNic()`-driven path through
lines 893-1038. -/

def hipSpeeds : List ℚ :=
  [24, 20, 18, 15, 12, 10, 9, 7, 6, 5, 4, 3, 12/5, 6/5, 6/25, 3/25]

def speedAt (i : ℕ) : ℚ := hipSpeeds.getD i 0

/-- `while (speedArray[speedIndex] > cap && speedIndex < nspeeds-1)
speedIndex++`. -/
def findSpeedIndex (cap : ℚ) : ℕ :=
  match hipSpeeds.findIdx? (fun s => decide (s ≤ cap)) with
  | some i => i
  | none => hipSpeeds.length - 1

def DIVUP (x y : ℕ) : ℕ := (x + y - 1) / y

/-- Lines 1019-1035: the fallback trivial channel and the channel
duplication. -/
def computeFinish (sys : Sys) (graph : Graph) : Graph :=
  let ngpus := sys.count GPU
  let g1 := if graph.nChannels = 0 ∧ graph.collNet = 0 then
      { graph with
        intra := fun i => if i < ngpus then (sys.node GPU i).gpu.rank.headI
          else graph.intra i,
        inter := fun i => if i < 2 then 0 else graph.inter i,
        bwIntra := 1/10, bwInter := 1/10,
        typeIntra := PATH_SYS, typeInter := PATH_SYS, nChannels := 1 }
    else graph
  if g1.bwIntra ≥ 25 then
    { g1 with
      intra := fun i => if g1.nChannels * ngpus ≤ i ∧
          i < (min (g1.nChannels * 2) g1.maxChannels) * ngpus then
          g1.intra (i - g1.nChannels * ngpus)
        else g1.intra i,
      inter := fun i => if g1.nChannels * 2 ≤ i ∧
          i < (min (g1.nChannels * 2) g1.maxChannels) * 2 then
          g1.inter (i - g1.nChannels * 2)
        else g1.inter i,
      bwIntra := g1.bwIntra
        / ((DIVUP (min (g1.nChannels * 2) g1.maxChannels) g1.nChannels : ℕ)
          : ℚ),
      bwInter := g1.bwInter
        / ((DIVUP (min (g1.nChannels * 2) g1.maxChannels) g1.nChannels : ℕ)
          : ℚ),
      nChannels := min (g1.nChannels * 2) g1.maxChannels }
  else g1

/-- The flattened multi-rank `intra` array written by
`ncclExpandMultiRank`. -/
def expandList (sys : Sys) (g : Graph) : List ℤ :=
  (List.range g.nChannels).flatMap (fun n =>
    (List.range (sys.count GPU)).flatMap (fun i =>
      (List.range (sys.count GPU)).flatMap (fun j =>
        if g.intra (n * sys.count GPU + i)
            = (sys.node GPU j).gpu.rank.headI
        then (sys.node GPU j).gpu.rank else [])))

def ncclExpandMultiRank (sys : Sys) (g : Graph) : Graph :=
  { g with intra := fun i => (expandList sys g).getD i (g.intra i) }

mutual

/-- The `search:` label: pick the per-iteration time budget, zero the
candidate's channels, run the search, log the candidate's `crossNic`. -/
def computeSweep (fuel : ℕ) (sys : Sys) (st : St) (searchFuel : ℕ)
    (tmp best : Graph) (pass : ℕ) (speedIndex : ℕ) (globalTimeout : ℤ)
    (trace : List ℤ) (cNL : ℤ) : Option (St × Graph × List ℤ) :=
  match fuel with
  | 0 => none
  | fuel + 1 =>
    match ncclTopoSearchRec searchFuel sys st { tmp with nChannels := 0 }
        best
        (if tmp.sameChannels ≠ 0 then 256
          else if tmp.pattern = PATTERN_TREE then 16384 else 16384) with
    | none => none
    | some (st1, tmp1, best1, time1) =>
      computeAfter fuel sys st1 searchFuel tmp1 best1 pass speedIndex
        (globalTimeout - (if tmp.sameChannels ≠ 0 then 256
          else if tmp.pattern = PATTERN_TREE then 16384 else 16384))
        (trace ++ [tmp.crossNic]) cNL time1
termination_by structural fuel

/-- Lines 940-955: the post-search decisions up to the global-timeout
check. -/
def computeAfter (fuel : ℕ) (sys : Sys) (st : St) (searchFuel : ℕ)
    (tmp best : Graph) (pass : ℕ) (speedIndex : ℕ) (globalTimeout : ℤ)
    (trace : List ℤ) (cNL : ℤ) (time : ℤ) : Option (St × Graph × List ℤ) :=
  match fuel with
  | 0 => none
  | fuel + 1 =>
    if time = -1 then
      computeDone fuel sys st searchFuel tmp best pass speedIndex
        globalTimeout trace cNL time
    else if (best.nChannels : ℚ) * best.bwInter ≥ sys.totalBw then
      computeDone fuel sys st searchFuel tmp best pass speedIndex
        globalTimeout trace cNL time
    else if pass = 1 then
      if tmp.sameChannels = 1 then
        computeSweep fuel sys st searchFuel { tmp with sameChannels := 0 }
          best pass speedIndex globalTimeout trace cNL
      else
        if (if time ≠ -1 then globalTimeout + time else 262144) < 0 ∧
            best.nChannels ≠ 0 then
          computeDone fuel sys st searchFuel
            { tmp with sameChannels := 1 } best pass speedIndex
            (if time ≠ -1 then globalTimeout + time else 262144) trace cNL
            time
        else
          computeRelax fuel sys st searchFuel
            { tmp with sameChannels := 1 } best speedIndex
            (if time ≠ -1 then globalTimeout + time else 262144) trace cNL
            time
    else
      computeDone fuel sys st searchFuel tmp best pass speedIndex
        globalTimeout trace cNL time
termination_by structural fuel

/-- Lines 957-991: the pass-1 relaxation ladder (typeIntra, typeInter,
crossNic, pattern, speed). -/
def computeRelax (fuel : ℕ) (sys : Sys) (st : St) (searchFuel : ℕ)
    (tmp best : Graph) (speedIndex : ℕ) (globalTimeout : ℤ)
    (trace : List ℤ) (cNL : ℤ) (time : ℤ) : Option (St × Graph × List ℤ) :=
  match fuel with
  | 0 => none
  | fuel + 1 =>
    if tmp.typeIntra < (if sys.count NET > 0 then tmp.typeInter
        else PATH_SYS) ∧
        (best.nChannels = 0 ∨ tmp.typeIntra < best.typeIntra) then
      computeSweep fuel sys st searchFuel
        { tmp with typeIntra := tmp.typeIntra + 1 } best 1 speedIndex
        globalTimeout trace cNL
    else
      if sys.count NET > 0 ∧
          ({ tmp with typeIntra := if sys.count GPU = 1 then PATH_LOC
            else PATH_NVL } : Graph).typeInter < PATH_SYS ∧
          (best.nChannels = 0 ∨ tmp.typeInter < best.typeInter ∨
            tmp.typeInter < PATH_PXN) then
        computeSweep fuel sys st searchFuel
          { tmp with
            typeIntra := (if sys.count GPU = 1 then PATH_LOC else PATH_NVL),
            typeInter := tmp.typeInter + 1 } best 1 speedIndex
          globalTimeout trace cNL
      else
        if cNL ≠ 0 ∧ tmp.crossNic = 0 then
          computeSweep fuel sys st searchFuel
            { tmp with
              typeIntra := (if sys.count GPU = 1 then PATH_LOC
                else PATH_NVL),
              typeInter := PATH_PIX, crossNic := cNL } best 1 speedIndex
            globalTimeout trace cNL
        else
          if tmp.pattern = PATTERN_SPLIT_TREE then
            computeSweep fuel sys st searchFuel
              { tmp with
                typeIntra := (if sys.count GPU = 1 then PATH_LOC
                  else PATH_NVL),
                typeInter := PATH_PIX, crossNic := 0,
                pattern := PATTERN_TREE } best 1 speedIndex globalTimeout
              trace cNL
          else
            if speedIndex < 15 ∧ (best.nChannels = 0 ∨
                speedAt (speedIndex + 1) / best.bwInter > 49/100) then
              computeSweep fuel sys st searchFuel
                { tmp with
                  typeIntra := (if sys.count GPU = 1 then PATH_LOC
                    else PATH_NVL),
                  typeInter := PATH_PIX, crossNic := 0,
                  pattern := best.pattern,
                  bwIntra := speedAt (speedIndex + 1),
                  bwInter := speedAt (speedIndex + 1) } best 1
                (speedIndex + 1) globalTimeout trace cNL
            else
              computeDone fuel sys st searchFuel
                { tmp with
                  typeIntra := (if sys.count GPU = 1 then PATH_LOC
                    else PATH_NVL),
                  typeInter := PATH_PIX, crossNic := 0,
                  pattern := best.pattern,
                  bwIntra := speedAt (findSpeedIndex sys.maxBw),
                  bwInter := speedAt (findSpeedIndex sys.maxBw) } best 1
                (findSpeedIndex sys.maxBw) globalTimeout trace cNL time
termination_by structural fuel

/-- The `done:` label, lines 995-1005: on the first pass, restart from the
saved best with a matching speed index, `minChannels = nChannels`, and the
timer forced to `-1`. -/
def computeDone (fuel : ℕ) (sys : Sys) (st : St) (searchFuel : ℕ)
    (tmp best : Graph) (pass : ℕ) (speedIndex : ℕ) (globalTimeout : ℤ)
    (trace : List ℤ) (cNL : ℤ) (time : ℤ) : Option (St × Graph × List ℤ) :=
  match fuel with
  | 0 => none
  | fuel + 1 =>
    if pass = 1 then
      computePass2 fuel sys st searchFuel
        { best with
          bwIntra := speedAt (findSpeedIndex best.bwInter),
          bwInter := speedAt (findSpeedIndex best.bwInter),
          minChannels := best.nChannels }
        best (findSpeedIndex best.bwInter) globalTimeout trace cNL (-1)
    else
      computePass2 fuel sys st searchFuel tmp best speedIndex globalTimeout
        trace cNL time
termination_by structural fuel

/-- Lines 1008-1017 and the epilogue: maybe raise `bwIntra` for trees, then
fallback, duplication and multi-rank expansion. -/
def computePass2 (fuel : ℕ) (sys : Sys) (st : St) (searchFuel : ℕ)
    (tmp best : Graph) (speedIndex : ℕ) (globalTimeout : ℤ)
    (trace : List ℤ) (cNL : ℤ) (time : ℤ) : Option (St × Graph × List ℤ) :=
  match fuel with
  | 0 => none
  | fuel + 1 =>
    if time ≠ 0 ∧ best.pattern ≠ PATTERN_RING ∧
        tmp.bwIntra = best.bwIntra ∧ tmp.bwIntra < tmp.bwInter * 2 ∧
        speedIndex > 0 then
      computeSweep fuel sys st searchFuel
        { tmp with bwIntra := speedAt (speedIndex - 1) } best 2
        (speedIndex - 1) globalTimeout trace cNL
    else
      some (st, ncclExpandMultiRank sys (computeFinish sys best), trace)
termination_by structural fuel

end

/-- The normalized graph at entry: lines 830-841 (including
`crossNic == 2 → 0`) plus the Rome max-channel clamp at 893 and the
single-GPU pattern rewrite at 897. -/
def computeEntryGraph (sys : Sys) (graph : Graph) (crossNicParam : ℤ) :
    Graph :=
  let ngpus := sys.count GPU
  let g0 := { graph with
    crossNic := (if crossNicParam = 2 then 0 else crossNicParam),
    bwIntra := 0, bwInter := 0, latencyInter := 0,
    typeIntra := (if ngpus = 1 then PATH_LOC else PATH_NVL),
    typeInter := PATH_PIX, nChannels := 0, sameChannels := 1 }
  let g1 := if g0.pattern = PATTERN_RING ∧ sys.romeType ∧ ngpus = sys.nRanks
    then { g0 with maxChannels := 2 } else g0
  if ngpus = 1 ∧ g1.pattern ≠ PATTERN_RING then
    { g1 with pattern := PATTERN_TREE } else g1

theorem computeEntryGraph_crossNic (sys : Sys) (graph : Graph) (p : ℤ) :
    (computeEntryGraph sys graph p).crossNic = (if p = 2 then 0 else p) := by
  simp only [computeEntryGraph]
  split_ifs <;> rfl

/-- Lines 829-927: entry normalization, the initial speed pick, and the
first `search:` iteration.  `crossNicParam` is the `NCCL_CROSS_NIC`
environment parameter (default 2) read by `ncclParamCrossNic()`. -/
def ncclTopoCompute (fuel searchFuel : ℕ) (sys : Sys) (st : St)
    (graph : Graph) (crossNicParam : ℤ) : Option (St × Graph × List ℤ) :=
  computeSweep fuel sys st searchFuel
    { computeEntryGraph sys graph crossNicParam with
      bwIntra := speedAt (findSpeedIndex sys.maxBw),
      bwInter := speedAt (findSpeedIndex sys.maxBw) }
    (computeEntryGraph sys graph crossNicParam) 1
    (findSpeedIndex sys.maxBw) 262144 []
    (if sys.count NET > 1 ∧ crossNicParam ≠ 0 then 1 else 0)

/-! ## Claim C7: the fallback channel -/

/-- **C7**: if after the sweep the best graph has no channel and
`collNet == 0`, the epilogue installs the trivial degenerate channel —
`intra` filled with every GPU's first rank in index order, both NIC slots 0,
bandwidths 0.1, types SYS/SYS, one channel — and the duplication branch
cannot fire on it (0.1 < 25), so this is the final graph; the sweep epilogue
then returns it as a success (`some`), never a partial set of channels. -/
theorem claim_C7_fallback (sys : Sys) (graph : Graph)
    (hch : graph.nChannels = 0) (hcoll : graph.collNet = 0) :
    (computeFinish sys graph).nChannels = 1 ∧
    (computeFinish sys graph).bwIntra = 1/10 ∧
    (computeFinish sys graph).bwInter = 1/10 ∧
    (computeFinish sys graph).typeIntra = PATH_SYS ∧
    (computeFinish sys graph).typeInter = PATH_SYS ∧
    (computeFinish sys graph).inter 0 = 0 ∧
    (computeFinish sys graph).inter 1 = 0 ∧
    (∀ i, i < sys.count GPU →
      (computeFinish sys graph).intra i = (sys.node GPU i).gpu.rank.headI) ∧
    (∀ fuel st searchFuel tmp speedIndex globalTimeout trace cNL,
      computePass2 (fuel + 1) sys st searchFuel tmp graph speedIndex
          globalTimeout trace cNL 0
        = some (st, ncclExpandMultiRank sys (computeFinish sys graph),
            trace)) := by
  have hno : ¬((25 : ℚ) ≤ 1/10) := by norm_num
  simp only [computeFinish]
  rw [if_pos (show graph.nChannels = 0 ∧ graph.collNet = 0 from
    ⟨hch, hcoll⟩)]
  rw [if_neg (show ¬((25 : ℚ) ≤ ({ graph with
    intra := fun i => if i < sys.count GPU
      then (sys.node GPU i).gpu.rank.headI else graph.intra i,
    inter := fun i => if i < 2 then 0 else graph.inter i,
    bwIntra := 1/10, bwInter := 1/10,
    typeIntra := PATH_SYS, typeInter := PATH_SYS,
    nChannels := 1 } : Graph).bwIntra) from hno)]
  refine ⟨rfl, rfl, rfl, rfl, rfl, by norm_num, by norm_num, ?_, ?_⟩
  · intro i hi
    show (if i < sys.count GPU then _ else _) = _
    rw [if_pos hi]
  · intro fuel st searchFuel tmp speedIndex globalTimeout trace cNL
    simp only [computePass2]
    rw [if_neg (show ¬((0 : ℤ) ≠ 0 ∧ graph.pattern ≠ PATTERN_RING ∧
        tmp.bwIntra = graph.bwIntra ∧ tmp.bwIntra < tmp.bwInter * 2 ∧
        speedIndex > 0) from fun hc => hc.1 rfl)]
    simp only [computeFinish]
    rw [if_pos (show graph.nChannels = 0 ∧ graph.collNet = 0 from
      ⟨hch, hcoll⟩)]
    rw [if_neg (show ¬((25 : ℚ) ≤ ({ graph with
      intra := fun i => if i < sys.count GPU
        then (sys.node GPU i).gpu.rank.headI else graph.intra i,
      inter := fun i => if i < 2 then 0 else graph.inter i,
      bwIntra := 1/10, bwInter := 1/10,
      typeIntra := PATH_SYS, typeInter := PATH_SYS,
      nChannels := 1 } : Graph).bwIntra) from hno)]

theorem claim_C7_witness :
    (c1Save.nChannels = 0 ∧ c1Save.collNet = 0) ∧
    (computeFinish wSys c1Save).nChannels = 1 ∧
    (computeFinish wSys c1Save).typeIntra = PATH_SYS ∧
    (computeFinish wSys c1Save).intra 0 = 0 ∧
    (computeFinish wSys c1Save).intra 1 = 1 := by
  obtain ⟨h1, -, -, h4, -, -, -, h8, -⟩ :=
    claim_C7_fallback wSys c1Save rfl rfl
  refine ⟨⟨rfl, rfl⟩, h1, h4, ?_, ?_⟩
  · rw [h8 0 (by decide)]; rfl
  · rw [h8 1 (by decide)]; rfl

/-! ## Claim C8: channel duplication -/

/-- **C8**: at the end of compute, if the solution's `bwIntra` is at least
25 and doubling `nChannels` stays within `maxChannels` (and there is at
least one channel, which any graph with `bwIntra ≥ 25` produced by the sweep
has), the final graph has exactly twice as many channels, each new channel
`nChannels + c` an exact copy of channel `c`'s `intra` and `inter` entries,
and both bandwidths are halved (`DIVUP(2n, n) = 2`). -/
theorem claim_C8_duplication (sys : Sys) (graph : Graph)
    (h25 : (25 : ℚ) ≤ graph.bwIntra) (hn : 0 < graph.nChannels)
    (hmax : graph.nChannels * 2 ≤ graph.maxChannels) :
    (computeFinish sys graph).nChannels = 2 * graph.nChannels ∧
    (computeFinish sys graph).bwIntra = graph.bwIntra / 2 ∧
    (computeFinish sys graph).bwInter = graph.bwInter / 2 ∧
    (∀ c i, c < graph.nChannels → i < sys.count GPU →
      (computeFinish sys graph).intra
          ((graph.nChannels + c) * sys.count GPU + i)
        = graph.intra (c * sys.count GPU + i)) ∧
    (∀ c, c < graph.nChannels →
      (computeFinish sys graph).inter ((graph.nChannels + c) * 2)
          = graph.inter (c * 2) ∧
      (computeFinish sys graph).inter ((graph.nChannels + c) * 2 + 1)
          = graph.inter (c * 2 + 1)) := by
  have hfb : ¬(graph.nChannels = 0 ∧ graph.collNet = 0) :=
    fun hc => absurd hc.1 (by omega)
  have hdup : min (graph.nChannels * 2) graph.maxChannels
      = graph.nChannels * 2 := min_eq_left hmax
  have hdivup : DIVUP (graph.nChannels * 2) graph.nChannels = 2 := by
    unfold DIVUP
    have he : graph.nChannels * 2 + graph.nChannels - 1
        = (graph.nChannels - 1) + graph.nChannels * 2 := by omega
    rw [he, Nat.add_mul_div_left _ _ hn, Nat.div_eq_of_lt (by omega)]
  simp only [computeFinish]
  rw [if_neg hfb]
  rw [if_pos h25, hdup, hdivup]
  refine ⟨by ring, by norm_num, by norm_num, ?_, ?_⟩
  · intro c i hc hi
    have hlow : graph.nChannels * sys.count GPU ≤
        (graph.nChannels + c) * sys.count GPU + i :=
      le_trans (Nat.mul_le_mul_right _ (by omega)) (Nat.le_add_right _ _)
    have hhigh : (graph.nChannels + c) * sys.count GPU + i
        < graph.nChannels * 2 * sys.count GPU := by
      calc (graph.nChannels + c) * sys.count GPU + i
          < (graph.nChannels + c) * sys.count GPU + sys.count GPU :=
            Nat.add_lt_add_left hi _
        _ = (graph.nChannels + c + 1) * sys.count GPU := by ring
        _ ≤ graph.nChannels * 2 * sys.count GPU :=
            Nat.mul_le_mul_right _ (by omega)
    show (if _ ∧ _ then _ else _) = _
    rw [if_pos ⟨hlow, hhigh⟩]
    congr 1
    rw [Nat.add_mul, Nat.add_assoc, Nat.add_sub_cancel_left]
  · intro c hc
    have hlow1 : graph.nChannels * 2 ≤ (graph.nChannels + c) * 2 :=
      Nat.mul_le_mul_right _ (by omega)
    have hhigh1 : (graph.nChannels + c) * 2 < graph.nChannels * 2 * 2 := by
      calc (graph.nChannels + c) * 2 < (graph.nChannels + c + 1) * 2 := by
            omega
        _ ≤ graph.nChannels * 2 * 2 := Nat.mul_le_mul_right _ (by omega)
    have hlow2 : graph.nChannels * 2 ≤ (graph.nChannels + c) * 2 + 1 :=
      le_trans hlow1 (Nat.le_succ _)
    have hhigh2 : (graph.nChannels + c) * 2 + 1
        < graph.nChannels * 2 * 2 := by omega
    constructor
    · show (if _ ∧ _ then _ else _) = _
      rw [if_pos ⟨hlow1, hhigh1⟩]
      congr 1
      rw [Nat.add_mul]
      omega
    · show (if _ ∧ _ then _ else _) = _
      rw [if_pos ⟨hlow2, hhigh2⟩]
      congr 1
      rw [Nat.add_mul]
      omega

/-- A concrete two-channel solution with `bwIntra = 26` on the two-GPU
system. -/
def c8G : Graph :=
  { id := 0, pattern := PATTERN_RING, crossNic := 0, collNet := 0,
    bwIntra := 26, bwInter := 13, typeIntra := PATH_NVL,
    typeInter := PATH_NVL, nChannels := 2, minChannels := 1,
    maxChannels := 4, sameChannels := 1, nHops := 0, latencyInter := 0,
    intra := fun i => (i : ℤ), inter := fun i => 100 + (i : ℤ) }

/-! ## Claim C10: `crossNic` through the sweep -/

/-- Joint invariant of the relaxation sweep: for any property `S` of
`crossNic` values holding for the candidate's and the best's `crossNic`, for
the local `crossNic` bound (`cNL`) and for `0`, every trace entry a sweep
appends satisfies `S`. -/
theorem sweep_trace (fuel : ℕ) (S : ℤ → Prop) :
    (∀ sys st searchFuel tmp best pass si gt trace cNL st' g' trace',
      S tmp.crossNic → S best.crossNic → S cNL → S 0 →
      computeSweep fuel sys st searchFuel tmp best pass si gt trace cNL
          = some (st', g', trace') →
      ∃ ext, trace' = trace ++ ext ∧ ∀ x ∈ ext, S x) ∧
    (∀ sys st searchFuel tmp best pass si gt trace cNL time st' g' trace',
      S tmp.crossNic → S best.crossNic → S cNL → S 0 →
      computeAfter fuel sys st searchFuel tmp best pass si gt trace cNL time
          = some (st', g', trace') →
      ∃ ext, trace' = trace ++ ext ∧ ∀ x ∈ ext, S x) ∧
    (∀ sys st searchFuel tmp best si gt trace cNL time st' g' trace',
      S tmp.crossNic → S best.crossNic → S cNL → S 0 →
      computeRelax fuel sys st searchFuel tmp best si gt trace cNL time
          = some (st', g', trace') →
      ∃ ext, trace' = trace ++ ext ∧ ∀ x ∈ ext, S x) ∧
    (∀ sys st searchFuel tmp best pass si gt trace cNL time st' g' trace',
      S tmp.crossNic → S best.crossNic → S cNL → S 0 →
      computeDone fuel sys st searchFuel tmp best pass si gt trace cNL time
          = some (st', g', trace') →
      ∃ ext, trace' = trace ++ ext ∧ ∀ x ∈ ext, S x) ∧
    (∀ sys st searchFuel tmp best si gt trace cNL time st' g' trace',
      S tmp.crossNic → S best.crossNic → S cNL → S 0 →
      computePass2 fuel sys st searchFuel tmp best si gt trace cNL time
          = some (st', g', trace') →
      ∃ ext, trace' = trace ++ ext ∧ ∀ x ∈ ext, S x) := by
  induction fuel with
  | zero =>
    refine ⟨?_, ?_, ?_, ?_, ?_⟩ <;>
      · intros
        rename_i h
        simp only [computeSweep, computeAfter, computeRelax, computeDone,
          computePass2] at h
        exact Option.noConfusion h
  | succ fuel ih =>
    obtain ⟨ihSweepT, ihAfterT, ihRelaxT, ihDoneT, ihPass2T⟩ := ih
    have hSweepT : ∀ sys st searchFuel tmp best pass si gt trace cNL st' g'
        trace',
        S tmp.crossNic → S best.crossNic → S cNL → S 0 →
        computeSweep (fuel + 1) sys st searchFuel tmp best pass si gt trace
            cNL = some (st', g', trace') →
        ∃ ext, trace' = trace ++ ext ∧ ∀ x ∈ ext, S x := by
      intro sys st searchFuel tmp best pass si gt trace cNL st' g' trace'
        hS1 hS2 hS3 hS0 h
      simp only [computeSweep] at h
      cases h1 : ncclTopoSearchRec searchFuel sys st
          { tmp with nChannels := 0 } best
          (if tmp.sameChannels ≠ 0 then 256
            else if tmp.pattern = PATTERN_TREE then 16384 else 16384) with
      | none => rw [h1] at h; simp at h
      | some p1 =>
        obtain ⟨st1, tmp1, best1, time1⟩ := p1
        rw [h1] at h
        simp only at h
        obtain ⟨hm, hsv⟩ :=
          (search_shape searchFuel).2.2.2.2.2.2.2.2.2.1 _ _ _ _ _ _ _ _ _ h1
        have hS1' : S tmp1.crossNic := by
          rw [hm.fields.2.2.1]; exact hS1
        have hS2' : S best1.crossNic := by
          rcases hsv with hx | hx
          · rw [hx]; exact hS1
          · rw [hx]; exact hS2
        obtain ⟨ext, hext, hall⟩ := ihAfterT _ _ _ _ _ _ _ _ _ _ _ _ _ _
          hS1' hS2' hS3 hS0 h
        refine ⟨[tmp.crossNic] ++ ext, ?_, ?_⟩
        · rw [hext, List.append_assoc]
        · intro x hx
          rcases List.mem_append.mp hx with hx | hx
          · rw [List.mem_singleton.mp hx]; exact hS1
          · exact hall x hx
    have hAfterT : ∀ sys st searchFuel tmp best pass si gt trace cNL time
        st' g' trace',
        S tmp.crossNic → S best.crossNic → S cNL → S 0 →
        computeAfter (fuel + 1) sys st searchFuel tmp best pass si gt trace
            cNL time = some (st', g', trace') →
        ∃ ext, trace' = trace ++ ext ∧ ∀ x ∈ ext, S x := by
      intro sys st searchFuel tmp best pass si gt trace cNL time st' g'
        trace' hS1 hS2 hS3 hS0 h
      simp only [computeAfter] at h
      by_cases hc1 : time = -1
      · rw [if_pos hc1] at h
        exact ihDoneT _ _ _ _ _ _ _ _ _ _ _ _ _ _ hS1 hS2 hS3 hS0 h
      · rw [if_neg hc1] at h
        by_cases hc2 : (best.nChannels : ℚ) * best.bwInter ≥ sys.totalBw
        · rw [if_pos hc2] at h
          exact ihDoneT _ _ _ _ _ _ _ _ _ _ _ _ _ _ hS1 hS2 hS3 hS0 h
        · rw [if_neg hc2] at h
          by_cases hc3 : pass = 1
          · rw [if_pos hc3] at h
            by_cases hc4 : tmp.sameChannels = 1
            · rw [if_pos hc4] at h
              exact ihSweepT _ _ _ _ _ _ _ _ _ _ _ _ _
                (show S ({ tmp with sameChannels := 0 } : Graph).crossNic
                  from hS1) hS2 hS3 hS0 h
            · rw [if_neg hc4] at h
              by_cases hc5 : (if time ≠ -1 then gt + time else 262144) < 0 ∧
                  best.nChannels ≠ 0
              · rw [if_pos hc5] at h
                exact ihDoneT _ _ _ _ _ _ _ _ _ _ _ _ _ _
                  (show S ({ tmp with sameChannels := 1 } : Graph).crossNic
                    from hS1) hS2 hS3 hS0 h
              · rw [if_neg hc5] at h
                exact ihRelaxT _ _ _ _ _ _ _ _ _ _ _ _ _
                  (show S ({ tmp with sameChannels := 1 } : Graph).crossNic
                    from hS1) hS2 hS3 hS0 h
          · rw [if_neg hc3] at h
            exact ihDoneT _ _ _ _ _ _ _ _ _ _ _ _ _ _ hS1 hS2 hS3 hS0 h
    have hRelaxT : ∀ sys st searchFuel tmp best si gt trace cNL time st' g'
        trace',
        S tmp.crossNic → S best.crossNic → S cNL → S 0 →
        computeRelax (fuel + 1) sys st searchFuel tmp best si gt trace cNL
            time = some (st', g', trace') →
        ∃ ext, trace' = trace ++ ext ∧ ∀ x ∈ ext, S x := by
      intro sys st searchFuel tmp best si gt trace cNL time st' g' trace'
        hS1 hS2 hS3 hS0 h
      simp only [computeRelax] at h
      by_cases hc1 : tmp.typeIntra < (if sys.count NET > 0 then tmp.typeInter
          else PATH_SYS) ∧
          (best.nChannels = 0 ∨ tmp.typeIntra < best.typeIntra)
      · rw [if_pos hc1] at h
        exact ihSweepT _ _ _ _ _ _ _ _ _ _ _ _ _
          (show S ({ tmp with typeIntra := tmp.typeIntra + 1 }
            : Graph).crossNic from hS1) hS2 hS3 hS0 h
      · rw [if_neg hc1] at h
        by_cases hc2 : sys.count NET > 0 ∧
            ({ tmp with typeIntra := if sys.count GPU = 1 then PATH_LOC
              else PATH_NVL } : Graph).typeInter < PATH_SYS ∧
            (best.nChannels = 0 ∨ tmp.typeInter < best.typeInter ∨
              tmp.typeInter < PATH_PXN)
        · rw [if_pos hc2] at h
          exact ihSweepT _ _ _ _ _ _ _ _ _ _ _ _ _
            (show S ({ tmp with
              typeIntra := (if sys.count GPU = 1 then PATH_LOC
                else PATH_NVL),
              typeInter := tmp.typeInter + 1 } : Graph).crossNic from hS1)
            hS2 hS3 hS0 h
        · rw [if_neg hc2] at h
          by_cases hc3 : cNL ≠ 0 ∧ tmp.crossNic = 0
          · rw [if_pos hc3] at h
            exact ihSweepT _ _ _ _ _ _ _ _ _ _ _ _ _
              (show S ({ tmp with
                typeIntra := (if sys.count GPU = 1 then PATH_LOC
                  else PATH_NVL),
                typeInter := PATH_PIX, crossNic := cNL } : Graph).crossNic
                from hS3) hS2 hS3 hS0 h
          · rw [if_neg hc3] at h
            by_cases hc4 : tmp.pattern = PATTERN_SPLIT_TREE
            · rw [if_pos hc4] at h
              exact ihSweepT _ _ _ _ _ _ _ _ _ _ _ _ _
                (show S ({ tmp with
                  typeIntra := (if sys.count GPU = 1 then PATH_LOC
                    else PATH_NVL),
                  typeInter := PATH_PIX, crossNic := 0,
                  pattern := PATTERN_TREE } : Graph).crossNic from hS0) hS2
                hS3 hS0 h
            · rw [if_neg hc4] at h
              by_cases hc5 : si < 15 ∧ (best.nChannels = 0 ∨
                  speedAt (si + 1) / best.bwInter > 49/100)
              · rw [if_pos hc5] at h
                exact ihSweepT _ _ _ _ _ _ _ _ _ _ _ _ _
                  (show S ({ tmp with
                    typeIntra := (if sys.count GPU = 1 then PATH_LOC
                      else PATH_NVL),
                    typeInter := PATH_PIX, crossNic := 0,
                    pattern := best.pattern,
                    bwIntra := speedAt (si + 1),
                    bwInter := speedAt (si + 1) } : Graph).crossNic from
                    hS0) hS2 hS3 hS0 h
              · rw [if_neg hc5] at h
                exact ihDoneT _ _ _ _ _ _ _ _ _ _ _ _ _ _
                  (show S ({ tmp with
                    typeIntra := (if sys.count GPU = 1 then PATH_LOC
                      else PATH_NVL),
                    typeInter := PATH_PIX, crossNic := 0,
                    pattern := best.pattern,
                    bwIntra := speedAt (findSpeedIndex sys.maxBw),
                    bwInter := speedAt (findSpeedIndex sys.maxBw) }
                    : Graph).crossNic from hS0) hS2 hS3 hS0 h
    have hDoneT : ∀ sys st searchFuel tmp best pass si gt trace cNL time st'
        g' trace',
        S tmp.crossNic → S best.crossNic → S cNL → S 0 →
        computeDone (fuel + 1) sys st searchFuel tmp best pass si gt trace
            cNL time = some (st', g', trace') →
        ∃ ext, trace' = trace ++ ext ∧ ∀ x ∈ ext, S x := by
      intro sys st searchFuel tmp best pass si gt trace cNL time st' g'
        trace' hS1 hS2 hS3 hS0 h
      simp only [computeDone] at h
      by_cases hc1 : pass = 1
      · rw [if_pos hc1] at h
        exact ihPass2T _ _ _ _ _ _ _ _ _ _ _ _ _
          (show S ({ best with
            bwIntra := speedAt (findSpeedIndex best.bwInter),
            bwInter := speedAt (findSpeedIndex best.bwInter),
            minChannels := best.nChannels } : Graph).crossNic from hS2) hS2
          hS3 hS0 h
      · rw [if_neg hc1] at h
        exact ihPass2T _ _ _ _ _ _ _ _ _ _ _ _ _ hS1 hS2 hS3 hS0 h
    have hPass2T : ∀ sys st searchFuel tmp best si gt trace cNL time st' g'
        trace',
        S tmp.crossNic → S best.crossNic → S cNL → S 0 →
        computePass2 (fuel + 1) sys st searchFuel tmp best si gt trace cNL
            time = some (st', g', trace') →
        ∃ ext, trace' = trace ++ ext ∧ ∀ x ∈ ext, S x := by
      intro sys st searchFuel tmp best si gt trace cNL time st' g' trace'
        hS1 hS2 hS3 hS0 h
      simp only [computePass2] at h
      by_cases hc1 : time ≠ 0 ∧ best.pattern ≠ PATTERN_RING ∧
          tmp.bwIntra = best.bwIntra ∧ tmp.bwIntra < tmp.bwInter * 2 ∧
          si > 0
      · rw [if_pos hc1] at h
        exact ihSweepT _ _ _ _ _ _ _ _ _ _ _ _ _
          (show S ({ tmp with bwIntra := speedAt (si - 1) }
            : Graph).crossNic from hS1) hS2 hS3 hS0 h
      · rw [if_neg hc1] at h
        simp only [Option.some.injEq, Prod.mk.injEq] at h
        obtain ⟨-, -, ht⟩ := h
        exact ⟨[], by rw [← ht, List.append_nil], by simp⟩
    exact ⟨hSweepT, hAfterT, hRelaxT, hDoneT, hPass2T⟩

/-- **C10** (implicit behaviour): at entry to compute a requested `crossNic`
of 2 ("auto") is replaced by 0 before any search runs, so the first sweep
iteration — and, inductively, every sweep iteration — runs the search with a
`crossNic` different from 2: the trace of candidate `crossNic` values at the
search invocations never contains 2, and its first entry is the normalized
parameter.  Moreover the sweep can raise `crossNic` to 1 only when the
system has more than one NIC: with at most one NIC every logged value is the
normalized parameter or 0. -/
theorem claim_C10_crossNic (fuel searchFuel : ℕ) (sys : Sys) (st : St)
    (graph : Graph) (p : ℤ) (st' : St) (g' : Graph) (trace : List ℤ)
    (h : ncclTopoCompute fuel searchFuel sys st graph p
      = some (st', g', trace)) :
    (∀ x ∈ trace, x ≠ 2) ∧
    trace.head? = some (if p = 2 then 0 else p) ∧
    (sys.count NET ≤ 1 →
      ∀ x ∈ trace, x = (if p = 2 then 0 else p) ∨ x = 0) := by
  simp only [ncclTopoCompute] at h
  have hnorm2 : (if p = 2 then (0 : ℤ) else p) ≠ 2 := by
    by_cases hp : p = 2
    · rw [if_pos hp]; decide
    · rw [if_neg hp]; exact hp
  have hcNL2 : (if sys.count NET > 1 ∧ p ≠ 0 then (1 : ℤ) else 0) ≠ 2 := by
    split <;> decide
  have hecn : (computeEntryGraph sys graph p).crossNic
      = (if p = 2 then 0 else p) := computeEntryGraph_crossNic sys graph p
  constructor
  · obtain ⟨ext, hext, hall⟩ := (sweep_trace fuel (fun x => x ≠ 2)).1
      _ _ _ _ _ _ _ _ _ _ _ _ _
      (by
        show (computeEntryGraph sys graph p).crossNic ≠ 2
        rw [hecn]; exact hnorm2)
      (by
        show (computeEntryGraph sys graph p).crossNic ≠ 2
        rw [hecn]; exact hnorm2)
      hcNL2 (by decide) h
    intro x hx
    rw [hext] at hx
    simpa using hall x (by simpa using hx)
  constructor
  · cases fuel with
    | zero => simp [computeSweep] at h
    | succ fuel =>
      simp only [computeSweep] at h
      cases h1 : ncclTopoSearchRec searchFuel sys st _ _ _ with
      | none => rw [h1] at h; simp at h
      | some p1 =>
        obtain ⟨st1, tmp1, best1, time1⟩ := p1
        rw [h1] at h
        simp only at h
        obtain ⟨ext, hext, -⟩ := (sweep_trace fuel (fun x => x ≠ 2)).2.1
          _ _ _ _ _ _ _ _ _ _ _ _ _ _
          (by
            obtain ⟨hm, -⟩ := (search_shape
              searchFuel).2.2.2.2.2.2.2.2.2.1 _ _ _ _ _ _ _ _ _ h1
            rw [hm.fields.2.2.1]
            show (computeEntryGraph sys graph p).crossNic ≠ 2
            rw [hecn]; exact hnorm2)
          (by
            obtain ⟨-, hsv⟩ := (search_shape
              searchFuel).2.2.2.2.2.2.2.2.2.1 _ _ _ _ _ _ _ _ _ h1
            rcases hsv with hx | hx <;> rw [hx] <;>
              · show (computeEntryGraph sys graph p).crossNic ≠ 2
                rw [hecn]; exact hnorm2)
          hcNL2 (by decide) h
        rw [hext]
        simp only [List.nil_append, List.cons_append, List.head?_cons,
          Option.some.injEq]
        exact computeEntryGraph_crossNic sys graph p
  · intro hle
    obtain ⟨ext, hext, hall⟩ := (sweep_trace fuel
        (fun x => x = (if p = 2 then 0 else p) ∨ x = 0)).1
      _ _ _ _ _ _ _ _ _ _ _ _ _
      (by
        show (computeEntryGraph sys graph p).crossNic
            = (if p = 2 then 0 else p) ∨
          (computeEntryGraph sys graph p).crossNic = 0
        exact Or.inl (computeEntryGraph_crossNic sys graph p))
      (by
        show (computeEntryGraph sys graph p).crossNic
            = (if p = 2 then 0 else p) ∨
          (computeEntryGraph sys graph p).crossNic = 0
        exact Or.inl (computeEntryGraph_crossNic sys graph p))
      (by
        show (if sys.count NET > 1 ∧ p ≠ 0 then (1 : ℤ) else 0)
            = (if p = 2 then 0 else p) ∨
          (if sys.count NET > 1 ∧ p ≠ 0 then (1 : ℤ) else 0) = 0
        rw [if_neg (show ¬(sys.count NET > 1 ∧ p ≠ 0) from
          fun hc => absurd hc.1 (by omega))]
        exact Or.inr rfl)
      (Or.inr rfl) h
    intro x hx
    rw [hext] at hx
    simpa using hall x (by simpa using hx)

/-- A single-GPU system on which a full compute run finishes in one sweep
iteration. -/
def c10Gpu : NodeS :=
  { ntype := GPU, id := 0,
    gpu := { dev := 0, cudaCompCap := 80, rank := [0] }, cpu := dfltCpu,
    net := dfltNet, links := [], paths := [[⟨[], PATH_LOC, 0⟩]] }

def c10Sys : Sys :=
  { nodes := [[c10Gpu]], nRanks := 1, romeType := false, maxBw := 24,
    totalBw := 24, intelMul := 1, gdr := fun _ _ => false }

def c10G : Graph :=
  { id := 0, pattern := PATTERN_TREE, crossNic := 0, collNet := 0,
    bwIntra := 0, bwInter := 0, typeIntra := PATH_LOC, typeInter := PATH_LOC,
    nChannels := 0, minChannels := 1, maxChannels := 1, sameChannels := 1,
    nHops := 0, latencyInter := 0, intra := fun _ => 0, inter := fun _ => 0 }

section RatEvalCompute

set_option allowUnsafeReducibility true
attribute [local semireducible] Rat.mul Rat.add Rat.sub Rat.inv

set_option maxHeartbeats 4000000 in
theorem claim_C10_witness :
    (ncclTopoCompute 6 12 c10Sys c1St c10G 2).map (fun r => r.2.2)
      = some [0] ∧
    (ncclTopoCompute 6 12 c10Sys c1St c10G 2).map (fun r => r.2.2.head?)
      = some (some (if (2 : ℤ) = 2 then 0 else 2)) ∧
    (0 : ℤ) ≠ 2 := by
  have hs : (ncclTopoCompute 6 12 c10Sys c1St c10G 2).isSome = true := by
    decide
  obtain ⟨res, hres⟩ := Option.isSome_iff_exists.mp hs
  obtain ⟨st', g', trace⟩ := res
  have h := claim_C10_crossNic 6 12 c10Sys c1St c10G 2 st' g' trace hres
  refine ⟨by decide, ?_, by decide⟩
  rw [hres, Option.map_some']
  rw [h.2.1]

end RatEvalCompute

theorem claim_C8_witness :
    ((25 : ℚ) ≤ c8G.bwIntra ∧ 0 < c8G.nChannels ∧
      c8G.nChannels * 2 ≤ c8G.maxChannels) ∧
    (computeFinish wSys c8G).nChannels = 4 ∧
    (computeFinish wSys c8G).intra 4 = c8G.intra 0 ∧
    (computeFinish wSys c8G).inter 4 = c8G.inter 0 := by
  have h25 : (25 : ℚ) ≤ c8G.bwIntra := by norm_num [c8G]
  obtain ⟨h1, -, -, h4, h5⟩ := claim_C8_duplication wSys c8G h25
    (by decide) (by decide)
  refine ⟨⟨h25, by decide, by decide⟩, h1.trans (by decide), ?_, ?_⟩
  · have := h4 0 0 (by decide) (by decide)
    simpa using this
  · have := (h5 0 (by decide)).1
    simpa using this

end RcclSearch
